import Mathlib

/-!
# MainHub firmware: command/telemetry protocol engine

A shallow embedding of the frame codec (`ble/ble_protocol.h`), the command
dispatcher (`message_processor/message_processor.c`) and the CPR session state
machine (`session/session.c`), with theorems about them.

Conventions of the embedding.

* A C byte buffer is a `List Nat`; a pointer `p + k` into it is `p.drop k`.
* Every function that touches memory returns an `Option`: `none` means that the
  C code would have read or written outside the buffer it was given (an
  out-of-bounds access).  All reads and writes go through the checked
  primitives `rd`, `rd_n`, `wr`, `memset`, `memcpy`, `memcmp_eq`.
* Return codes are `Int`; `0` is success and `-EINVAL`, `-ENOMEM`, `-ENOMSG`
  are the negative errno values.
* Machine integers are `Nat`; a narrowing store is written with an explicit
  `% 256` / `% 65536`.
-/

namespace MainHub

/-! ## Constants (message_processor.h, ble_notifications.h, errno.h) -/

/-- The 0x01 start byte, `MSG_COMMAND_BYTE_START` in message_processor.h. -/
def MSG_COMMAND_BYTE_START : Nat := 0x01
/-- The 0x3A colon byte, `MSG_COMMAND_MSG_COLON`. -/
def MSG_COMMAND_MSG_COLON : Nat := 0x3A
/-- The 0x3B semicolon byte, `MSG_COMMAND_MSG_SEMICOLON`. -/
def MSG_COMMAND_MSG_SEMICOLON : Nat := 0x3B
/-- The 0x17 end byte, `MSG_COMMAND_MSG_END`. -/
def MSG_COMMAND_MSG_END : Nat := 0x17

/-- The 0x01 start byte, `BLE_COMMAND_BYTE_START` in ble_notifications.h. -/
def BLE_COMMAND_BYTE_START : Nat := 0x01
/-- The 0x3A colon byte, `BLE_COMMAND_MSG_COLON`. -/
def BLE_COMMAND_MSG_COLON : Nat := 0x3A
/-- The 0x3B semicolon byte, `BLE_COMMAND_MSG_SEMICOLON`. -/
def BLE_COMMAND_MSG_SEMICOLON : Nat := 0x3B
/-- The 0x17 end byte, `BLE_COMMAND_MSG_END`. -/
def BLE_COMMAND_MSG_END : Nat := 0x17

def CMD_CONTROL_LED_OFF : Nat := 0x00
def CMD_CONTROL_LED_ON : Nat := 0x01
def CMD_CONTROL_START : Nat := 0x02
def CMD_COMMAND_STOP : Nat := 0x03
def CMD_COMMAND_DATA : Nat := 0x04
def CMD_COMMAND_TIMEDATA : Nat := 0x05
/-- The define `CPR_CONTROL_START CMD_CONTROL_START` of message_processor.h. -/
def CPR_CONTROL_START : Nat := CMD_CONTROL_START
/-- The define `CPR_COMMAND_STOP CMD_COMMAND_STOP` of message_processor.h. -/
def CPR_COMMAND_STOP : Nat := CMD_COMMAND_STOP

/-- The C string "in:" (without its terminating NUL). -/
def USER_ROLE_INSTRUCTOR_PREFIX : List Nat := [0x69, 0x6E, 0x3A]
/-- The C string "tr:" (without its terminating NUL). -/
def USER_ROLE_TRAINEE_PREFIX : List Nat := [0x74, 0x72, 0x3A]
def USER_ROLE_INSTRUCTOR : Nat := 1
def USER_ROLE_TRAINEE : Nat := 2
def USER_ROLE_NONE : Nat := 0

def MSG_BUFFER_SIZE : Nat := 40
def MSG_QUEUE_SIZE : Nat := 10

/-- The errno value EINVAL. -/
def EINVAL : Int := 22
/-- The errno value ENOMEM. -/
def ENOMEM : Int := 12
/-- The errno value ENOMSG, which `k_msgq_put` returns (negated) on a full queue. -/
def ENOMSG : Int := 35

/-! ## Checked memory primitives -/

/-- Read `buf[i]`; `none` when `i` is outside the buffer. -/
def rd (buf : List Nat) (i : Nat) : Option Nat := buf[i]?

/-- Read the `n` bytes `buf[0..n)`; `none` when the buffer is shorter. -/
def rd_n (buf : List Nat) (n : Nat) : Option (List Nat) :=
  if n ≤ buf.length then some (buf.take n) else none

/-- Write `buf[i] = v`; `none` when `i` is outside the buffer. -/
def wr (buf : List Nat) (i : Nat) (v : Nat) : Option (List Nat) :=
  if i < buf.length then some (buf.set i v) else none

/-- The call `memset(buf, v, n)`; `none` when `buf` holds fewer than `n` bytes. -/
def memset (buf : List Nat) (v : Nat) (n : Nat) : Option (List Nat) :=
  if n ≤ buf.length then some (List.replicate n v ++ buf.drop n) else none

/-- The call `memcpy(dst, src, n)`: reads `src[0..n)` and writes `dst[0..n)`;
`none` when either side is shorter than `n`. -/
def memcpy (dst src : List Nat) (n : Nat) : Option (List Nat) :=
  (rd_n src n).bind fun bytes =>
  if n ≤ dst.length then some (bytes ++ dst.drop n) else none

/-- The test `memcmp(a, b, n) == 0`; `none` when either side is shorter than `n`. -/
def memcmp_eq (a b : List Nat) (n : Nat) : Option Bool :=
  (rd_n a n).bind fun x => (rd_n b n).bind fun y => some (decide (x = y))

/-! ## Frame codec: ble/ble_protocol.h -/

/-- The function `format_ble_command` of ble_protocol.h (lines 38-71).
`buffer` is the (non-NULL) destination array and `buf_size` the capacity the
caller announces; `payload = none` is the NULL payload.  The result is the
return value and the destination after the call. -/
def format_ble_command (buffer : List Nat) (buf_size : Nat) (cmd : Nat)
    (payload : Option (List Nat)) (payload_len : Nat) : Option (Int × List Nat) :=
  if buf_size < 6 then some (-EINVAL, buffer)
  else
    let total_len := 6 + payload_len
    if buf_size < total_len then some (-ENOMEM, buffer)
    else
      let i := 0
      (wr buffer i BLE_COMMAND_BYTE_START).bind fun b1 =>
      let i := i + 1
      (wr b1 i ((payload_len + 1) % 256)).bind fun b2 =>
      let i := i + 1
      (wr b2 i BLE_COMMAND_MSG_COLON).bind fun b3 =>
      let i := i + 1
      (wr b3 i cmd).bind fun b4 =>
      let i := i + 1
      (match payload with
       | some p =>
         if payload_len > 0 then
           (memcpy (b4.drop i) p payload_len).bind fun tail =>
             some (b4.take i ++ tail, i + payload_len)
         else some (b4, i)
       | none => some (b4, i)).bind fun (b5, i) =>
      (wr b5 i BLE_COMMAND_MSG_SEMICOLON).bind fun b6 =>
      let i := i + 1
      (wr b6 i BLE_COMMAND_MSG_END).bind fun b7 =>
      let i := i + 1
      some ((i : Int), b7)

/-! ## Session state machine: session/session.c -/

/-- The globals of session.c that the dispatcher reaches: the LED request
flags (lines 335-336), the CPR session timing (lines 339-340) and whether the
session log `session_file` is open. -/
structure SessionState where
  led_request_pending : Bool
  led_requested_state : Bool
  cpr_session_start_time : Nat
  cpr_session_active : Bool
  session_file_open : Bool
  deriving DecidableEq, Repr

/-- What the collaborators answer during one call: the two successive readings
of `k_uptime_get_32()` in `start_cpr_session`, the return values of `fs_open`
and `fs_write`, and whether `HAL_RTC_Init` answers `HAL_OK`. -/
structure Env where
  uptime_guard : Nat
  uptime_start : Nat
  fs_open_ret : Int
  fs_write_ret : Int
  hal_rtc_init_ok : Bool
  deriving DecidableEq, Repr

/-- A reading of `k_uptime_get_32()`: the millisecond uptime as a uint32_t. -/
def k_uptime_get_32 (reading : Nat) : Nat := reading % 2 ^ 32

/-- The function `start_cpr_session` of session.c (lines 358-402).  The calls
`get_instructor_id` and `get_time_data` fill local buffers that are not used
afterwards and are left out. -/
def start_cpr_session (s : SessionState) (env : Env) : SessionState :=
  if k_uptime_get_32 env.uptime_guard < 1000 then s
  else
    let s1 := { s with cpr_session_start_time := k_uptime_get_32 env.uptime_start }
    let ret := env.fs_open_ret
    if ret < 0 then s1
    else
      let s2 := { s1 with session_file_open := true }
      let written := env.fs_write_ret
      if written < 0 then { s2 with session_file_open := false }
      else { s2 with cpr_session_active := true }

/-- The function `stop_cpr_session` of session.c (lines 405-443).  The elapsed
time it computes is only logged. -/
def stop_cpr_session (s : SessionState) : SessionState :=
  if ¬ s.cpr_session_active then s
  else
    { s with cpr_session_active := false
             cpr_session_start_time := 0
             session_file_open := false }

/-- The function `is_cpr_session_active` of session.c (lines 343-354). -/
def is_cpr_session_active (s : SessionState) : Bool := s.cpr_session_active

/-- Subtraction of two uint32_t values: the difference modulo 2^32. -/
def sub_u32 (a b : Nat) : Nat := (a % 2 ^ 32 + 2 ^ 32 - b % 2 ^ 32) % 2 ^ 32

/-- The function `get_cpr_session_time` of session.c (lines 445-456); `now` is
the reading of `k_uptime_get_32()` taken by the call. -/
def get_cpr_session_time (s : SessionState) (now : Nat) : Nat :=
  if ¬ s.cpr_session_active then 0
  else
    let current_time := k_uptime_get_32 now
    let elapsed_ms := sub_u32 current_time s.cpr_session_start_time
    elapsed_ms / 1000

/-! ## Command dispatcher: message_processor/message_processor.c -/

/-- The statics of message_processor.c (lines 19-25), the RTC that
`process_time_data` drives (its static `rtc_initialized` and the time and date
last handed to `HAL_RTC_SetTime` / `HAL_RTC_SetDate`), and the session globals. -/
structure State where
  instructor_id : List Nat
  trainee_id : List Nat
  current_user_role : Nat
  time_data : List Nat
  has_time_data : Bool
  rtc_initialized : Bool
  rtc_time : Nat × Nat × Nat
  rtc_date : Nat × Nat × Nat
  sess : SessionState
  deriving DecidableEq, Repr

/-- The declared sizes of the static buffers: `instructor_id[MSG_BUFFER_SIZE/2]`,
`trainee_id[MSG_BUFFER_SIZE/2]` and `time_data[18]`. -/
def State.wf (st : State) : Prop :=
  st.instructor_id.length = MSG_BUFFER_SIZE / 2 ∧
  st.trainee_id.length = MSG_BUFFER_SIZE / 2 ∧
  st.time_data.length = 18

instance (st : State) : Decidable st.wf := by
  unfold State.wf; infer_instance

/-- The state after `message_processor_init` (lines 87-110) on a freshly booted
system: zeroed identity buffers, no role, and every other static at its C
initialiser. -/
def message_processor_init : State :=
  { instructor_id := List.replicate (MSG_BUFFER_SIZE / 2) 0
    trainee_id := List.replicate (MSG_BUFFER_SIZE / 2) 0
    current_user_role := USER_ROLE_NONE
    time_data := List.replicate 18 0
    has_time_data := false
    rtc_initialized := false
    rtc_time := (0, 0, 0)
    rtc_date := (0, 0, 0)
    sess :=
      { led_request_pending := false
        led_requested_state := false
        cpr_session_start_time := 0
        cpr_session_active := false
        session_file_open := false } }

/-- The helper `request_led_state` (lines 115-119). -/
def request_led_state (st : State) (state : Bool) : State :=
  { st with sess := { st.sess with led_requested_state := state, led_request_pending := true } }

/-- The helper `process_id_string` (lines 124-163).  `data` is never NULL at its
call sites. -/
def process_id_string (st : State) (data : List Nat) (len : Nat) (is_instructor : Bool) :
    Option State :=
  if len = 0 then some st
  else
    let prefix_len :=
      (if is_instructor then USER_ROLE_INSTRUCTOR_PREFIX else USER_ROLE_TRAINEE_PREFIX).length
    if len ≤ prefix_len then some st
    else
      let id_storage := if is_instructor then st.instructor_id else st.trainee_id
      let max_id_len := MSG_BUFFER_SIZE / 2 - 1
      let avail_data := len - prefix_len
      let id_len := if avail_data < max_id_len then avail_data else max_id_len
      (memset id_storage 0 (max_id_len + 1)).bind fun b1 =>
      (memcpy b1 (data.drop prefix_len) id_len).bind fun b2 =>
      (wr b2 id_len 0).bind fun b3 =>
      let st1 := if is_instructor then { st with instructor_id := b3 }
                 else { st with trainee_id := b3 }
      let st2 := { st1 with current_user_role :=
                     if is_instructor then USER_ROLE_INSTRUCTOR else USER_ROLE_TRAINEE }
      some (request_led_state st2 true)

/-- The C library predicate `isspace` in the "C" locale. -/
def isspace (c : Nat) : Bool := c = 0x20 || (0x09 ≤ c && c ≤ 0x0D)

/-- The C library predicate `isdigit`. -/
def isdigit (c : Nat) : Bool := 0x30 ≤ c && c ≤ 0x39

/-- The digit loop of `atoi`: accumulate decimal digits until the first byte
that is not a digit (the terminating NUL included). -/
def atoi_digits : List Nat → Nat → Nat
  | [], acc => acc
  | c :: cs, acc => if isdigit c then atoi_digits cs (acc * 10 + (c - 0x30)) else acc

/-- The C library function `atoi` on the string held in `s`: leading white
space, an optional sign, then decimal digits. -/
def atoi (s : List Nat) : Int :=
  match s.dropWhile isspace with
  | 0x2D :: cs => -(atoi_digits cs 0 : Int)
  | 0x2B :: cs => (atoi_digits cs 0 : Int)
  | cs => (atoi_digits cs 0 : Int)

/-- The conversion `(uint8_t)x` of an int. -/
def to_u8 (x : Int) : Nat := (x % 256).toNat

/-- The conversion `(uint16_t)x` of an int. -/
def to_u16 (x : Int) : Nat := (x % 65536).toNat

/-- The helper `process_time_data` of message_processor.c (lines 168-306).
Each field is copied from `time_data` into the local `temp`, terminated and
converted with `atoi`; the milliseconds are only logged. -/
def process_time_data (st : State) (env : Env) (data_payload : List Nat) (data_len : Nat) :
    Option State :=
  let expected_time_len_min := 14
  if data_len < expected_time_len_min then some st
  else
    let copy_len := if data_len < 18 - 1 then data_len else 18 - 1
    (memcpy st.time_data data_payload copy_len).bind fun td1 =>
    (wr td1 copy_len 0).bind fun td =>
    (rd_n td 4).bind fun f_year =>
    let year := to_u16 (atoi f_year)
    (rd_n (td.drop 4) 2).bind fun f_month =>
    let month := to_u8 (atoi f_month)
    (rd_n (td.drop 6) 2).bind fun f_day =>
    let day := to_u8 (atoi f_day)
    (rd_n (td.drop 8) 2).bind fun f_hour =>
    let hour := to_u8 (atoi f_hour)
    (rd_n (td.drop 10) 2).bind fun f_minute =>
    let minute := to_u8 (atoi f_minute)
    (rd_n (td.drop 12) 2).bind fun f_second =>
    let second := to_u8 (atoi f_second)
    (if copy_len ≥ 16 then (rd_n (td.drop 14) 2).map fun _ => () else some ()).bind fun _ =>
    let st1 := { st with time_data := td, has_time_data := true }
    let rtc_time := (hour, minute, second)
    let rtc_date := (to_u8 ((year : Int) - 2000), month, day)
    let st2 := if ¬ st1.rtc_initialized then
                 (if env.hal_rtc_init_ok then { st1 with rtc_initialized := true } else st1)
               else st1
    let st3 := if st2.rtc_initialized then { st2 with rtc_time := rtc_time, rtc_date := rtc_date }
               else st2
    some (request_led_state st3 true)

/-- The helper `process_cpr_data` (lines 311-335). -/
def process_cpr_data (st : State) (data_payload : List Nat) (data_len : Nat) : Option State :=
  (rd_n data_payload data_len).bind fun _ =>
  if data_len > 3 then
    (if data_len ≥ USER_ROLE_INSTRUCTOR_PREFIX.length + 1 then
       memcmp_eq (data_payload.drop 1) USER_ROLE_INSTRUCTOR_PREFIX
         USER_ROLE_INSTRUCTOR_PREFIX.length
     else some false).bind fun is_in =>
    if is_in then process_id_string st (data_payload.drop 1) (data_len - 1) true
    else
      (if data_len ≥ USER_ROLE_TRAINEE_PREFIX.length + 1 then
         memcmp_eq (data_payload.drop 1) USER_ROLE_TRAINEE_PREFIX
           USER_ROLE_TRAINEE_PREFIX.length
       else some false).bind fun is_tr =>
      if is_tr then process_id_string st (data_payload.drop 1) (data_len - 1) false
      else some st
  else some st

/-- The function `process_direct_command` (lines 337-377). -/
def process_direct_command (st : State) (env : Env) (cmd_byte : Nat) : Int × State :=
  if cmd_byte = CMD_CONTROL_LED_OFF then (0, request_led_state st false)
  else if cmd_byte = CMD_CONTROL_LED_ON then (0, request_led_state st true)
  else if cmd_byte = CPR_CONTROL_START then
    let st1 := request_led_state st true
    (0, { st1 with sess := start_cpr_session st1.sess env })
  else if cmd_byte = CPR_COMMAND_STOP then
    let st1 := request_led_state st false
    (0, { st1 with sess := stop_cpr_session st1.sess })
  else (-EINVAL, st)

/-- The diagnostic reads at the head of `process_command` (lines 381-405): the
bytes are only logged, but they are read. -/
def log_command_format (cmd_data : List Nat) (len : Nat) : Option Unit :=
  (if len ≥ 6 then
     (rd cmd_data 0).bind fun b0 =>
     if b0 = BLE_COMMAND_BYTE_START then
       (rd cmd_data 2).bind fun b2 => some (decide (b2 = BLE_COMMAND_MSG_COLON))
     else some false
   else some false).bind fun protocol_formatted =>
  if protocol_formatted then
    (rd cmd_data 1).bind fun _length_byte =>
    (rd cmd_data 3).bind fun _command_byte =>
    (rd cmd_data 0).bind fun _ =>
    (rd cmd_data 2).bind fun _ => some ()
  else
    (if len > 0 then rd cmd_data 0 else some 0).bind fun _ =>
    (if len > 1 then rd cmd_data 1 else some 0).bind fun _ =>
    (if len > 2 then rd cmd_data 2 else some 0).bind fun _ =>
    (if len > 3 then rd cmd_data 3 else some 0).bind fun _ => some ()

/-- The test `len >= strlen(pfx) && memcmp(cmd_data, pfx, strlen(pfx)) == 0` of
lines 411-412 and 419-420. -/
def starts_with (cmd_data : List Nat) (len : Nat) (pfx : List Nat) : Option Bool :=
  if len ≥ pfx.length then memcmp_eq cmd_data pfx pfx.length else some false

/-- The structural checks of `process_command` (lines 426-486): `Sum.inl e` is
the rejection `return e`, `Sum.inr data_len` lets the frame through to the
dispatch with the length byte it carries. -/
def frame_checks (cmd_data : List Nat) (len : Nat) : Option (Int ⊕ Nat) :=
  if len < 5 then some (Sum.inl (-EINVAL))
  else
  (rd cmd_data 0).bind fun b0 =>
  if b0 ≠ MSG_COMMAND_BYTE_START then some (Sum.inl (-EINVAL))
  else
  (if len > 1 then (rd cmd_data 1).map some else some none).bind fun got_len =>
  match got_len with
  | none => some (Sum.inl (-EINVAL))
  | some data_len =>
  if data_len > MSG_BUFFER_SIZE then some (Sum.inl (-EINVAL))
  else
  let expected_total_len := 5 + data_len
  if expected_total_len > len then some (Sum.inl (-EINVAL))
  else
  (if len > 2 then
     (rd cmd_data 2).bind fun b2 => some (decide (b2 ≠ MSG_COMMAND_MSG_COLON))
   else some false).bind fun bad_colon =>
  if bad_colon then some (Sum.inl (-EINVAL))
  else
  let semicolon_pos := 3 + data_len
  (if semicolon_pos < len then
     (rd cmd_data semicolon_pos).bind fun b => some (decide (b ≠ MSG_COMMAND_MSG_SEMICOLON))
   else some false).bind fun bad_semicolon =>
  if bad_semicolon then some (Sum.inl (-EINVAL))
  else
  let end_pos := 4 + data_len
  (if end_pos < len then
     (rd cmd_data end_pos).bind fun b => some (decide (b ≠ MSG_COMMAND_MSG_END))
   else some false).bind fun bad_end =>
  if bad_end then some (Sum.inl (-EINVAL))
  else some (Sum.inr data_len)

/-- The dispatch of `process_command` on a frame that passed the checks (lines
488-555): the command byte is `cmd_data[3]`. -/
def dispatch_command (st : State) (env : Env) (cmd_data : List Nat) (len : Nat)
    (data_len : Nat) : Option (Int × State) :=
  if data_len > 0 then
    if 3 + data_len ≤ len then
      (rd cmd_data 3).bind fun command =>
      if command = CMD_CONTROL_LED_OFF then some (0, request_led_state st false)
      else if command = CMD_CONTROL_LED_ON then some (0, request_led_state st true)
      else if command = CPR_CONTROL_START then
        let st1 := request_led_state st true
        some (0, { st1 with sess := start_cpr_session st1.sess env })
      else if command = CPR_COMMAND_STOP then
        let st1 := request_led_state st false
        some (0, { st1 with sess := stop_cpr_session st1.sess })
      else if command = CMD_COMMAND_DATA then
        (process_cpr_data st (cmd_data.drop 3) data_len).bind fun st1 => some (0, st1)
      else if command = CMD_COMMAND_TIMEDATA then
        (rd_n (cmd_data.drop 3) (min data_len 20)).bind fun _ =>
        if data_len > 1 then
          (process_time_data st env (cmd_data.drop 4) (data_len - 1)).bind fun st1 =>
            some (0, st1)
        else some (0, st)
      else some (-EINVAL, st)
    else some (-EINVAL, st)
  else some (0, st)

/-- The function `process_command` of message_processor.c (lines 379-556):
diagnostic reads, the two unframed identity forms, the structural checks, the
dispatch. -/
def process_command (st : State) (env : Env) (cmd_data : List Nat) (len : Nat) :
    Option (Int × State) :=
  (log_command_format cmd_data len).bind fun _ =>
  (starts_with cmd_data len USER_ROLE_INSTRUCTOR_PREFIX).bind fun is_in =>
  if is_in then (process_id_string st cmd_data len true).bind fun st1 => some (0, st1)
  else
  (starts_with cmd_data len USER_ROLE_TRAINEE_PREFIX).bind fun is_tr =>
  if is_tr then (process_id_string st cmd_data len false).bind fun st1 => some (0, st1)
  else
  (frame_checks cmd_data len).bind fun checked =>
  match checked with
  | Sum.inl e => some (e, st)
  | Sum.inr data_len => dispatch_command st env cmd_data len data_len

/-- The C string held in a buffer: the bytes before the first NUL. -/
def c_string (buf : List Nat) : List Nat := buf.takeWhile (· ≠ 0)

/-- The getter `get_instructor_id` (lines 558-575) for a non-NULL `buffer` of
`size` bytes: the string it leaves in `buffer` and the length it returns. -/
def get_instructor_id (st : State) (size : Nat) : List Nat × Nat :=
  if size = 0 then ([], 0)
  else
    let id_len := (c_string st.instructor_id).length
    if id_len = 0 then ([], 0)
    else
      let copy_len := if id_len < size - 1 then id_len else size - 1
      (st.instructor_id.take copy_len, copy_len)

/-- The getter `get_trainee_id` (lines 577-594) for a non-NULL `buffer`. -/
def get_trainee_id (st : State) (size : Nat) : List Nat × Nat :=
  if size = 0 then ([], 0)
  else
    let id_len := (c_string st.trainee_id).length
    if id_len = 0 then ([], 0)
    else
      let copy_len := if id_len < size - 1 then id_len else size - 1
      (st.trainee_id.take copy_len, copy_len)

/-- The getter `get_user_role` (lines 596-599). -/
def get_user_role (st : State) : Nat := st.current_user_role

/-! ### The command queue: submit_command and the worker -/

/-- Modelled from the spec: the bounded envelope queue.  The source only
declares it, `K_MSGQ_DEFINE(command_msgq, MSG_BUFFER_SIZE, MSG_QUEUE_SIZE, 4)`
(line 32); the queue itself is the kernel's.  It is a FIFO of at most
`MSG_QUEUE_SIZE` envelopes of `MSG_BUFFER_SIZE` bytes, copied in by value. -/
structure MsgQ where
  msgs : List (List Nat)
  deriving DecidableEq, Repr

/-- Modelled from the spec: the kernel call
`k_msgq_put(&command_msgq, data, K_NO_WAIT)`, whose code is not in the
repository.  It never blocks: it copies one envelope of `MSG_BUFFER_SIZE` bytes
into the queue and returns 0, or, when the queue is full, returns the error
`-ENOMSG` at once and enqueues nothing (queue-full is reported to the caller). -/
def k_msgq_put (q : MsgQ) (data : List Nat) : Option (Int × MsgQ) :=
  (rd_n data MSG_BUFFER_SIZE).bind fun msg =>
  if q.msgs.length < MSG_QUEUE_SIZE then some (0, { msgs := q.msgs ++ [msg] })
  else some (-ENOMSG, q)

/-- The function `submit_command` (lines 701-724).  `buf` is the static
`static_submit_buffer[MSG_BUFFER_SIZE]`, `cmd_data = none` the NULL pointer.
The result is the return value, the static buffer and the queue after the call. -/
def submit_command (buf : List Nat) (q : MsgQ) (cmd_data : Option (List Nat)) (len : Nat) :
    Option (Int × List Nat × MsgQ) :=
  match cmd_data with
  | none => some (-EINVAL, buf, q)
  | some data =>
    if len = 0 ∨ len > MSG_BUFFER_SIZE - 3 then some (-EINVAL, buf, q)
    else
      (wr buf 0 1).bind fun b1 =>
      (wr b1 1 ((len >>> 8) &&& 0xFF)).bind fun b2 =>
      (wr b2 2 (len &&& 0xFF)).bind fun b3 =>
      (memcpy (b3.drop 3) data len).bind fun tail =>
      let b4 := b3.take 3 ++ tail
      (k_msgq_put q b4).bind fun (ret, q1) =>
      some (ret, b4, q1)

/-- One turn of the loop of `processor_thread_func` (lines 53-84) on the
message `cmd_buffer` that `k_msgq_get` returned: the state the handlers leave.
The value the handlers return is dropped, as in the source. -/
def processor_thread_func (st : State) (env : Env) (cmd_buffer : List Nat) : Option State :=
  (rd cmd_buffer 0).bind fun cmd_type =>
  if cmd_type = 0 then
    (rd cmd_buffer 1).bind fun cmd_byte =>
    some (process_direct_command st env cmd_byte).2
  else
    (rd cmd_buffer 1).bind fun b1 =>
    (rd cmd_buffer 2).bind fun b2 =>
    let cmd_len := ((b1 <<< 8) ||| b2) % 65536
    (if cmd_len ≥ 4 then (rd_n (cmd_buffer.drop 3) 4).map fun _ => () else some ()).bind fun _ =>
    (process_command st env (cmd_buffer.drop 3) cmd_len).bind fun r => some r.2

/-! ## The simplified dispatcher: message_processor/message_processor_simple.c -/

namespace Simple

/-- The static `rtc_base` of message_processor_simple.c (lines 27-36): the
calendar fields of the base time and the tick at which it was set. -/
structure RtcBase where
  year : Int
  month : Int
  day : Int
  hour : Int
  min : Int
  sec : Int
  base_ticks : Nat
  deriving DecidableEq, Repr

/-- The statics of message_processor_simple.c (lines 19-36) and the session
globals it reaches. -/
structure State where
  instructor_id : List Nat
  trainee_id : List Nat
  current_user_role : Nat
  time_data : List Nat
  has_time_data : Bool
  rtc_base : RtcBase
  sess : SessionState
  deriving DecidableEq, Repr

/-- The sizes of the static buffers: `instructor_id[20]`, `trainee_id[20]`,
`time_data[18]`. -/
def State.wf (st : State) : Prop :=
  st.instructor_id.length = MSG_BUFFER_SIZE / 2 ∧
  st.trainee_id.length = MSG_BUFFER_SIZE / 2 ∧
  st.time_data.length = 18

instance (st : State) : Decidable st.wf := by
  unfold State.wf
  infer_instance

/-- The statics after `message_processor_init` (lines 91-103) on a freshly
booted device. -/
def message_processor_init : State :=
  { instructor_id := List.replicate (MSG_BUFFER_SIZE / 2) 0
    trainee_id := List.replicate (MSG_BUFFER_SIZE / 2) 0
    current_user_role := USER_ROLE_NONE
    time_data := List.replicate 18 0
    has_time_data := false
    rtc_base := ⟨0, 0, 0, 0, 0, 0, 0⟩
    sess :=
      { led_request_pending := false
        led_requested_state := false
        cpr_session_start_time := 0
        cpr_session_active := false
        session_file_open := false } }

/-- The helper `request_led_state` (lines 122-127). -/
def request_led_state (st : State) (state : Bool) : State :=
  { st with sess := { st.sess with led_requested_state := state, led_request_pending := true } }

/-- The helper `process_time_data` of message_processor_simple.c (lines
182-268); `now` is the reading of `k_uptime_get_32()` taken when the base time
is stored.  Each field is copied from `time_data` into a zeroed local string
and converted with `atoi`. -/
def process_time_data (st : State) (now : Nat) (data_payload : List Nat) (data_len : Nat) :
    Option State :=
  let expected_time_len_min := 14
  if data_len < expected_time_len_min then some st
  else
    let copy_len := if data_len < 18 - 1 then data_len else 18 - 1
    (memcpy st.time_data data_payload copy_len).bind fun td1 =>
    (wr td1 copy_len 0).bind fun td =>
    let st1 := { st with time_data := td, has_time_data := true }
    (if copy_len ≥ 14 then
       (rd_n td 4).bind fun year_str =>
       (rd_n (td.drop 4) 2).bind fun month_str =>
       (rd_n (td.drop 6) 2).bind fun day_str =>
       (rd_n (td.drop 8) 2).bind fun hour_str =>
       (rd_n (td.drop 10) 2).bind fun min_str =>
       (rd_n (td.drop 12) 2).bind fun sec_str =>
       let year := atoi year_str
       let month := atoi month_str
       let day := atoi day_str
       let hour := atoi hour_str
       let min := atoi min_str
       let sec := atoi sec_str
       if year ≥ 2023 ∧ year ≤ 2100 ∧
          month ≥ 1 ∧ month ≤ 12 ∧
          day ≥ 1 ∧ day ≤ 31 ∧
          hour ≥ 0 ∧ hour ≤ 23 ∧
          min ≥ 0 ∧ min ≤ 59 ∧
          sec ≥ 0 ∧ sec ≤ 59 then
         some { st1 with rtc_base :=
                  { year := year, month := month, day := day, hour := hour, min := min,
                    sec := sec, base_ticks := k_uptime_get_32 now } }
       else some st1
     else some st1).bind fun st2 =>
    let st3 := request_led_state st2 true
    let st4 := request_led_state st3 false
    some (request_led_state st4 true)

/-- The getter `get_time_data` (lines 472-487) for a non-NULL `buffer` of
`size` bytes: the string it leaves in `buffer` and the length it returns. -/
def get_time_data (st : State) (size : Nat) : List Nat × Nat :=
  if size = 0 ∨ ¬ st.has_time_data then ([], 0)
  else
    let time_len := (c_string st.time_data).length
    if time_len = 0 then ([], 0)
    else
      let copy_len := if time_len < size - 1 then time_len else size - 1
      (st.time_data.take copy_len, copy_len)

/-- The getter `has_received_time_data` (lines 489-492). -/
def has_received_time_data (st : State) : Bool := st.has_time_data

/-- The table `days_in_month` of `add_seconds_to_time` (line 497). -/
def days_in_month : List Int := [0, 31, 28, 31, 30, 31, 30, 31, 31, 30, 31, 30, 31]

/-- The conversion of an unsigned 32-bit result to `int` (two's complement). -/
def to_i32 (x : Int) : Int :=
  let r := x % 2 ^ 32
  if r < 2 ^ 31 then r else r - 2 ^ 32

/-- The `while (1)` loop of `add_seconds_to_time` (lines 521-543) on `*year`,
`*month`, `*day`.  The answer is `none` when the table `days_in_month` is read
outside its 13 entries or when the loop has not left after `fuel` rounds. -/
def month_loop : Nat → Int → Int → Int → Option (Int × Int × Int)
  | 0, _, _, _ => none
  | fuel + 1, year, month, day =>
    (if 0 ≤ month then days_in_month[month.toNat]? else none).bind fun table_days =>
    let max_days :=
      if month = 2 ∧ (Int.tmod year 4 = 0 ∧ (Int.tmod year 100 ≠ 0 ∨ Int.tmod year 400 = 0))
      then 29 else table_days
    if day ≤ max_days then some (year, month, day)
    else
      let day := day - max_days
      let month := month + 1
      if month > 12 then month_loop fuel (year + 1) 1 day
      else month_loop fuel year month day

/-- The helper `add_seconds_to_time` (lines 494-544): the six fields after the
call.  `*sec += seconds` adds a `uint32_t` to an `int`, so the sum is taken
modulo 2^32; `/` and `%` of C truncate (`Int.tdiv`, `Int.tmod`); the other
additions are taken in the integers. -/
def add_seconds_to_time (fuel : Nat) (year month day hour min sec : Int) (seconds : Nat) :
    Option (Int × Int × Int × Int × Int × Int) :=
  let sec1 := to_i32 (sec + (seconds : Int))
  let min1 := if sec1 ≥ 60 then min + Int.tdiv sec1 60 else min
  let sec2 := if sec1 ≥ 60 then Int.tmod sec1 60 else sec1
  let hour1 := if min1 ≥ 60 then hour + Int.tdiv min1 60 else hour
  let min2 := if min1 ≥ 60 then Int.tmod min1 60 else min1
  let day1 := if hour1 ≥ 24 then day + Int.tdiv hour1 24 else day
  let hour2 := if hour1 ≥ 24 then Int.tmod hour1 24 else hour1
  (month_loop fuel year month day1).map fun r => (r.1, r.2.1, r.2.2, hour2, min2, sec2)

/-- The helper `process_id_string` of message_processor_simple.c (lines
133-175); the same code as in message_processor.c. -/
def process_id_string (st : State) (data : List Nat) (len : Nat) (is_instructor : Bool) :
    Option State :=
  if len = 0 then some st
  else
    let prefix_len :=
      (if is_instructor then USER_ROLE_INSTRUCTOR_PREFIX else USER_ROLE_TRAINEE_PREFIX).length
    if len ≤ prefix_len then some st
    else
      let id_storage := if is_instructor then st.instructor_id else st.trainee_id
      let max_id_len := MSG_BUFFER_SIZE / 2 - 1
      let avail_data := len - prefix_len
      let id_len := if avail_data < max_id_len then avail_data else max_id_len
      (memset id_storage 0 (max_id_len + 1)).bind fun b1 =>
      (memcpy b1 (data.drop prefix_len) id_len).bind fun b2 =>
      (wr b2 id_len 0).bind fun b3 =>
      let st1 := if is_instructor then { st with instructor_id := b3 }
                 else { st with trainee_id := b3 }
      let st2 := { st1 with current_user_role :=
                     if is_instructor then USER_ROLE_INSTRUCTOR else USER_ROLE_TRAINEE }
      some (request_led_state st2 true)

/-- The helper `process_cpr_data` of message_processor_simple.c (lines
273-297); the debug loop reads the first `min data_len 20` bytes. -/
def process_cpr_data (st : State) (data_payload : List Nat) (data_len : Nat) : Option State :=
  (rd_n data_payload (min data_len 20)).bind fun _ =>
  if data_len > 3 then
    (if data_len ≥ USER_ROLE_INSTRUCTOR_PREFIX.length + 1 then
       memcmp_eq (data_payload.drop 1) USER_ROLE_INSTRUCTOR_PREFIX
         USER_ROLE_INSTRUCTOR_PREFIX.length
     else some false).bind fun is_in =>
    if is_in then process_id_string st (data_payload.drop 1) (data_len - 1) true
    else
      (if data_len ≥ USER_ROLE_TRAINEE_PREFIX.length + 1 then
         memcmp_eq (data_payload.drop 1) USER_ROLE_TRAINEE_PREFIX
           USER_ROLE_TRAINEE_PREFIX.length
       else some false).bind fun is_tr =>
      if is_tr then process_id_string st (data_payload.drop 1) (data_len - 1) false
      else some st
  else some st

/-- The function `process_command` of message_processor_simple.c (lines
336-424); `now` is the tick `process_time_data` reads. -/
def process_command (st : State) (env : Env) (now : Nat) (cmd_data : List Nat) (len : Nat) :
    Option (Int × State) :=
  (starts_with cmd_data len USER_ROLE_INSTRUCTOR_PREFIX).bind fun is_in =>
  if is_in then (process_id_string st cmd_data len true).bind fun st1 => some (0, st1)
  else
  (starts_with cmd_data len USER_ROLE_TRAINEE_PREFIX).bind fun is_tr =>
  if is_tr then (process_id_string st cmd_data len false).bind fun st1 => some (0, st1)
  else
  if len < 5 then some (-EINVAL, st)
  else
  (rd cmd_data 0).bind fun b0 =>
  if b0 ≠ MSG_COMMAND_BYTE_START then some (-EINVAL, st)
  else
  (if len > 3 then rd cmd_data 3 else some 0xFF).bind fun command =>
  if command = CMD_CONTROL_LED_OFF then some (0, request_led_state st false)
  else if command = CMD_CONTROL_LED_ON then some (0, request_led_state st true)
  else if command = CMD_CONTROL_START then
    let st1 := request_led_state st true
    some (0, { st1 with sess := start_cpr_session st1.sess env })
  else if command = CMD_COMMAND_STOP then
    let st1 := request_led_state st false
    some (0, { st1 with sess := stop_cpr_session st1.sess })
  else if command = CMD_COMMAND_DATA then
    if len > 4 then
      (process_cpr_data st (cmd_data.drop 3) (len - 3)).bind fun st1 => some (0, st1)
    else some (0, st)
  else if command = CMD_COMMAND_TIMEDATA then
    if len > 4 then
      (process_time_data st now (cmd_data.drop 4) (len - 4)).bind fun st1 => some (0, st1)
    else some (0, st)
  else some (-EINVAL, st)

/-- The getter `get_instructor_id` (lines 427-444) for a non-NULL `buffer` of
`size` bytes: the string it leaves in `buffer` and the length it returns. -/
def get_instructor_id (st : State) (size : Nat) : List Nat × Nat :=
  if size = 0 then ([], 0)
  else
    let id_len := (c_string st.instructor_id).length
    if id_len = 0 then ([], 0)
    else
      let copy_len := if id_len < size - 1 then id_len else size - 1
      (st.instructor_id.take copy_len, copy_len)

/-- The getter `get_trainee_id` (lines 446-463) for a non-NULL `buffer`. -/
def get_trainee_id (st : State) (size : Nat) : List Nat × Nat :=
  if size = 0 then ([], 0)
  else
    let id_len := (c_string st.trainee_id).length
    if id_len = 0 then ([], 0)
    else
      let copy_len := if id_len < size - 1 then id_len else size - 1
      (st.trainee_id.take copy_len, copy_len)

/-- The getter `get_user_role` (lines 465-468). -/
def get_user_role (st : State) : Nat := st.current_user_role

end Simple

/-! ## Notification queue: notification_manager.c -/

/-- The slot type `struct notification_item` (lines 25-32). -/
structure notification_item where
  data : List Nat
  len : Nat
  priority : Nat
  critical : Bool
  retry_count : Nat
  in_use : Bool
  deriving DecidableEq, Repr

/-- The statics of notification_manager.c (lines 35-44): the slot table
`queue[QUEUE_SIZE]`, `queue_count` and the memory error tracking. -/
structure NotificationManager where
  queue : List notification_item
  queue_count : Nat
  memory_error_count : Nat
  last_memory_error_time : Nat
  deriving DecidableEq, Repr

/-- The number of slots of the table.  `QUEUE_SIZE` is a Kconfig value
(`CONFIG_CPR_MANIKIN_BLE_NOTIFICATION_QUEUE_SIZE`) that the sources do not fix;
it is read off the table `queue[QUEUE_SIZE]` itself. -/
def QUEUE_SIZE (nm : NotificationManager) : Nat := nm.queue.length

/-- The sizes of the buffers: every slot has `data[256]`. -/
def NotificationManager.wf (nm : NotificationManager) : Prop :=
  ∀ s ∈ nm.queue, s.data.length = 256

instance (nm : NotificationManager) : Decidable nm.wf := by
  unfold NotificationManager.wf
  infer_instance

/-- The free-slot loop of `notification_manager_add` (lines 306-311) from index
`i` on: the first slot that is not in use, `none` for an `idx` left at -1. -/
def find_free_slot : List notification_item → Nat → Option Nat
  | [], _ => none
  | s :: rest, i => if ¬ s.in_use then some i else find_free_slot rest (i + 1)

/-- The replacement loop of `notification_manager_add` (lines 317-322) from
index `i` on, carrying `lowest_pri` and `lowest_idx` (`none` for -1). -/
def find_lowest_priority :
    List notification_item → Nat → Nat → Option Nat → Nat × Option Nat
  | [], _, lowest_pri, lowest_idx => (lowest_pri, lowest_idx)
  | s :: rest, i, lowest_pri, lowest_idx =>
    if ¬ s.critical ∧ s.priority < lowest_pri then
      find_lowest_priority rest (i + 1) s.priority (some i)
    else find_lowest_priority rest (i + 1) lowest_pri lowest_idx

/-- The function `notification_manager_add` (lines 293-364): the return value
and the statics after the call; `data` is `none` for a NULL pointer.  The
scheduling of `notify_work` for a first item is outside the table and left out. -/
def notification_manager_add (nm : NotificationManager) (data : Option (List Nat))
    (len priority : Nat) (critical : Bool) : Option (Int × NotificationManager) :=
  match data with
  | none => some (-EINVAL, nm)
  | some data =>
    if len = 0 ∨ len > 255 then some (-EINVAL, nm)
    else
      let idx : Option Nat :=
        if nm.queue_count < QUEUE_SIZE nm then find_free_slot nm.queue 0
        else
          let lowest := find_lowest_priority nm.queue 0 255 none
          let lowest_pri := lowest.1
          let lowest_idx := lowest.2
          if lowest_idx.isSome ∧ (priority > lowest_pri ∨ critical) then lowest_idx else none
      match idx with
      | none => some (-ENOMEM, nm)
      | some idx =>
        (nm.queue[idx]?).bind fun slot =>
        (memcpy slot.data data len).bind fun d =>
        let slot1 : notification_item :=
          { data := d, len := len, priority := priority, critical := critical,
            retry_count := 0, in_use := true }
        let queue_count1 :=
          if nm.queue_count < QUEUE_SIZE nm then nm.queue_count + 1 else nm.queue_count
        some (0, { nm with queue := nm.queue.set idx slot1, queue_count := queue_count1 })

/-- A slot after `memset(queue, 0, sizeof(queue))`. -/
def zero_item : notification_item :=
  { data := List.replicate 256 0, len := 0, priority := 0, critical := false,
    retry_count := 0, in_use := false }

/-- The loop of `find_highest_priority` (lines 60-65) from index `i` on,
carrying `highest_pri` and `highest_idx` (`none` for -1). -/
def find_highest_priority_loop :
    List notification_item → Nat → Nat → Option Nat → Option Nat
  | [], _, _, highest_idx => highest_idx
  | s :: rest, i, highest_pri, highest_idx =>
    if s.in_use ∧ s.priority > highest_pri then
      find_highest_priority_loop rest (i + 1) s.priority (some i)
    else find_highest_priority_loop rest (i + 1) highest_pri highest_idx

/-- The function `find_highest_priority` (lines 55-68): `none` is the answer -1. -/
def find_highest_priority (nm : NotificationManager) : Option Nat :=
  find_highest_priority_loop nm.queue 0 0 none

/-- The function `calculate_backoff` (lines 78-98); `memory_error_count` is the
static it reads and `rand` is what `sys_rand32_get()` answers.  The product
`100 * (1 << retry_count)` is an `int` converted to `uint32_t`, taken modulo
2^32, and the additions are `uint32_t` additions. -/
def calculate_backoff (memory_error_count retry_count rand : Nat) : Nat :=
  let backoff := (100 * 2 ^ retry_count) % 2 ^ 32
  let backoff :=
    if memory_error_count > 3 then
      (backoff + (memory_error_count * 100) % 2 ^ 32) % 2 ^ 32
    else backoff
  let backoff := (backoff + (rand % 2 ^ 32) % 50) % 2 ^ 32
  if backoff > 5000 then 5000 else backoff

/-- The function `record_memory_error` (lines 103-116); `now` is the reading of
`k_uptime_get_32()` and `ERROR_TRACKING_WINDOW_MS` is 10000. -/
def record_memory_error (nm : NotificationManager) (now : Nat) : NotificationManager :=
  let now := k_uptime_get_32 now
  let count :=
    if sub_u32 now nm.last_memory_error_time > 10000 then 0 else nm.memory_error_count
  { nm with memory_error_count := (count + 1) % 2 ^ 32, last_memory_error_time := now }

/-- The function `send_notification` (lines 125-145); `err` is what
`bt_gatt_notify` answers. -/
def send_notification (nm : NotificationManager) (err : Int) (now : Nat) :
    Int × NotificationManager :=
  if err = -ENOMEM then (err, record_memory_error nm now) else (err, nm)

/-- The retirement of slot `idx` in `process_next_notification`:
`queue[idx].in_use = false; queue_count--;` on the `uint32_t` count. -/
def retire_slot (nm : NotificationManager) (idx : Nat) : Option NotificationManager :=
  (nm.queue[idx]?).bind fun cur =>
  some { nm with
    queue := nm.queue.set idx { cur with in_use := false }
    queue_count := (nm.queue_count + 2 ^ 32 - 1) % 2 ^ 32 }

/-- The function `process_next_notification` (lines 152-235): the return value,
the statics after the call and the backoff handed to `k_work_schedule` (`none`
when no retry is scheduled).  `MAX_RETRIES` and `PRIORITY_HIGH` are Kconfig
values that the sources do not fix; `err` is what `bt_gatt_notify` answers,
`now` and `rand` are the readings of `k_uptime_get_32()` and `sys_rand32_get()`.
The copy into the local `data[256]` reads `len` bytes of the slot. -/
def process_next_notification (MAX_RETRIES PRIORITY_HIGH : Nat) (nm : NotificationManager)
    (err : Int) (now rand : Nat) : Option (Int × NotificationManager × Option Nat) :=
  match find_highest_priority nm with
  | none => some (0, nm, none)
  | some idx =>
    (nm.queue[idx]?).bind fun slot =>
    let len := slot.len
    let priority := slot.priority
    let critical := slot.critical
    let retry_count := slot.retry_count
    (rd_n slot.data len).bind fun _ =>
    if len > 256 then none
    else
      let sent := send_notification nm err now
      let err := sent.1
      let nm1 := sent.2
      if err = -ENOMEM then
        if (priority ≥ PRIORITY_HIGH ∨ critical) ∧ retry_count < MAX_RETRIES then
          (nm1.queue[idx]?).bind fun cur =>
          let nm2 := { nm1 with
            queue := nm1.queue.set idx { cur with retry_count := (cur.retry_count + 1) % 256 } }
          let backoff := calculate_backoff nm2.memory_error_count retry_count rand
          some (err, nm2, some backoff)
        else (retire_slot nm1 idx).bind fun nm2 => some (err, nm2, none)
      else (retire_slot nm1 idx).bind fun nm2 => some (err, nm2, none)

/-- The function `notification_manager_init` (lines 261-282); `chr` tells
whether the characteristic pointer is non-NULL. -/
def notification_manager_init (nm : NotificationManager) (chr : Bool) :
    Int × NotificationManager :=
  if ¬ chr then (-EINVAL, nm)
  else (0, { nm with queue := nm.queue.map fun _ => zero_item, queue_count := 0 })

/-- The function `notification_manager_clear` (lines 405-419). -/
def notification_manager_clear (nm : NotificationManager) : NotificationManager :=
  { nm with queue := nm.queue.map fun _ => zero_item, queue_count := 0 }

/-! ## Command helpers and the notification frame: ble/ble_protocol.h, session/session.c -/

/-- The acknowledgment id `CPR_CMD_START` (ble_notifications.h line 33,
message_processor.h line 55). -/
def CPR_CMD_START : Nat := 0x01

/-- The acknowledgment id `CPR_CMD_STOP` (ble_notifications.h line 34,
message_processor.h line 56). -/
def CPR_CMD_STOP : Nat := 0x02

/-- The helper `format_cpr_start_command` of ble/ble_protocol.h (lines 80-83). -/
def format_cpr_start_command (buffer : List Nat) (buf_size : Nat) : Option (Int × List Nat) :=
  format_ble_command buffer buf_size CPR_CMD_START none 0

/-- The helper `format_cpr_stop_command` of ble/ble_protocol.h (lines 92-95). -/
def format_cpr_stop_command (buffer : List Nat) (buf_size : Nat) : Option (Int × List Nat) :=
  format_ble_command buffer buf_size CPR_CMD_STOP none 0

/-- The function `send_ble_notification` of session.c (lines 85-118) on the
244-byte `notify_buffer`: the return value, the buffer after the call, and the
length handed to `send_notification_safely` (`none` when it is not called).
`payload` is `none` for a NULL pointer, `total_len` is a `uint16_t`, and
`transport_ret` is what `send_notification_safely` answers. -/
def send_ble_notification (notify_buffer : List Nat) (msg_type : Nat)
    (payload : Option (List Nat)) (payload_len : Nat) (transport_ret : Int) :
    Option (Int × List Nat × Option Nat) :=
  let total_len := (6 + payload_len) % 2 ^ 16
  if total_len > 244 then some (-EINVAL, notify_buffer, none)
  else
    (wr notify_buffer 0 BLE_COMMAND_BYTE_START).bind fun b1 =>
    (wr b1 1 ((payload_len + 1) % 256)).bind fun b2 =>
    (wr b2 2 BLE_COMMAND_MSG_COLON).bind fun b3 =>
    (wr b3 3 msg_type).bind fun b4 =>
    (match payload with
     | some p =>
       if payload_len > 0 then
         (memcpy (b4.drop 4) p payload_len).bind fun tail => some (b4.take 4 ++ tail)
       else some b4
     | none => some b4).bind fun b5 =>
    (wr b5 (4 + payload_len) BLE_COMMAND_MSG_SEMICOLON).bind fun b6 =>
    (wr b6 (5 + payload_len) BLE_COMMAND_MSG_END).bind fun b7 =>
    some (transport_ret, b7, some total_len)

/-! ## Definitions used to state the theorems -/

/-- The wire frame of the protocol with length byte `len_byte`:
`0x01 | LEN | 0x3A | CMD | PAYLOAD | 0x3B | 0x17`. -/
def frame_bytes (len_byte cmd : Nat) (payload : List Nat) : List Nat :=
  [0x01, len_byte, 0x3A, cmd] ++ payload ++ [0x3B, 0x17]

/-- The structural checks as a closed formula over the bytes of the input. -/
def frame_verdict (d : List Nat) : Int ⊕ Nat :=
  if d.length < 5 then Sum.inl (-EINVAL)
  else if d[0]?.getD 0 ≠ 0x01 then Sum.inl (-EINVAL)
  else if d[1]?.getD 0 > 40 then Sum.inl (-EINVAL)
  else if 5 + d[1]?.getD 0 > d.length then Sum.inl (-EINVAL)
  else if d[2]?.getD 0 ≠ 0x3A then Sum.inl (-EINVAL)
  else if d[3 + d[1]?.getD 0]?.getD 0 ≠ 0x3B then Sum.inl (-EINVAL)
  else if d[4 + d[1]?.getD 0]?.getD 0 ≠ 0x17 then Sum.inl (-EINVAL)
  else Sum.inr (d[1]?.getD 0)

/-- The state `process_id_string` leaves when it stores the identity `id_bytes`. -/
def with_identity (st : State) (is_instructor : Bool) (id_buf : List Nat) : State :=
  request_led_state
    { (if is_instructor then { st with instructor_id := id_buf }
       else { st with trainee_id := id_buf }) with
      current_user_role := if is_instructor then USER_ROLE_INSTRUCTOR else USER_ROLE_TRAINEE }
    true

/-- The contents of a 20-byte identity buffer holding the first 19 bytes of `s`. -/
def id_buffer (s : List Nat) : List Nat :=
  s.take 19 ++ List.replicate (20 - min s.length 19) 0

/-- The envelope `submit_command` builds in the static buffer `buf` for `data`. -/
def envelope_of (buf data : List Nat) : List Nat :=
  [1, (data.length >>> 8) &&& 0xFF, data.length &&& 0xFF] ++ data ++ buf.drop (3 + data.length)

/-- The session globals at boot (session.c lines 335-340): no LED request, no
start time, not active, no log open. -/
def session_boot : SessionState :=
  { led_request_pending := false
    led_requested_state := false
    cpr_session_start_time := 0
    cpr_session_active := false
    session_file_open := false }

/-- One call on the session: a start with what the collaborators answer during
it, or a stop. -/
inductive SessionCall where
  | start (env : Env)
  | stop
  deriving DecidableEq, Repr

/-- The session after a sequence of start and stop calls. -/
def run_session_calls (s : SessionState) : List SessionCall → SessionState
  | [] => s
  | SessionCall.start env :: rest => run_session_calls (start_cpr_session s env) rest
  | SessionCall.stop :: rest => run_session_calls (stop_cpr_session s) rest

/-- The decimal value of a string of ASCII digits. -/
def decimal_value (s : List Nat) : Nat := s.foldl (fun acc c => acc * 10 + (c - 0x30)) 0

/-- The field of `width` bytes at offset `off` of a time payload
`YYYYMMDDHHMMSS`. -/
def time_field (p : List Nat) (off width : Nat) : List Nat := (p.drop off).take width

/-- The ranges a time base must satisfy: year in [2023,2100], month in [1,12],
day in [1,31], hour in [0,23], minute and second in [0,59]. -/
def time_fields_in_range (year month day hour min sec : Int) : Prop :=
  2023 ≤ year ∧ year ≤ 2100 ∧ 1 ≤ month ∧ month ≤ 12 ∧ 1 ≤ day ∧ day ≤ 31 ∧
  0 ≤ hour ∧ hour ≤ 23 ∧ 0 ≤ min ∧ min ≤ 59 ∧ 0 ≤ sec ∧ sec ≤ 59

instance (year month day hour min sec : Int) :
    Decidable (time_fields_in_range year month day hour min sec) := by
  unfold time_fields_in_range
  infer_instance

/-- The time string `process_time_data` leaves in `time_data` for a payload of
at least 14 bytes: the first `min data_len 17` payload bytes, a NUL, and the old
bytes behind it. -/
def stored_time_string (old p : List Nat) (data_len : Nat) : List Nat :=
  p.take (min data_len 17) ++ 0 :: old.drop (min data_len 17 + 1)

/-- The Gregorian leap-year rule: divisible by 4 and (not divisible by 100 or
divisible by 400). -/
def is_leap_year (y : Nat) : Bool := y % 4 = 0 ∧ (y % 100 ≠ 0 ∨ y % 400 = 0)

/-- The number of days of month `m` of year `y` in the Gregorian calendar. -/
def gregorian_month_length (y m : Nat) : Nat :=
  if m = 2 then (if is_leap_year y then 29 else 28)
  else if m = 4 ∨ m = 6 ∨ m = 9 ∨ m = 11 then 30
  else 31

/-- The number of days of year `y` in the Gregorian calendar. -/
def gregorian_year_length (y : Nat) : Nat := if is_leap_year y then 366 else 365

/-- The days of year `y` that lie before its month `m`. -/
def days_before_month (y : Nat) : Nat → Nat
  | 0 => 0
  | m + 1 => if m = 0 then 0 else days_before_month y m + gregorian_month_length y m

/-- The days from 1 January 2023 to 1 January of the year `2023 + k`. -/
def days_before_year : Nat → Nat
  | 0 => 0
  | k + 1 => days_before_year k + gregorian_year_length (2023 + k)

/-- The day number of a date, counted from 1 January 2023 as day 1. -/
def gregorian_day_number (y m d : Nat) : Nat :=
  days_before_year (y - 2023) + days_before_month y m + d

/-- The seconds from the start of day 0 (31 December 2022) to a date-time. -/
def gregorian_seconds (y m d h mi s : Nat) : Nat :=
  gregorian_day_number y m d * 86400 + h * 3600 + mi * 60 + s

/-- A real Gregorian calendar date-time: month 1..12, day 1..length of the
month, hour 0..23, minute and second 0..59. -/
def is_gregorian_date_time (y m d h mi s : Nat) : Prop :=
  1 ≤ m ∧ m ≤ 12 ∧ 1 ≤ d ∧ d ≤ gregorian_month_length y m ∧ h ≤ 23 ∧ mi ≤ 59 ∧ s ≤ 59

instance (y m d h mi s : Nat) : Decidable (is_gregorian_date_time y m d h mi s) := by
  unfold is_gregorian_date_time
  infer_instance

/-- A full slot table: `queue_count` has reached the number of slots and every
slot is in use. -/
def table_full (nm : NotificationManager) : Prop :=
  nm.queue_count = nm.queue.length ∧ ∀ s ∈ nm.queue, s.in_use = true

instance (nm : NotificationManager) : Decidable (table_full nm) := by
  unfold table_full
  infer_instance

/-- An occupied slot with a zeroed `data[256]`, used in the examples. -/
def occupant (priority : Nat) (critical : Bool) : notification_item :=
  { data := List.replicate 256 0, len := 1, priority := priority, critical := critical,
    retry_count := 0, in_use := true }

/-- The number of slots marked in use. -/
def slots_in_use (nm : NotificationManager) : Nat := nm.queue.countP (fun s => s.in_use)

/-- A consistent table: `queue_count` is the number of slots in use, the table
size fits the `uint32_t` count, every slot has its `data[256]` and a length of
at most 255. -/
def table_consistent (nm : NotificationManager) : Prop :=
  nm.queue_count = slots_in_use nm ∧ nm.queue.length < 2 ^ 32 ∧
  ∀ s ∈ nm.queue, s.data.length = 256 ∧ s.len ≤ 255

/-- One call on the notification manager: an add with its arguments, a
`process_next_notification` with what the transport, the clock and the random
source answer, or a clear. -/
inductive NotificationCall where
  | add (data : Option (List Nat)) (len priority : Nat) (critical : Bool)
  | process (err : Int) (now rand : Nat)
  | clear

/-- The statics after a sequence of calls; `none` when a call reads or writes
outside a buffer. -/
def run_notification_calls (MAX_RETRIES PRIORITY_HIGH : Nat) (nm : NotificationManager) :
    List NotificationCall → Option NotificationManager
  | [] => some nm
  | NotificationCall.add data len priority critical :: rest =>
    (notification_manager_add nm data len priority critical).bind fun r =>
      run_notification_calls MAX_RETRIES PRIORITY_HIGH r.2 rest
  | NotificationCall.process err now rand :: rest =>
    (process_next_notification MAX_RETRIES PRIORITY_HIGH nm err now rand).bind fun r =>
      run_notification_calls MAX_RETRIES PRIORITY_HIGH r.2.1 rest
  | NotificationCall.clear :: rest =>
    run_notification_calls MAX_RETRIES PRIORITY_HIGH (notification_manager_clear nm) rest

/-- An add call is readable when its data pointer holds at least `len` bytes. -/
def call_readable : NotificationCall → Prop
  | NotificationCall.add (some bytes) len _ _ => len ≤ bytes.length
  | _ => True

/-- The statics after a run of delivery attempts that all fail with the
transient error `-ENOMEM`, one attempt per pair of clock and random readings. -/
def enomem_attempts (MAX_RETRIES PRIORITY_HIGH : Nat) (nm : NotificationManager) :
    List (Nat × Nat) → Option NotificationManager
  | [] => some nm
  | reading :: rest =>
    (process_next_notification MAX_RETRIES PRIORITY_HIGH nm (-ENOMEM) reading.1 reading.2).bind
      fun r => enomem_attempts MAX_RETRIES PRIORITY_HIGH r.2.1 rest

/-! ## Lemmas on the memory primitives and the helpers -/

theorem rd_of_lt {buf : List Nat} {i : Nat} (h : i < buf.length) :
    rd buf i = some (buf[i]?.getD 0) := by
  simp [rd, List.getElem?_eq_getElem h]

theorem rd_n_of_le {buf : List Nat} {n : Nat} (h : n ≤ buf.length) :
    rd_n buf n = some (buf.take n) := by
  simp [rd_n, h]

theorem rd_append_of_lt {d : List Nat} (e : List Nat) {i : Nat} (h : i < d.length) :
    rd (d ++ e) i = some (d[i]?.getD 0) := by
  unfold rd
  rw [List.getElem?_append_left h, List.getElem?_eq_getElem h]
  rfl

theorem frame_checks_append (d e : List Nat) :
    frame_checks (d ++ e) d.length = some (frame_verdict d) := by
  unfold frame_checks frame_verdict
  by_cases h5 : d.length < 5
  · simp [h5]
  · have r0 := rd_append_of_lt e (show 0 < d.length by omega)
    have r1 := rd_append_of_lt e (show 1 < d.length by omega)
    have r2 := rd_append_of_lt e (show 2 < d.length by omega)
    simp only [h5, if_false, r0, r1, r2, Option.some_bind, Option.map_some',
      show d.length > 1 by omega, show d.length > 2 by omega, if_true,
      MSG_COMMAND_BYTE_START, MSG_BUFFER_SIZE, MSG_COMMAND_MSG_COLON, MSG_COMMAND_MSG_SEMICOLON,
      MSG_COMMAND_MSG_END]
    by_cases hs : d[0]?.getD 0 = 1
    · by_cases hl : d[1]?.getD 0 > 40
      · simp [hs, hl]
      · by_cases ht : 5 + d[1]?.getD 0 > d.length
        · simp [hs, hl, ht]
        · have r3 := rd_append_of_lt e (show 3 + d[1]?.getD 0 < d.length by omega)
          have r4 := rd_append_of_lt e (show 4 + d[1]?.getD 0 < d.length by omega)
          simp only [hs, hl, ht, if_false, r3, r4, ne_eq, not_true_eq_false,
            show 3 + d[1]?.getD 0 < d.length by omega, show 4 + d[1]?.getD 0 < d.length by omega,
            if_true, Option.some_bind]
          split_ifs <;> simp_all
    · simp [hs]

theorem frame_checks_eq (d : List Nat) : frame_checks d d.length = some (frame_verdict d) := by
  have h := frame_checks_append d []
  rwa [List.append_nil] at h

theorem memcpy_full (dst src : List Nat) (h : src.length ≤ dst.length) :
    memcpy dst src src.length = some (src ++ dst.drop src.length) := by
  simp [memcpy, rd_n, h]

theorem split_buffer (buffer : List Nat) (n : Nat) (h : 6 + n ≤ buffer.length) :
    ∃ a0 a1 a2 a3 q s e tl, buffer = a0 :: a1 :: a2 :: a3 :: (q ++ s :: e :: tl) ∧ q.length = n := by
  match buffer, h with
  | a0 :: a1 :: a2 :: a3 :: rest, h =>
    simp only [List.length_cons] at h
    have h2 : 2 ≤ (rest.drop n).length := by simp; omega
    match hd : rest.drop n, h2 with
    | s :: e :: tl, _ =>
      refine ⟨a0, a1, a2, a3, rest.take n, s, e, tl, ?_, ?_⟩
      · rw [← hd, List.take_append_drop]
      · simp; omega
  | [], h => simp at h
  | [_], h => simp at h; omega
  | [_, _], h => simp at h; omega
  | [_, _, _], h => simp at h; omega

theorem format_ok (buffer : List Nat) (cmd : Nat) (p : List Nat) (c : Nat)
    (hc : c = buffer.length)
    (h : 6 + p.length ≤ c) :
    format_ble_command buffer c cmd (some p) p.length
      = some (((6 + p.length : Nat) : Int),
          [0x01, (p.length + 1) % 256, 0x3A, cmd] ++ p ++ [0x3B, 0x17] ++ buffer.drop (6 + p.length)) := by
  subst hc
  obtain ⟨a0, a1, a2, a3, q, s, e, tl, rfl, hq⟩ := split_buffer buffer p.length h
  have hd6 : (a0 :: a1 :: a2 :: a3 :: (q ++ s :: e :: tl)).drop (6 + p.length) = tl := by
    rw [show 6 + p.length = (q.length + 2) + 4 by omega]
    simp only [List.drop_succ_cons]
    rw [← List.drop_drop, List.drop_left]
    rfl
  rw [hd6]
  unfold format_ble_command
  have h1 : ¬ (a0 :: a1 :: a2 :: a3 :: (q ++ s :: e :: tl)).length < 6 := by simp; omega
  have h2 : ¬ (a0 :: a1 :: a2 :: a3 :: (q ++ s :: e :: tl)).length < 6 + p.length := by simp; omega
  simp only [h1, h2, if_false]
  have hm : memcpy (q ++ s :: e :: tl) p p.length = some (p ++ s :: e :: tl) := by
    rw [memcpy_full _ _ (by simp; omega), ← hq, List.drop_left]
  by_cases hp : p.length > 0
  · simp [wr, hp, hm, BLE_COMMAND_BYTE_START, BLE_COMMAND_MSG_COLON, BLE_COMMAND_MSG_SEMICOLON, BLE_COMMAND_MSG_END]
    have e1 : 4 + p.length = p.length + 4 := by omega
    have e2 : p.length + 4 + 1 = p.length + 5 := by omega
    have c1 : p.length + 4 < p.length + (tl.length + 1 + 1) + 1 + 1 + 1 + 1 := by omega
    have c2 : p.length + 5 < p.length + (tl.length + 1 + 1) + 1 + 1 + 1 + 1 := by omega
    simp [e1, e2, c1, c2, List.set_append]
    omega
  · have hp0 : p = [] := by cases p <;> simp_all
    have hq0 : q = [] := by cases q <;> simp_all
    subst hp0 hq0
    simp [wr, BLE_COMMAND_BYTE_START, BLE_COMMAND_MSG_COLON, BLE_COMMAND_MSG_SEMICOLON, BLE_COMMAND_MSG_END]

theorem log_command_format_ok (d : List Nat) (len : Nat) (h : len ≤ d.length) :
    log_command_format d len = some () := by
  unfold log_command_format
  by_cases h6 : len ≥ 6
  · have r0 := rd_of_lt (show 0 < d.length by omega)
    have r1 := rd_of_lt (show 1 < d.length by omega)
    have r2 := rd_of_lt (show 2 < d.length by omega)
    have r3 := rd_of_lt (show 3 < d.length by omega)
    simp only [h6, r0, r1, r2, r3, ↓reduceIte, Option.some_bind, show len > 0 by omega,
      show len > 1 by omega, show len > 2 by omega, show len > 3 by omega]
    split_ifs <;> simp
  · simp only [h6, ↓reduceIte, Option.some_bind]
    have g : ∀ k, (if len > k then rd d k else some 0) = some (if len > k then d[k]?.getD 0 else 0) := by
      intro k
      by_cases hk : len > k
      · simp [hk, rd_of_lt (show k < d.length by omega)]
      · simp [hk]
    simp [g]

theorem starts_with_eq (d : List Nat) (len : Nat) (pfx : List Nat) (h : len ≤ d.length) :
    starts_with d len pfx = some (decide (pfx.length ≤ len ∧ d.take pfx.length = pfx)) := by
  unfold starts_with memcmp_eq rd_n
  by_cases hp : len ≥ pfx.length
  · have : pfx.length ≤ d.length := by omega
    simp [hp, this]
  · simp [hp]

theorem process_id_string_short (st : State) (data : List Nat) (len : Nat) (b : Bool)
    (h3 : len ≤ 3) : process_id_string st data len b = some st := by
  unfold process_id_string
  by_cases h0 : len = 0
  · simp [h0]
  · cases b <;> simp [h0, h3, USER_ROLE_INSTRUCTOR_PREFIX, USER_ROLE_TRAINEE_PREFIX]

theorem memcpy_replicate (src : List Nat) (n k : Nat) (hn : n ≤ src.length) (hk : n ≤ k) :
    memcpy (List.replicate k 0) src n = some (src.take n ++ List.replicate (k - n) 0) := by
  unfold memcpy rd_n
  simp only [hn, if_true, Option.some_bind, List.length_replicate, hk, List.drop_replicate]

theorem wr_zero_pad (a : List Nat) (k i : Nat) (hk : 0 < k) (hi : i = a.length) :
    wr (a ++ List.replicate k 0) i 0 = some (a ++ List.replicate k 0) := by
  subst hi
  unfold wr
  have h1 : a.length < (a ++ List.replicate k 0).length := by simp; omega
  simp only [h1, if_true]
  obtain ⟨j, rfl⟩ : ∃ j, k = j + 1 := ⟨k - 1, by omega⟩
  simp [List.replicate_succ, List.set_append]

theorem id_buffer_eq (data : List Nat) (len : Nat) (hlen : len ≤ data.length) :
    id_buffer ((data.drop 3).take (len - 3))
      = (data.drop 3).take (min (len - 3) 19) ++ List.replicate (20 - min (len - 3) 19) 0 := by
  unfold id_buffer
  rw [List.take_take, List.length_take, List.length_drop, Nat.min_comm 19 (len - 3),
    Nat.min_eq_left (show len - 3 ≤ data.length - 3 by omega)]

theorem process_id_string_eq (st : State) (data : List Nat) (len : Nat) (b : Bool)
    (hwf : st.wf) (hlen : len ≤ data.length) (h3 : 3 < len) :
    process_id_string st data len b
      = some (with_identity st b (id_buffer ((data.drop 3).take (len - 3)))) := by
  obtain ⟨hi, ht, _⟩ := hwf
  simp only [MSG_BUFFER_SIZE] at hi ht
  unfold process_id_string
  have h0 : len ≠ 0 := by omega
  have hpl : (if b then USER_ROLE_INSTRUCTOR_PREFIX else USER_ROLE_TRAINEE_PREFIX).length = 3 := by
    cases b <;> rfl
  have hstor : (if b then st.instructor_id else st.trainee_id).length = 20 := by
    cases b <;> simp [hi, ht]
  simp only [h0, if_false, hpl, show ¬ len ≤ 3 by omega, MSG_BUFFER_SIZE]
  have hidl : (if len - 3 < 40 / 2 - 1 then len - 3 else 40 / 2 - 1) = min (len - 3) 19 := by
    simp only [show 40 / 2 - 1 = 19 by norm_num]
    split_ifs <;> omega
  rw [hidl, id_buffer_eq data len hlen]
  have hn1 : min (len - 3) 19 ≤ (data.drop 3).length := by
    rw [List.length_drop]; omega
  have hms : memset (if b then st.instructor_id else st.trainee_id) 0 (40 / 2 - 1 + 1)
      = some (List.replicate 20 0) := by
    unfold memset
    rw [show 40 / 2 - 1 + 1 = 20 by norm_num, if_pos (by omega),
      List.drop_eq_nil_of_le (by omega), List.append_nil]
  rw [hms, Option.some_bind, memcpy_replicate _ _ _ hn1 (by omega), Option.some_bind,
    wr_zero_pad _ _ _ (by omega) (by rw [List.length_take]; omega), Option.some_bind]
  rfl

theorem memcmp_eq_of_le (a b : List Nat) (n : Nat) (ha : n ≤ a.length) (hb : n ≤ b.length) :
    memcmp_eq a b n = some (decide (a.take n = b.take n)) := by
  simp [memcmp_eq, rd_n, ha, hb]

theorem process_cpr_data_eq (st : State) (payload : List Nat) (data_len : Nat)
    (hlen : data_len ≤ payload.length) :
    process_cpr_data st payload data_len =
      if data_len > 3 then
        if (payload.drop 1).take 3 = USER_ROLE_INSTRUCTOR_PREFIX then
          process_id_string st (payload.drop 1) (data_len - 1) true
        else if (payload.drop 1).take 3 = USER_ROLE_TRAINEE_PREFIX then
          process_id_string st (payload.drop 1) (data_len - 1) false
        else some st
      else some st := by
  unfold process_cpr_data
  rw [rd_n_of_le hlen, Option.some_bind]
  by_cases h3 : data_len > 3
  · have hl : 3 ≤ (payload.drop 1).length := by rw [List.length_drop]; omega
    have e1 := memcmp_eq_of_le (payload.drop 1) USER_ROLE_INSTRUCTOR_PREFIX 3 hl (by decide)
    have e2 := memcmp_eq_of_le (payload.drop 1) USER_ROLE_TRAINEE_PREFIX 3 hl (by decide)
    have l1 : USER_ROLE_INSTRUCTOR_PREFIX.length = 3 := rfl
    have l2 : USER_ROLE_TRAINEE_PREFIX.length = 3 := rfl
    have t1 : USER_ROLE_INSTRUCTOR_PREFIX.take 3 = USER_ROLE_INSTRUCTOR_PREFIX := rfl
    have t2 : USER_ROLE_TRAINEE_PREFIX.take 3 = USER_ROLE_TRAINEE_PREFIX := rfl
    rw [t1] at e1
    rw [t2] at e2
    simp only [h3, if_true, l1, l2, show data_len ≥ 3 + 1 by omega, e1, e2, Option.some_bind,
      decide_eq_true_eq]
  · simp only [h3, if_false]

theorem id_buffer_length (s : List Nat) : (id_buffer s).length = 20 := by
  unfold id_buffer
  rw [List.length_append, List.length_take, List.length_replicate]
  omega

theorem with_identity_wf (st : State) (b : Bool) (buf : List Nat) (hwf : st.wf)
    (hb : buf.length = 20) : (with_identity st b buf).wf := by
  obtain ⟨h1, h2, h3⟩ := hwf
  cases b
  · exact ⟨h1, hb, h3⟩
  · exact ⟨hb, h2, h3⟩

theorem process_id_string_ok (st : State) (data : List Nat) (len : Nat) (b : Bool)
    (hwf : st.wf) (hlen : len ≤ data.length) :
    ∃ st1, process_id_string st data len b = some st1 ∧ st1.wf := by
  by_cases h3 : len ≤ 3
  · exact ⟨st, process_id_string_short st data len b h3, hwf⟩
  · exact ⟨_, process_id_string_eq st data len b hwf hlen (by omega),
      with_identity_wf st b _ hwf (id_buffer_length _)⟩

theorem process_cpr_data_ok (st : State) (payload : List Nat) (data_len : Nat)
    (hwf : st.wf) (hlen : data_len ≤ payload.length) :
    ∃ st1, process_cpr_data st payload data_len = some st1 ∧ st1.wf := by
  rw [process_cpr_data_eq st payload data_len hlen]
  have hl : data_len - 1 ≤ (payload.drop 1).length := by rw [List.length_drop]; omega
  split_ifs
  · exact process_id_string_ok st _ _ true hwf hl
  · exact process_id_string_ok st _ _ false hwf hl
  · exact ⟨st, rfl, hwf⟩
  · exact ⟨st, rfl, hwf⟩

theorem memcpy_append_src (dst p rest : List Nat) (n : Nat) (hn : n ≤ p.length) :
    memcpy dst (p ++ rest) n = memcpy dst p n := by
  unfold memcpy rd_n
  have : n ≤ (p ++ rest).length := by rw [List.length_append]; omega
  rw [if_pos this, if_pos hn, List.take_append_of_le_length hn]

theorem process_time_data_append (st : State) (env : Env) (p rest : List Nat) (n : Nat)
    (hn : n ≤ p.length) :
    process_time_data st env (p ++ rest) n = process_time_data st env p n := by
  unfold process_time_data
  have hc : (if n < 18 - 1 then n else 18 - 1) ≤ p.length := by split_ifs <;> omega
  simp only [memcpy_append_src _ p rest _ hc]

theorem process_time_data_ok (st : State) (env : Env) (payload : List Nat) (data_len : Nat)
    (hwf : st.wf) (hlen : data_len ≤ payload.length) :
    ∃ st1, process_time_data st env payload data_len = some st1 ∧ st1.wf := by
  unfold process_time_data
  by_cases h14 : data_len < 14
  · exact ⟨st, by simp only [h14, if_true], hwf⟩
  · obtain ⟨h1, h2, h3⟩ := hwf
    simp only [h14, if_false]
    generalize hcl : (if data_len < 18 - 1 then data_len else 18 - 1) = copy_len
    have hc1 : copy_len ≤ payload.length := by subst hcl; split_ifs <;> omega
    have hc2 : copy_len ≤ 17 := by subst hcl; split_ifs <;> omega
    have hm : memcpy st.time_data payload copy_len
        = some (payload.take copy_len ++ st.time_data.drop copy_len) := by
      unfold memcpy
      rw [rd_n_of_le hc1, Option.some_bind, if_pos (by omega)]
    have hml : (payload.take copy_len ++ st.time_data.drop copy_len).length = 18 := by
      rw [List.length_append, List.length_take, List.length_drop]; omega
    rw [hm, Option.some_bind]
    generalize (payload.take copy_len ++ st.time_data.drop copy_len) = td1 at hml
    have hw : wr td1 copy_len 0 = some (td1.set copy_len 0) := by
      unfold wr; rw [if_pos (by omega)]
    rw [hw, Option.some_bind]
    have hl : (td1.set copy_len 0).length = 18 := by rw [List.length_set]; exact hml
    generalize (td1.set copy_len 0) = td at hl
    rw [rd_n_of_le (show 4 ≤ td.length by omega), Option.some_bind,
      rd_n_of_le (show 2 ≤ (td.drop 4).length by rw [List.length_drop]; omega), Option.some_bind,
      rd_n_of_le (show 2 ≤ (td.drop 6).length by rw [List.length_drop]; omega), Option.some_bind,
      rd_n_of_le (show 2 ≤ (td.drop 8).length by rw [List.length_drop]; omega), Option.some_bind,
      rd_n_of_le (show 2 ≤ (td.drop 10).length by rw [List.length_drop]; omega), Option.some_bind,
      rd_n_of_le (show 2 ≤ (td.drop 12).length by rw [List.length_drop]; omega), Option.some_bind,
      rd_n_of_le (show 2 ≤ (td.drop 14).length by rw [List.length_drop]; omega)]
    have hu : (if copy_len ≥ 16 then Option.map (fun _ => ()) (some (List.take 2 (List.drop 14 td)))
        else some ()) = some () := by split_ifs <;> rfl
    rw [hu, Option.some_bind]
    refine ⟨_, rfl, ?_⟩
    unfold State.wf request_led_state
    split_ifs <;> exact ⟨h1, h2, hl⟩

theorem frame_verdict_inr (d : List Nat) (L : Nat) (h : frame_verdict d = Sum.inr L) :
    L = d[1]?.getD 0 ∧ 5 + L ≤ d.length ∧ L ≤ 40 ∧ d[0]?.getD 0 = 0x01 ∧ d[2]?.getD 0 = 0x3A ∧
      d[3 + L]?.getD 0 = 0x3B ∧ d[4 + L]?.getD 0 = 0x17 := by
  unfold frame_verdict at h
  split_ifs at h with h1 h2 h3 h4 h5 h6 h7
  have hL : d[1]?.getD 0 = L := Sum.inr.inj h
  subst hL
  refine ⟨rfl, by omega, by omega, ?_, ?_, ?_, ?_⟩
  · exact not_not.mp h2
  · exact not_not.mp h5
  · exact not_not.mp h6
  · exact not_not.mp h7

theorem frame_verdict_inl (d : List Nat) (e : Int) (h : frame_verdict d = Sum.inl e) :
    e = -EINVAL := by
  unfold frame_verdict at h
  split_ifs at h <;> exact (Sum.inl.inj h).symm

theorem request_led_state_wf (st : State) (b : Bool) (hwf : st.wf) :
    (request_led_state st b).wf := hwf

theorem dispatch_command_ok (st : State) (env : Env) (d : List Nat) (len data_len : Nat)
    (hwf : st.wf) (hlen : len ≤ d.length) (hfit : 5 + data_len ≤ len) :
    ∃ r st1, dispatch_command st env d len data_len = some (r, st1) ∧ st1.wf := by
  unfold dispatch_command
  by_cases h0 : data_len > 0
  · rw [if_pos h0, if_pos (by omega), rd_of_lt (show 3 < d.length by omega), Option.some_bind]
    have hd3 : data_len ≤ (d.drop 3).length := by rw [List.length_drop]; omega
    have hd4 : data_len - 1 ≤ (d.drop 4).length := by rw [List.length_drop]; omega
    rw [rd_n_of_le (show min data_len 20 ≤ (d.drop 3).length by omega), Option.some_bind]
    split_ifs
    · exact ⟨_, _, rfl, hwf⟩
    · exact ⟨_, _, rfl, hwf⟩
    · exact ⟨_, _, rfl, hwf⟩
    · exact ⟨_, _, rfl, hwf⟩
    · obtain ⟨st1, h1, w1⟩ := process_cpr_data_ok st (d.drop 3) data_len hwf hd3
      exact ⟨0, st1, by rw [h1, Option.some_bind], w1⟩
    · obtain ⟨st1, h1, w1⟩ := process_time_data_ok st env (d.drop 4) (data_len - 1) hwf hd4
      exact ⟨0, st1, by rw [h1, Option.some_bind], w1⟩
    · exact ⟨_, _, rfl, hwf⟩
    · exact ⟨_, _, rfl, hwf⟩
  · rw [if_neg h0]
    exact ⟨_, _, rfl, hwf⟩

theorem process_command_ok (st : State) (env : Env) (d : List Nat) (hwf : st.wf) :
    ∃ r st1, process_command st env d d.length = some (r, st1) ∧ st1.wf := by
  unfold process_command
  rw [log_command_format_ok d d.length le_rfl, Option.some_bind,
    starts_with_eq d d.length _ le_rfl, Option.some_bind,
    starts_with_eq d d.length _ le_rfl, Option.some_bind,
    frame_checks_eq d, Option.some_bind]
  split_ifs
  · obtain ⟨st1, h1, w1⟩ := process_id_string_ok st d d.length true hwf le_rfl
    exact ⟨0, st1, by rw [h1, Option.some_bind], w1⟩
  · obtain ⟨st1, h1, w1⟩ := process_id_string_ok st d d.length false hwf le_rfl
    exact ⟨0, st1, by rw [h1, Option.some_bind], w1⟩
  · cases hv : frame_verdict d with
    | inl e => exact ⟨e, st, rfl, hwf⟩
    | inr L =>
      obtain ⟨_, hfit, _⟩ := frame_verdict_inr d L hv
      exact dispatch_command_ok st env d d.length L hwf le_rfl hfit

/-! ## Lemmas on wire frames -/

theorem frame_bytes_length (L cmd : Nat) (p : List Nat) :
    (frame_bytes L cmd p).length = 6 + p.length := by
  simp [frame_bytes]; omega

theorem frame_bytes_cons (L cmd : Nat) (p : List Nat) :
    frame_bytes L cmd p = 0x01 :: L :: 0x3A :: cmd :: (p ++ [0x3B, 0x17]) := by
  simp [frame_bytes]

theorem frame_bytes_semicolon (L cmd : Nat) (p : List Nat) :
    (frame_bytes L cmd p)[3 + (p.length + 1)]? = some 0x3B := by
  rw [frame_bytes_cons, show 3 + (p.length + 1) = p.length + 1 + 1 + 1 + 1 by omega]
  simp only [List.getElem?_cons_succ]
  rw [List.getElem?_append_right (le_refl _)]
  simp

theorem frame_bytes_end (L cmd : Nat) (p : List Nat) :
    (frame_bytes L cmd p)[4 + (p.length + 1)]? = some 0x17 := by
  rw [frame_bytes_cons, show 4 + (p.length + 1) = p.length + 1 + 1 + 1 + 1 + 1 by omega]
  simp only [List.getElem?_cons_succ]
  rw [List.getElem?_append_right (by omega)]
  simp

theorem frame_verdict_frame (cmd : Nat) (p : List Nat) :
    frame_verdict (frame_bytes (p.length + 1) cmd p)
      = if p.length + 1 ≤ 40 then Sum.inr (p.length + 1) else Sum.inl (-EINVAL) := by
  unfold frame_verdict
  have e0 : (frame_bytes (p.length + 1) cmd p)[0]?.getD 0 = 1 := by simp [frame_bytes_cons]
  have e1 : (frame_bytes (p.length + 1) cmd p)[1]?.getD 0 = p.length + 1 := by
    simp [frame_bytes_cons]
  have e2 : (frame_bytes (p.length + 1) cmd p)[2]?.getD 0 = 58 := by simp [frame_bytes_cons]
  rw [e0, e1, e2, frame_bytes_semicolon, frame_bytes_end, frame_bytes_length]
  by_cases h : p.length + 1 ≤ 40
  · rw [if_neg (by omega), if_neg (by decide), if_neg (by omega), if_neg (by omega),
      if_neg (by decide), if_neg (by decide), if_neg (by decide), if_pos h]
  · rw [if_neg (by omega), if_neg (by decide), if_pos (by omega), if_neg h]

theorem process_command_frame (st : State) (env : Env) (cmd : Nat) (p : List Nat) :
    process_command st env (frame_bytes (p.length + 1) cmd p) (6 + p.length)
      = if p.length + 1 ≤ 40 then
          dispatch_command st env (frame_bytes (p.length + 1) cmd p) (6 + p.length) (p.length + 1)
        else some (-EINVAL, st) := by
  have hl := frame_bytes_length (p.length + 1) cmd p
  unfold process_command
  rw [← hl, log_command_format_ok _ _ le_rfl, Option.some_bind,
    starts_with_eq _ _ _ le_rfl, Option.some_bind,
    starts_with_eq _ _ _ le_rfl, Option.some_bind,
    frame_checks_eq, Option.some_bind, frame_verdict_frame]
  have h1 : ¬ (frame_bytes (p.length + 1) cmd p).take USER_ROLE_INSTRUCTOR_PREFIX.length
      = USER_ROLE_INSTRUCTOR_PREFIX := by
    simp [frame_bytes_cons, USER_ROLE_INSTRUCTOR_PREFIX]
  have h2 : ¬ (frame_bytes (p.length + 1) cmd p).take USER_ROLE_TRAINEE_PREFIX.length
      = USER_ROLE_TRAINEE_PREFIX := by
    simp [frame_bytes_cons, USER_ROLE_TRAINEE_PREFIX]
  simp only [h1, h2, and_false, decide_False, Bool.false_eq_true, if_false]
  split_ifs <;> rfl

theorem rd_frame_one (L cmd : Nat) (p rest : List Nat) :
    rd (frame_bytes L cmd p ++ rest) 1 = some L := by
  simp [frame_bytes_cons, rd]

theorem format_ok_frame (buffer : List Nat) (cmd : Nat) (p : List Nat)
    (h : 6 + p.length ≤ buffer.length) :
    format_ble_command buffer buffer.length cmd (some p) p.length
      = some (((6 + p.length : Nat) : Int),
          frame_bytes ((p.length + 1) % 256) cmd p ++ buffer.drop (6 + p.length)) := by
  rw [format_ok buffer cmd p buffer.length rfl h]
  rfl

theorem process_command_reject (st : State) (env : Env) (d : List Nat)
    (hin : d.take 3 ≠ USER_ROLE_INSTRUCTOR_PREFIX) (htr : d.take 3 ≠ USER_ROLE_TRAINEE_PREFIX)
    (hv : frame_verdict d = Sum.inl (-EINVAL)) :
    process_command st env d d.length = some (-EINVAL, st) := by
  unfold process_command
  rw [log_command_format_ok d d.length le_rfl, Option.some_bind,
    starts_with_eq d d.length _ le_rfl, Option.some_bind,
    starts_with_eq d d.length _ le_rfl, Option.some_bind,
    frame_checks_eq d, Option.some_bind, hv]
  have l1 : USER_ROLE_INSTRUCTOR_PREFIX.length = 3 := rfl
  have l2 : USER_ROLE_TRAINEE_PREFIX.length = 3 := rfl
  simp only [l1, l2, hin, htr, and_false, decide_False, Bool.false_eq_true, if_false]

theorem dispatch_start (st : State) (env : Env) (p : List Nat) :
    dispatch_command st env (frame_bytes (p.length + 1) 0x02 p) (6 + p.length) (p.length + 1)
      = some (0, { request_led_state st true with
                   sess := start_cpr_session (request_led_state st true).sess env }) := by
  unfold dispatch_command
  rw [if_pos (by omega), if_pos (by omega)]
  simp [frame_bytes_cons, rd, CMD_CONTROL_LED_OFF, CMD_CONTROL_LED_ON, CPR_CONTROL_START,
    CMD_CONTROL_START]

theorem dispatch_stop (st : State) (env : Env) (p : List Nat) :
    dispatch_command st env (frame_bytes (p.length + 1) 0x03 p) (6 + p.length) (p.length + 1)
      = some (0, { request_led_state st false with
                   sess := stop_cpr_session (request_led_state st false).sess }) := by
  unfold dispatch_command
  rw [if_pos (by omega), if_pos (by omega)]
  simp [frame_bytes_cons, rd, CMD_CONTROL_LED_OFF, CMD_CONTROL_LED_ON, CPR_CONTROL_START,
    CMD_CONTROL_START, CPR_COMMAND_STOP, CMD_COMMAND_STOP]

theorem stop_cpr_session_inactive (s : SessionState) :
    (stop_cpr_session s).cpr_session_active = false := by
  unfold stop_cpr_session
  by_cases h : s.cpr_session_active = true
  · simp [h]
  · simp [h]

theorem start_cpr_session_active (s : SessionState) (env : Env)
    (hup : 1000 ≤ k_uptime_get_32 env.uptime_guard)
    (hopen : 0 ≤ env.fs_open_ret) (hwrite : 0 ≤ env.fs_write_ret) :
    (start_cpr_session s env).cpr_session_active = true := by
  unfold start_cpr_session
  simp only []
  rw [if_neg (by omega), if_neg (by omega), if_neg (by omega)]


/-! ## Lemmas on the dispatch and the queue -/

theorem c_string_padded (a : List Nat) (k : Nat) (ha : ∀ b ∈ a, b ≠ 0) (hk : 0 < k) :
    c_string (a ++ List.replicate k 0) = a := by
  unfold c_string
  obtain ⟨j, rfl⟩ : ∃ j, k = j + 1 := ⟨k - 1, by omega⟩
  rw [List.takeWhile_append_of_pos (by simpa using ha)]
  simp [List.replicate_succ]

theorem process_command_unframed (st : State) (env : Env) (s : List Nat) (b : Bool)
    (hwf : st.wf) (hs : s ≠ []) :
    process_command st env
        ((if b then USER_ROLE_INSTRUCTOR_PREFIX else USER_ROLE_TRAINEE_PREFIX) ++ s) (3 + s.length)
      = some (0, with_identity st b (id_buffer s)) := by
  have hpos : 0 < s.length := List.length_pos.mpr hs
  have hl : ((if b then USER_ROLE_INSTRUCTOR_PREFIX else USER_ROLE_TRAINEE_PREFIX) ++ s).length
      = 3 + s.length := by cases b <;> simp [USER_ROLE_INSTRUCTOR_PREFIX, USER_ROLE_TRAINEE_PREFIX] <;> omega
  have hd : (((if b then USER_ROLE_INSTRUCTOR_PREFIX else USER_ROLE_TRAINEE_PREFIX) ++ s).drop 3).take
      (3 + s.length - 3) = s := by
    cases b <;> simp [USER_ROLE_INSTRUCTOR_PREFIX, USER_ROLE_TRAINEE_PREFIX]
  have hid := process_id_string_eq st _ (3 + s.length) b hwf (le_of_eq hl.symm) (by omega)
  rw [hd] at hid
  unfold process_command
  rw [log_command_format_ok _ _ (le_of_eq hl.symm), Option.some_bind,
    starts_with_eq _ _ _ (le_of_eq hl.symm), Option.some_bind,
    starts_with_eq _ _ _ (le_of_eq hl.symm), Option.some_bind]
  cases b
  · simp only [Bool.false_eq_true, if_false] at hid ⊢
    rw [hid]
    simp [USER_ROLE_INSTRUCTOR_PREFIX, USER_ROLE_TRAINEE_PREFIX]
  · simp only [if_true] at hid ⊢
    rw [hid]
    simp [USER_ROLE_INSTRUCTOR_PREFIX]

theorem get_id_padded (a : List Nat) (k size : Nat) (ha : ∀ b ∈ a, b ≠ 0) (hk : 0 < k)
    (ha0 : a ≠ []) (hsz : a.length < size) :
    (if size = 0 then (([] : List Nat), 0)
     else
       if (c_string (a ++ List.replicate k 0)).length = 0 then ([], 0)
       else
         ((a ++ List.replicate k 0).take
            (if (c_string (a ++ List.replicate k 0)).length < size - 1
             then (c_string (a ++ List.replicate k 0)).length else size - 1),
          if (c_string (a ++ List.replicate k 0)).length < size - 1
          then (c_string (a ++ List.replicate k 0)).length else size - 1))
      = (a, a.length) := by
  have hpos : 0 < a.length := List.length_pos.mpr ha0
  have hc : (if a.length < size - 1 then a.length else size - 1) = a.length := by
    split_ifs <;> omega
  rw [c_string_padded a k ha hk, if_neg (by omega), if_neg (by omega), hc, List.take_left]

theorem dispatch_frame_rd3 (cmd : Nat) (p : List Nat) :
    rd (frame_bytes (p.length + 1) cmd p) 3 = some cmd := by
  simp [frame_bytes_cons, rd]

theorem frame_bytes_drop3 (L cmd : Nat) (p : List Nat) :
    (frame_bytes L cmd p).drop 3 = cmd :: (p ++ [0x3B, 0x17]) := by
  simp [frame_bytes_cons]

theorem frame_bytes_drop4 (L cmd : Nat) (p : List Nat) :
    (frame_bytes L cmd p).drop 4 = p ++ [0x3B, 0x17] := by
  simp [frame_bytes_cons]

theorem dispatch_led_off (st : State) (env : Env) (p : List Nat) :
    dispatch_command st env (frame_bytes (p.length + 1) 0x00 p) (6 + p.length) (p.length + 1)
      = some (0, request_led_state st false) := by
  unfold dispatch_command
  rw [if_pos (by omega), if_pos (by omega), dispatch_frame_rd3, Option.some_bind]
  rfl

theorem dispatch_led_on (st : State) (env : Env) (p : List Nat) :
    dispatch_command st env (frame_bytes (p.length + 1) 0x01 p) (6 + p.length) (p.length + 1)
      = some (0, request_led_state st true) := by
  unfold dispatch_command
  rw [if_pos (by omega), if_pos (by omega), dispatch_frame_rd3, Option.some_bind]
  rfl

theorem dispatch_data (st : State) (env : Env) (p : List Nat) :
    dispatch_command st env (frame_bytes (p.length + 1) 0x04 p) (6 + p.length) (p.length + 1)
      = (process_cpr_data st (0x04 :: (p ++ [0x3B, 0x17])) (p.length + 1)).bind
          fun st1 => some (0, st1) := by
  unfold dispatch_command
  rw [if_pos (by omega), if_pos (by omega), dispatch_frame_rd3, Option.some_bind,
    frame_bytes_drop3]
  rfl

theorem dispatch_timedata (st : State) (env : Env) (p : List Nat) :
    dispatch_command st env (frame_bytes (p.length + 1) 0x05 p) (6 + p.length) (p.length + 1)
      = (process_time_data st env p p.length).bind fun st1 => some (0, st1) := by
  unfold dispatch_command
  rw [if_pos (by omega), if_pos (by omega), dispatch_frame_rd3, Option.some_bind,
    frame_bytes_drop3, frame_bytes_drop4,
    rd_n_of_le (show min (p.length + 1) 20 ≤ (0x05 :: (p ++ [0x3B, 0x17])).length by
      simp only [List.length_cons, List.length_append]; omega)]
  simp only [CMD_CONTROL_LED_OFF, CMD_CONTROL_LED_ON, CPR_CONTROL_START, CMD_CONTROL_START,
    CPR_COMMAND_STOP, CMD_COMMAND_STOP, CMD_COMMAND_DATA, CMD_COMMAND_TIMEDATA,
    show ¬ (5 : Nat) = 0 by decide, show ¬ (5 : Nat) = 1 by decide,
    show ¬ (5 : Nat) = 2 by decide, show ¬ (5 : Nat) = 3 by decide,
    show ¬ (5 : Nat) = 4 by decide, if_false, if_true, Option.some_bind, Nat.add_sub_cancel]
  by_cases h1 : p.length + 1 > 1
  · rw [if_pos h1, process_time_data_append st env p _ p.length le_rfl]
  · rw [if_neg h1]
    have h0 : p.length = 0 := by omega
    unfold process_time_data
    rw [h0]
    rfl

theorem process_cpr_data_identity (st : State) (id_bytes tail : List Nat) (b : Bool)
    (hwf : st.wf) (hid : id_bytes ≠ []) :
    process_cpr_data st
        (0x04 :: (((if b then USER_ROLE_INSTRUCTOR_PREFIX else USER_ROLE_TRAINEE_PREFIX)
          ++ id_bytes) ++ tail))
        (((if b then USER_ROLE_INSTRUCTOR_PREFIX else USER_ROLE_TRAINEE_PREFIX)
          ++ id_bytes).length + 1)
      = some (with_identity st b (id_buffer id_bytes)) := by
  have hpos : 0 < id_bytes.length := List.length_pos.mpr hid
  have hl : ((if b then USER_ROLE_INSTRUCTOR_PREFIX else USER_ROLE_TRAINEE_PREFIX)
      ++ id_bytes).length = 3 + id_bytes.length := by
    cases b <;> simp [USER_ROLE_INSTRUCTOR_PREFIX, USER_ROLE_TRAINEE_PREFIX] <;> omega
  rw [process_cpr_data_eq _ _ _ (by simp only [List.length_cons, List.length_append]; omega), hl,
    if_pos (by omega), List.drop_succ_cons, List.drop_zero, Nat.add_sub_cancel]
  have hid2 := process_id_string_eq st
    (((if b then USER_ROLE_INSTRUCTOR_PREFIX else USER_ROLE_TRAINEE_PREFIX) ++ id_bytes) ++ tail)
    (3 + id_bytes.length) b hwf (by rw [List.length_append, hl]; omega) (by omega)
  have hd : (((((if b then USER_ROLE_INSTRUCTOR_PREFIX else USER_ROLE_TRAINEE_PREFIX)
      ++ id_bytes) ++ tail).drop 3).take (3 + id_bytes.length - 3)) = id_bytes := by
    cases b <;> simp [USER_ROLE_INSTRUCTOR_PREFIX, USER_ROLE_TRAINEE_PREFIX]
  rw [hd] at hid2
  cases b
  · simp only [Bool.false_eq_true, if_false] at hid2 ⊢
    rw [if_neg (by simp [USER_ROLE_INSTRUCTOR_PREFIX, USER_ROLE_TRAINEE_PREFIX]),
      if_pos (by simp [USER_ROLE_TRAINEE_PREFIX]), hid2]
  · simp only [if_true] at hid2 ⊢
    rw [if_pos (by simp [USER_ROLE_INSTRUCTOR_PREFIX]), hid2]

theorem dispatch_unknown (st : State) (env : Env) (cmd : Nat) (p : List Nat) (hcmd : 5 < cmd) :
    dispatch_command st env (frame_bytes (p.length + 1) cmd p) (6 + p.length) (p.length + 1)
      = some (-EINVAL, st) := by
  unfold dispatch_command
  rw [if_pos (by omega), if_pos (by omega), dispatch_frame_rd3, Option.some_bind]
  simp only [CMD_CONTROL_LED_OFF, CMD_CONTROL_LED_ON, CPR_CONTROL_START, CMD_CONTROL_START,
    CPR_COMMAND_STOP, CMD_COMMAND_STOP, CMD_COMMAND_DATA, CMD_COMMAND_TIMEDATA]
  rw [if_neg (by omega), if_neg (by omega), if_neg (by omega), if_neg (by omega),
    if_neg (by omega), if_neg (by omega)]

theorem len_bytes_small : ∀ n, n ≤ 37 →
    (n >>> 8) &&& 0xFF = 0 ∧ n &&& 0xFF = n ∧ ((0 <<< 8) ||| n) % 65536 = n := by
  decide

theorem envelope_of_length (buf data : List Nat) (hbuf : buf.length = 40)
    (h37 : data.length ≤ 37) : (envelope_of buf data).length = 40 := by
  unfold envelope_of
  simp only [List.length_append, List.length_cons, List.length_nil, List.length_drop]
  omega

theorem submit_command_builds (buf : List Nat) (q : MsgQ) (data : List Nat)
    (hbuf : buf.length = 40) (h1 : 1 ≤ data.length) (h37 : data.length ≤ 37) :
    submit_command buf q (some data) data.length
      = (k_msgq_put q (envelope_of buf data)).bind fun r =>
          some (r.1, envelope_of buf data, r.2) := by
  obtain ⟨a0, a1, a2, rest, rfl⟩ : ∃ a0 a1 a2 rest, buf = a0 :: a1 :: a2 :: rest := by
    match buf, hbuf with
    | a0 :: a1 :: a2 :: rest, _ => exact ⟨a0, a1, a2, rest, rfl⟩
  simp only [List.length_cons] at hbuf
  unfold submit_command envelope_of
  have hrest : data.length ≤ rest.length := by omega
  have hm : memcpy rest data data.length = some (data ++ rest.drop data.length) := by
    unfold memcpy
    rw [rd_n_of_le le_rfl, Option.some_bind, if_pos hrest, List.take_length]
  simp only [MSG_BUFFER_SIZE]
  rw [if_neg (by omega)]
  simp only [wr, List.length_cons, List.length_set, show 0 < rest.length + 1 + 1 + 1 by omega,
    show 1 < rest.length + 1 + 1 + 1 by omega, show 2 < rest.length + 1 + 1 + 1 by omega,
    if_true, Option.some_bind, List.set_cons_zero, List.set_cons_succ, List.drop_succ_cons,
    List.drop_zero, hm, List.take_succ_cons, List.take_zero]
  rw [show 3 + data.length = data.length + 1 + 1 + 1 by omega]
  simp only [List.drop_succ_cons]
  rfl

theorem envelope_of_small (buf data : List Nat) (h37 : data.length ≤ 37) :
    envelope_of buf data = 1 :: 0 :: data.length :: (data ++ buf.drop (3 + data.length)) := by
  obtain ⟨e1, e2, _⟩ := len_bytes_small data.length h37
  unfold envelope_of
  rw [e1, e2]
  simp

theorem processor_thread_func_envelope (st : State) (env : Env) (buf data : List Nat)
    (hbuf : buf.length = 40) (h37 : data.length ≤ 37) :
    processor_thread_func st env (envelope_of buf data)
      = (process_command st env ((envelope_of buf data).drop 3) data.length).bind
          fun r => some r.2 := by
  obtain ⟨_, _, e3⟩ := len_bytes_small data.length h37
  have hl : 4 ≤ (data ++ buf.drop (3 + data.length)).length := by
    rw [List.length_append, List.length_drop]; omega
  unfold processor_thread_func
  rw [envelope_of_small buf data h37]
  simp only [rd, List.getElem?_cons_zero, List.getElem?_cons_succ, Option.some_bind,
    show ¬ (1 : Nat) = 0 by decide, if_false, e3, List.drop_succ_cons, List.drop_zero,
    rd_n_of_le hl, Option.map_some']
  split_ifs <;> rfl

/-! ## The handlers read only the first `len` bytes -/

theorem starts_with_append (d e pfx : List Nat) :
    starts_with (d ++ e) d.length pfx = starts_with d d.length pfx := by
  rw [starts_with_eq (d ++ e) d.length pfx (by rw [List.length_append]; omega),
    starts_with_eq d d.length pfx le_rfl]
  by_cases h : pfx.length ≤ d.length
  · rw [List.take_append_of_le_length h]
  · simp [h]

theorem process_id_string_append (st : State) (d e : List Nat) (n : Nat) (b : Bool)
    (hwf : st.wf) (hn : n ≤ d.length) :
    process_id_string st (d ++ e) n b = process_id_string st d n b := by
  by_cases h3 : n ≤ 3
  · rw [process_id_string_short _ _ _ _ h3, process_id_string_short _ _ _ _ h3]
  · rw [process_id_string_eq st (d ++ e) n b hwf (by rw [List.length_append]; omega) (by omega),
      process_id_string_eq st d n b hwf hn (by omega),
      List.drop_append_of_le_length (by omega),
      List.take_append_of_le_length (by rw [List.length_drop]; omega)]

theorem process_cpr_data_append (st : State) (p e : List Nat) (n : Nat)
    (hwf : st.wf) (hn : n ≤ p.length) :
    process_cpr_data st (p ++ e) n = process_cpr_data st p n := by
  rw [process_cpr_data_eq st (p ++ e) n (by rw [List.length_append]; omega),
    process_cpr_data_eq st p n hn]
  by_cases h3 : n > 3
  · rw [if_pos h3, if_pos h3, List.drop_append_of_le_length (by omega),
      List.take_append_of_le_length (by rw [List.length_drop]; omega),
      process_id_string_append st (p.drop 1) e (n - 1) true hwf (by rw [List.length_drop]; omega),
      process_id_string_append st (p.drop 1) e (n - 1) false hwf
        (by rw [List.length_drop]; omega)]
  · rw [if_neg h3, if_neg h3]

theorem process_id_string_append_src (st : State) (d e : List Nat) (n : Nat) (b : Bool)
    (hn : n ≤ d.length) :
    process_id_string st (d ++ e) n b = process_id_string st d n b := by
  by_cases h3 : n ≤ 3
  · rw [process_id_string_short _ _ _ _ h3, process_id_string_short _ _ _ _ h3]
  · unfold process_id_string
    have hpl : (if b then USER_ROLE_INSTRUCTOR_PREFIX else USER_ROLE_TRAINEE_PREFIX).length = 3 := by
      cases b <;> rfl
    simp only [hpl]
    have hm : ∀ a, memcpy a (d.drop 3 ++ e)
          (if n - 3 < MSG_BUFFER_SIZE / 2 - 1 then n - 3 else MSG_BUFFER_SIZE / 2 - 1)
        = memcpy a (d.drop 3)
          (if n - 3 < MSG_BUFFER_SIZE / 2 - 1 then n - 3 else MSG_BUFFER_SIZE / 2 - 1) := by
      intro a
      exact memcpy_append_src a (d.drop 3) e _ (by rw [List.length_drop]; split_ifs <;> omega)
    rw [List.drop_append_of_le_length (by omega)]
    simp only [hm]

theorem process_cpr_data_append_src (st : State) (p e : List Nat) (n : Nat)
    (hn : n ≤ p.length) :
    process_cpr_data st (p ++ e) n = process_cpr_data st p n := by
  rw [process_cpr_data_eq st (p ++ e) n (by rw [List.length_append]; omega),
    process_cpr_data_eq st p n hn]
  by_cases h3 : n > 3
  · rw [if_pos h3, if_pos h3, List.drop_append_of_le_length (by omega),
      List.take_append_of_le_length (by rw [List.length_drop]; omega),
      process_id_string_append_src st (p.drop 1) e (n - 1) true (by rw [List.length_drop]; omega),
      process_id_string_append_src st (p.drop 1) e (n - 1) false
        (by rw [List.length_drop]; omega)]
  · rw [if_neg h3, if_neg h3]

theorem dispatch_command_append (st : State) (env : Env) (d e : List Nat) (data_len : Nat)
    (hwf : st.wf) (hfit : 5 + data_len ≤ d.length) :
    dispatch_command st env (d ++ e) d.length data_len
      = dispatch_command st env d d.length data_len := by
  unfold dispatch_command
  rw [rd_append_of_lt e (show 3 < d.length by omega), rd_of_lt (show 3 < d.length by omega),
    List.drop_append_of_le_length (show 3 ≤ d.length by omega),
    List.drop_append_of_le_length (show 4 ≤ d.length by omega),
    process_cpr_data_append st (d.drop 3) e data_len hwf (by rw [List.length_drop]; omega),
    process_time_data_append st env (d.drop 4) e (data_len - 1)
      (by rw [List.length_drop]; omega),
    rd_n_of_le (show min data_len 20 ≤ (d.drop 3 ++ e).length by
      rw [List.length_append, List.length_drop]; omega),
    rd_n_of_le (show min data_len 20 ≤ (d.drop 3).length by rw [List.length_drop]; omega)]
  simp only [Option.some_bind]

theorem process_command_append (st : State) (env : Env) (d e : List Nat) (hwf : st.wf) :
    process_command st env (d ++ e) d.length = process_command st env d d.length := by
  unfold process_command
  rw [log_command_format_ok (d ++ e) d.length (by rw [List.length_append]; omega),
    log_command_format_ok d d.length le_rfl, starts_with_append, starts_with_append,
    frame_checks_append, frame_checks_eq,
    process_id_string_append st d e d.length true hwf le_rfl,
    process_id_string_append st d e d.length false hwf le_rfl]
  simp only [Option.some_bind]
  cases hv : frame_verdict d with
  | inl err => rfl
  | inr L =>
    obtain ⟨_, hfit, _⟩ := frame_verdict_inr d L hv
    simp only [dispatch_command_append st env d e L hwf hfit]

/-! ## Lemmas on the time store of message_processor_simple.c -/

theorem atoi_digits_eq_foldl (s : List Nat) (acc : Nat) (h : ∀ c ∈ s, isdigit c = true) :
    atoi_digits s acc = s.foldl (fun acc c => acc * 10 + (c - 0x30)) acc := by
  induction s generalizing acc with
  | nil => rfl
  | cons c cs ih =>
    have hc : isdigit c = true := h c (List.mem_cons_self _ _)
    simp only [atoi_digits, hc, if_true, List.foldl_cons]
    exact ih _ (fun x hx => h x (List.mem_cons_of_mem _ hx))

theorem atoi_of_digits (s : List Nat) (h : ∀ c ∈ s, isdigit c = true) :
    atoi s = (decimal_value s : Int) := by
  cases s with
  | nil => rfl
  | cons c cs =>
    have hc : isdigit c = true := h c (List.mem_cons_self _ _)
    have hc2 : 0x30 ≤ c ∧ c ≤ 0x39 := by simpa [isdigit] using hc
    have hsp : isspace c = false := by
      simp only [isspace, Bool.or_eq_false_iff, decide_eq_false_iff_not, Bool.and_eq_false_iff]
      omega
    have hd : (c :: cs).dropWhile isspace = c :: cs := by
      simp [List.dropWhile, hsp]
    unfold atoi
    rw [hd]
    split
    · rename_i heq
      have := (List.cons.inj heq).1
      omega
    · rename_i heq
      have := (List.cons.inj heq).1
      omega
    · rw [atoi_digits_eq_foldl _ _ h]; rfl

theorem take_drop_set_append (a b : List Nat) (off w v : Nat) (h : off + w ≤ a.length) :
    (((a ++ b).set a.length v).drop off).take w = (a.drop off).take w := by
  apply List.ext_getElem?
  intro i
  simp only [List.getElem?_take, List.getElem?_drop, List.getElem?_set]
  by_cases hi : i < w
  · simp only [hi, if_true]
    rw [if_neg (by omega), List.getElem?_append_left (by omega)]
  · simp only [hi, if_false]

theorem take_drop_take (p : List Nat) (c off w : Nat) (h : off + w ≤ c) :
    ((p.take c).drop off).take w = (p.drop off).take w := by
  apply List.ext_getElem?
  intro i
  simp only [List.getElem?_take, List.getElem?_drop]
  by_cases hi : i < w
  · simp only [hi, if_true]
    rw [if_pos (by omega)]
  · simp only [hi, if_false]

theorem set_append_length (a b : List Nat) (v : Nat) :
    (a ++ b).set a.length v = a ++ b.set 0 v := by
  rw [List.set_append]
  simp

theorem stored_time_string_eq (old p : List Nat) (c : Nat) (hc : c ≤ p.length)
    (hold : c < old.length) :
    (p.take c ++ old.drop c).set c 0 = p.take c ++ 0 :: old.drop (c + 1) := by
  have hl : (p.take c).length = c := by rw [List.length_take]; omega
  have h1 : (p.take c ++ old.drop c).set c 0 = (p.take c ++ old.drop c).set (p.take c).length 0 := by
    rw [hl]
  rw [h1, set_append_length, List.drop_eq_getElem_cons hold, List.set_cons_zero]

theorem stored_time_string_slice (old p : List Nat) (n off w : Nat) (hn : 14 ≤ n)
    (hlen : n ≤ p.length) (h : off + w ≤ 14) :
    ((stored_time_string old p n).drop off).take w = time_field p off w := by
  unfold stored_time_string time_field
  have hl : (p.take (min n 17)).length = min n 17 := by rw [List.length_take]; omega
  apply List.ext_getElem?
  intro i
  simp only [List.getElem?_take, List.getElem?_drop]
  by_cases hi : i < w
  · simp only [hi, if_true]
    rw [List.getElem?_append_left (by omega), List.getElem?_take, if_pos (by omega)]
  · simp only [hi, if_false]

theorem simple_process_time_data_short (st : Simple.State) (now : Nat) (p : List Nat) (n : Nat)
    (h : n < 14) : Simple.process_time_data st now p n = some st := by
  simp [Simple.process_time_data, h]

theorem simple_process_time_data_eq (st : Simple.State) (now : Nat) (p : List Nat) (n : Nat)
    (hwf : st.time_data.length = 18) (h14 : 14 ≤ n) (hlen : n ≤ p.length) :
    Simple.process_time_data st now p n =
      some (Simple.request_led_state (Simple.request_led_state (Simple.request_led_state
        (if time_fields_in_range (atoi (time_field p 0 4)) (atoi (time_field p 4 2))
              (atoi (time_field p 6 2)) (atoi (time_field p 8 2)) (atoi (time_field p 10 2))
              (atoi (time_field p 12 2)) then
           { st with
               time_data := stored_time_string st.time_data p n
               has_time_data := true
               rtc_base :=
                 { year := atoi (time_field p 0 4), month := atoi (time_field p 4 2),
                   day := atoi (time_field p 6 2), hour := atoi (time_field p 8 2),
                   min := atoi (time_field p 10 2), sec := atoi (time_field p 12 2),
                   base_ticks := k_uptime_get_32 now } }
         else { st with time_data := stored_time_string st.time_data p n, has_time_data := true })
        true) false) true) := by
  unfold Simple.process_time_data
  simp only [show ¬ n < 14 by omega, if_false]
  have hcl : (if n < 18 - 1 then n else 18 - 1) = min n 17 := by split_ifs <;> omega
  rw [hcl]
  have hc1 : min n 17 ≤ p.length := by omega
  have hm : memcpy st.time_data p (min n 17)
      = some (p.take (min n 17) ++ st.time_data.drop (min n 17)) := by
    unfold memcpy
    rw [rd_n_of_le hc1, Option.some_bind, if_pos (by omega)]
  have hml : (p.take (min n 17) ++ st.time_data.drop (min n 17)).length = 18 := by
    rw [List.length_append, List.length_take, List.length_drop]; omega
  rw [hm, Option.some_bind]
  have hw : wr (p.take (min n 17) ++ st.time_data.drop (min n 17)) (min n 17) 0
      = some (stored_time_string st.time_data p n) := by
    unfold wr
    rw [if_pos (by omega), stored_time_string_eq _ _ _ hc1 (by omega)]
    rfl
  rw [hw, Option.some_bind]
  have hl : (stored_time_string st.time_data p n).length = 18 := by
    unfold stored_time_string
    rw [List.length_append, List.length_take, List.length_cons, List.length_drop]; omega
  have s0 := stored_time_string_slice st.time_data p n 0 4 h14 hlen (by omega)
  rw [List.drop_zero] at s0
  rw [if_pos (show min n 17 ≥ 14 by omega),
    rd_n_of_le (show 4 ≤ (stored_time_string st.time_data p n).length by omega), Option.some_bind,
    rd_n_of_le (show 2 ≤ ((stored_time_string st.time_data p n).drop 4).length by
      rw [List.length_drop]; omega), Option.some_bind,
    rd_n_of_le (show 2 ≤ ((stored_time_string st.time_data p n).drop 6).length by
      rw [List.length_drop]; omega), Option.some_bind,
    rd_n_of_le (show 2 ≤ ((stored_time_string st.time_data p n).drop 8).length by
      rw [List.length_drop]; omega), Option.some_bind,
    rd_n_of_le (show 2 ≤ ((stored_time_string st.time_data p n).drop 10).length by
      rw [List.length_drop]; omega), Option.some_bind,
    rd_n_of_le (show 2 ≤ ((stored_time_string st.time_data p n).drop 12).length by
      rw [List.length_drop]; omega), Option.some_bind,
    s0,
    stored_time_string_slice st.time_data p n 4 2 h14 hlen (by omega),
    stored_time_string_slice st.time_data p n 6 2 h14 hlen (by omega),
    stored_time_string_slice st.time_data p n 8 2 h14 hlen (by omega),
    stored_time_string_slice st.time_data p n 10 2 h14 hlen (by omega),
    stored_time_string_slice st.time_data p n 12 2 h14 hlen (by omega)]
  unfold time_fields_in_range
  simp only [ge_iff_le]
  split_ifs <;> rfl

theorem time_field_digits (p : List Nat) (off w : Nat) (h : off + w ≤ 14)
    (hdig : ∀ i, i < 14 → isdigit (p[i]?.getD 0) = true) :
    ∀ c ∈ time_field p off w, isdigit c = true := by
  intro c hc
  obtain ⟨i, hi⟩ := List.mem_iff_getElem?.mp hc
  unfold time_field at hi
  rw [List.getElem?_take] at hi
  by_cases hiw : i < w
  · rw [if_pos hiw, List.getElem?_drop] at hi
    have := hdig (off + i) (by omega)
    rw [hi] at this
    exact this
  · rw [if_neg hiw] at hi
    exact absurd hi (by simp)

theorem c_string_terminated (a b : List Nat) (h : ∀ c ∈ a, c ≠ 0) :
    c_string (a ++ 0 :: b) = a := by
  unfold c_string
  induction a with
  | nil => simp
  | cons x xs ih =>
    have hx : x ≠ 0 := h x (List.mem_cons_self _ _)
    simp only [List.cons_append, List.takeWhile_cons, ne_eq, hx, not_false_eq_true,
      decide_True, if_true]
    rw [ih (fun c hc => h c (List.mem_cons_of_mem _ hc))]

theorem simple_get_time_data_stored (st : Simple.State) (old p : List Nat) (n size : Nat)
    (h14 : 14 ≤ n) (hlen : n ≤ p.length) (hsize : 18 ≤ size)
    (hnul : ∀ c ∈ p.take (min n 17), c ≠ 0)
    (htd : st.time_data = stored_time_string old p n) (hhas : st.has_time_data = true) :
    Simple.get_time_data st size = (p.take (min n 17), min n 17) := by
  have hl : (p.take (min n 17)).length = min n 17 := by rw [List.length_take]; omega
  unfold Simple.get_time_data
  rw [if_neg (by rw [hhas]; simp; omega), htd]
  unfold stored_time_string
  rw [c_string_terminated _ _ hnul]
  simp only [hl]
  rw [if_neg (by omega)]
  have hcl : (if min n 17 < size - 1 then min n 17 else size - 1) = min n 17 := by
    split_ifs <;> omega
  rw [hcl]
  congr 1
  have : (p.take (min n 17) ++ 0 :: old.drop (min n 17 + 1)).take (min n 17)
      = (p.take (min n 17)).take (min n 17) :=
    List.take_append_of_le_length (show min n 17 ≤ (p.take (min n 17)).length by omega)
  rw [this, List.take_take]
  simp

/-! ## Lemmas on the calendar arithmetic of message_processor_simple.c -/

theorem to_i32_small (x : Nat) (h : x < 2 ^ 31) : Simple.to_i32 (x : Int) = (x : Int) := by
  unfold Simple.to_i32
  norm_num at h ⊢
  omega

theorem carry_eq (a x : Nat) (k : Nat) :
    (if (x : Int) ≥ (k : Int) then (a : Int) + Int.tdiv (x : Int) (k : Int) else (a : Int))
      = ((a + x / k : Nat) : Int) := by
  have h0 : (0 : Int) ≤ (x : Int) := Int.ofNat_nonneg x
  have hk0 : (0 : Int) ≤ (k : Int) := Int.ofNat_nonneg k
  rw [Int.tdiv_eq_ediv h0 hk0]
  split_ifs with h
  · push_cast
    rfl
  · have hx : x < k := by
      have : (x : Int) < (k : Int) := lt_of_not_ge h
      exact_mod_cast this
    rw [Nat.div_eq_of_lt hx]
    rfl

theorem remainder_eq (x : Nat) (k : Nat) :
    (if (x : Int) ≥ (k : Int) then Int.tmod (x : Int) (k : Int) else (x : Int))
      = ((x % k : Nat) : Int) := by
  have h0 : (0 : Int) ≤ (x : Int) := Int.ofNat_nonneg x
  have hk0 : (0 : Int) ≤ (k : Int) := Int.ofNat_nonneg k
  rw [Int.tmod_eq_emod h0 hk0]
  split_ifs with h
  · push_cast
    rfl
  · have hx : x < k := by
      have : (x : Int) < (k : Int) := lt_of_not_ge h
      exact_mod_cast this
    rw [Nat.mod_eq_of_lt hx]

theorem add_seconds_to_time_carry (fuel y m d h mi s seconds : Nat)
    (hs : s + seconds < 2 ^ 31) :
    Simple.add_seconds_to_time fuel y m d h mi s seconds =
      (Simple.month_loop fuel y m
          ((d + (h + (mi + (s + seconds) / 60) / 60) / 24 : Nat) : Int)).map
        fun r => (r.1, r.2.1, r.2.2,
          (((h + (mi + (s + seconds) / 60) / 60) % 24 : Nat) : Int),
          (((mi + (s + seconds) / 60) % 60 : Nat) : Int),
          (((s + seconds) % 60 : Nat) : Int)) := by
  unfold Simple.add_seconds_to_time
  have e0 : ((s : Int) + (seconds : Int)) = ((s + seconds : Nat) : Int) := by push_cast; rfl
  have c60 := carry_eq mi (s + seconds) 60
  have r60 := remainder_eq (s + seconds) 60
  have c60' := carry_eq h (mi + (s + seconds) / 60) 60
  have r60' := remainder_eq (mi + (s + seconds) / 60) 60
  have c24 := carry_eq d (h + (mi + (s + seconds) / 60) / 60) 24
  have r24 := remainder_eq (h + (mi + (s + seconds) / 60) / 60) 24
  simp only [Nat.cast_ofNat] at c60 r60 c60' r60' c24 r24
  simp only [e0, to_i32_small _ hs, c60, r60, c60', r60', c24, r24]

theorem max_days_eq (y m : Nat) (h1 : 1 ≤ m) (h12 : m ≤ 12) :
    ((if 0 ≤ (m : Int) then Simple.days_in_month[(m : Int).toNat]? else none).bind
      fun table_days => some
        (if (m : Int) = 2 ∧ (Int.tmod (y : Int) 4 = 0 ∧
            (Int.tmod (y : Int) 100 ≠ 0 ∨ Int.tmod (y : Int) 400 = 0))
         then 29 else table_days))
      = some ((gregorian_month_length y m : Nat) : Int) := by
  have h0 : (0 : Int) ≤ (y : Int) := Int.ofNat_nonneg y
  rw [Int.tmod_eq_emod h0 (by norm_num), Int.tmod_eq_emod h0 (by norm_num),
    Int.tmod_eq_emod h0 (by norm_num)]
  have e4 : ((y : Int) % 4 = 0) ↔ (y % 4 = 0) := by omega
  have e100 : ((y : Int) % 100 ≠ 0) ↔ (y % 100 ≠ 0) := by omega
  have e400 : ((y : Int) % 400 = 0) ↔ (y % 400 = 0) := by omega
  simp only [e4, e100, e400, Int.toNat_ofNat, Int.ofNat_nonneg, if_true]
  unfold gregorian_month_length is_leap_year Simple.days_in_month
  interval_cases m <;> simp

theorem days_before_month_succ (y m : Nat) (h1 : 1 ≤ m) :
    days_before_month y (m + 1) = days_before_month y m + gregorian_month_length y m := by
  rw [days_before_month, if_neg (by omega)]

theorem days_before_month_13 (y : Nat) : days_before_month y 13 = gregorian_year_length y := by
  have e1 : days_before_month y 1 = 0 := by simp [days_before_month]
  rw [days_before_month_succ y 12 (by omega), days_before_month_succ y 11 (by omega),
    days_before_month_succ y 10 (by omega), days_before_month_succ y 9 (by omega),
    days_before_month_succ y 8 (by omega), days_before_month_succ y 7 (by omega),
    days_before_month_succ y 6 (by omega), days_before_month_succ y 5 (by omega),
    days_before_month_succ y 4 (by omega), days_before_month_succ y 3 (by omega),
    days_before_month_succ y 2 (by omega), days_before_month_succ y 1 (by omega), e1]
  unfold gregorian_month_length gregorian_year_length
  simp only [show (12 : Nat) ≠ 2 by omega, show (11 : Nat) ≠ 2 by omega,
    show (10 : Nat) ≠ 2 by omega, show (9 : Nat) ≠ 2 by omega, show (8 : Nat) ≠ 2 by omega,
    show (7 : Nat) ≠ 2 by omega, show (6 : Nat) ≠ 2 by omega, show (5 : Nat) ≠ 2 by omega,
    show (4 : Nat) ≠ 2 by omega, show (3 : Nat) ≠ 2 by omega, show (1 : Nat) ≠ 2 by omega,
    if_false, if_true]
  norm_num
  split_ifs <;> rfl

theorem month_loop_spec (fuel : Nat) :
    ∀ (y m d : Nat), 2023 ≤ y → 1 ≤ m → m ≤ 12 → 1 ≤ d → d ≤ 28 * fuel →
      ∃ y' m' d' : Nat,
        Simple.month_loop fuel (y : Int) (m : Int) (d : Int)
          = some ((y' : Int), (m' : Int), (d' : Int)) ∧
        2023 ≤ y' ∧ 1 ≤ m' ∧ m' ≤ 12 ∧ 1 ≤ d' ∧ d' ≤ gregorian_month_length y' m' ∧
        gregorian_day_number y' m' d' = gregorian_day_number y m d := by
  induction fuel with
  | zero =>
    intro y m d _ _ _ h1 h2
    omega
  | succ fuel ih =>
    intro y m d hy h1 h12 hd1 hd
    have hmax := max_days_eq y m h1 h12
    have hlen28 : 28 ≤ gregorian_month_length y m := by
      unfold gregorian_month_length
      split_ifs <;> omega
    unfold Simple.month_loop
    cases hl : (if 0 ≤ (m : Int) then Simple.days_in_month[(m : Int).toNat]? else none) with
    | none => rw [hl] at hmax; simp at hmax
    | some table_days =>
      rw [hl, Option.some_bind] at hmax
      have hmax' := Option.some.inj hmax
      simp only [Option.some_bind]
      rw [hmax']
      by_cases hle : d ≤ gregorian_month_length y m
      · rw [if_pos (by exact_mod_cast hle)]
        exact ⟨y, m, d, rfl, hy, h1, h12, hd1, hle, rfl⟩
      · rw [if_neg (by intro hc; exact hle (by exact_mod_cast hc))]
        have hsub : ((d : Int) - ((gregorian_month_length y m : Nat) : Int))
            = ((d - gregorian_month_length y m : Nat) : Int) := by
          rw [Nat.cast_sub (by omega)]
        simp only [hsub]
        by_cases hm : m = 12
        · subst hm
          rw [if_pos (by norm_num)]
          obtain ⟨y', m', d', e, hy', h1', h12', hd1', hd', hidx⟩ :=
            ih (y + 1) 1 (d - gregorian_month_length y 12) (by omega) (by omega) (by omega)
              (by omega) (by omega)
          refine ⟨y', m', d', ?_, hy', h1', h12', hd1', hd', ?_⟩
          · rw [← e]
            norm_num
          · rw [hidx]
            unfold gregorian_day_number
            have e1 : y + 1 - 2023 = (y - 2023) + 1 := by omega
            have e2 : 2023 + (y - 2023) = y := by omega
            have e13 := days_before_month_13 y
            rw [days_before_month_succ y 12 (by omega)] at e13
            rw [e1, days_before_year, e2, ← e13]
            have e0 : days_before_month (y + 1) 1 = 0 := by simp [days_before_month]
            rw [e0]
            omega
        · rw [if_neg (by
            intro hc
            have : (m : Int) + 1 ≤ 12 := by exact_mod_cast (show m + 1 ≤ 12 by omega)
            omega)]
          obtain ⟨y', m', d', e, hy', h1', h12', hd1', hd', hidx⟩ :=
            ih y (m + 1) (d - gregorian_month_length y m) hy (by omega) (by omega)
              (by omega) (by omega)
          refine ⟨y', m', d', ?_, hy', h1', h12', hd1', hd', ?_⟩
          · rw [← e]
            norm_num
          · rw [hidx]
            unfold gregorian_day_number
            rw [days_before_month_succ y m h1]
            omega

/-! ## Lemmas on the notification queue -/

theorem find_lowest_priority_spec (q : List notification_item) :
    ∀ (i lp : Nat) (li : Option Nat),
      (find_lowest_priority q i lp li = (lp, li) ∧
        ∀ s ∈ q, s.critical = false → lp ≤ s.priority) ∨
      (∃ j s, q[j]? = some s ∧ find_lowest_priority q i lp li = (s.priority, some (i + j)) ∧
        s.critical = false ∧ s.priority < lp ∧
        ∀ k t, q[k]? = some t → t.critical = false →
          s.priority ≤ t.priority ∧ (t.priority = s.priority → j ≤ k)) := by
  induction q with
  | nil =>
    intro i lp li
    exact Or.inl ⟨rfl, fun s hs => absurd hs (List.not_mem_nil s)⟩
  | cons a rest ih =>
    intro i lp li
    by_cases hc : ¬ a.critical ∧ a.priority < lp
    · have ha : a.critical = false := by simpa using hc.1
      have e : find_lowest_priority (a :: rest) i lp li
          = find_lowest_priority rest (i + 1) a.priority (some i) := by
        rw [find_lowest_priority, if_pos hc]
      rw [e]
      rcases ih (i + 1) a.priority (some i) with ⟨hr, hall⟩ | ⟨j, s, hj, hr, hs, hlt, hmin⟩
      · refine Or.inr ⟨0, a, by simp, by rw [hr]; rfl, ha, hc.2, ?_⟩
        intro k t hk ht
        cases k with
        | zero =>
          have : a = t := by simpa using hk
          subst this
          exact ⟨le_refl _, fun _ => le_refl _⟩
        | succ k =>
          have hmem : t ∈ rest := List.mem_iff_getElem?.mpr ⟨k, by simpa using hk⟩
          exact ⟨hall t hmem ht, fun _ => Nat.zero_le _⟩
      · refine Or.inr ⟨j + 1, s, by simpa using hj, ?_, hs, by omega, ?_⟩
        · rw [hr]
          have : i + 1 + j = i + (j + 1) := by omega
          rw [this]
        · intro k t hk ht
          cases k with
          | zero =>
            have : a = t := by simpa using hk
            subst this
            exact ⟨by omega, fun h => by omega⟩
          | succ k =>
            have := hmin k t (by simpa using hk) ht
            exact ⟨this.1, fun h => by have := this.2 h; omega⟩
    · have hna : a.critical = false → lp ≤ a.priority := by
        intro ha
        by_contra hlt
        exact hc ⟨by simp [ha], by omega⟩
      have e : find_lowest_priority (a :: rest) i lp li
          = find_lowest_priority rest (i + 1) lp li := by
        rw [find_lowest_priority, if_neg hc]
      rw [e]
      rcases ih (i + 1) lp li with ⟨hr, hall⟩ | ⟨j, s, hj, hr, hs, hlt, hmin⟩
      · refine Or.inl ⟨hr, ?_⟩
        intro s hs hcrit
        rcases List.mem_cons.mp hs with rfl | hs
        · exact hna hcrit
        · exact hall s hs hcrit
      · refine Or.inr ⟨j + 1, s, by simpa using hj, ?_, hs, hlt, ?_⟩
        · rw [hr]
          have : i + 1 + j = i + (j + 1) := by omega
          rw [this]
        · intro k t hk ht
          cases k with
          | zero =>
            have : a = t := by simpa using hk
            subst this
            have := hna ht
            exact ⟨by omega, fun h => by omega⟩
          | succ k =>
            have := hmin k t (by simpa using hk) ht
            exact ⟨this.1, fun h => by have := this.2 h; omega⟩

theorem notification_manager_add_full (nm : NotificationManager) (bytes : List Nat)
    (len priority : Nat) (critical : Bool) (hfull : ¬ nm.queue_count < nm.queue.length)
    (h1 : 1 ≤ len) (h2 : len ≤ 255) :
    (notification_manager_add nm (some bytes) len priority critical = some (-ENOMEM, nm) ∧
      ((∀ s ∈ nm.queue, s.critical = false → 255 ≤ s.priority) ∨
        ∃ s ∈ nm.queue, s.critical = false ∧ priority ≤ s.priority ∧ critical = false)) ∨
    (∃ j s, nm.queue[j]? = some s ∧ s.critical = false ∧ s.priority < 255 ∧
      (∀ k t, nm.queue[k]? = some t → t.critical = false →
        s.priority ≤ t.priority ∧ (t.priority = s.priority → j ≤ k)) ∧
      (s.priority < priority ∨ critical = true) ∧
      notification_manager_add nm (some bytes) len priority critical =
        (memcpy s.data bytes len).bind fun d =>
          some (0, { nm with
            queue := nm.queue.set j
              { data := d, len := len, priority := priority, critical := critical,
                retry_count := 0, in_use := true } })) := by
  have hinv : ¬ (len = 0 ∨ len > 255) := by omega
  unfold notification_manager_add QUEUE_SIZE
  simp only [hinv, if_false, hfull]
  rcases find_lowest_priority_spec nm.queue 0 255 none with
    ⟨hr, hall⟩ | ⟨j, s, hj, hr, hs, hlt, hmin⟩
  · left
    rw [hr]
    exact ⟨by simp, Or.inl hall⟩
  · rw [Nat.zero_add] at hr
    rw [hr]
    by_cases hadm : s.priority < priority ∨ critical = true
    · right
      refine ⟨j, s, hj, hs, hlt, hmin, hadm, ?_⟩
      have hcond : (some j).isSome = true ∧ (priority > s.priority ∨ critical = true) :=
        ⟨rfl, hadm⟩
      simp only [hcond, and_self, if_true, hj, Option.some_bind]
    · left
      have hcond : ¬ ((some j).isSome = true ∧ (priority > s.priority ∨ critical = true)) :=
        fun h => hadm h.2
      simp only [hcond, if_false]
      refine ⟨trivial, Or.inr ⟨s, List.mem_iff_getElem?.mpr ⟨j, hj⟩, hs, ?_, ?_⟩⟩
      · by_contra hc
        exact hadm (Or.inl (by omega))
      · cases critical with
        | false => rfl
        | true => exact absurd (Or.inr rfl) hadm

theorem occupant_in_use (p : Nat) (c : Bool) : (occupant p c).in_use = true := rfl

theorem occupant_critical (p : Nat) (c : Bool) : (occupant p c).critical = c := rfl

theorem occupant_priority (p : Nat) (c : Bool) : (occupant p c).priority = p := rfl

theorem occupant_data_length (p : Nat) (c : Bool) : (occupant p c).data.length = 256 :=
  List.length_replicate 256 0

theorem days_before_month_mono (y : Nat) (m m' : Nat) (h : m ≤ m') :
    days_before_month y m ≤ days_before_month y m' := by
  induction m' with
  | zero =>
    have : m = 0 := by omega
    rw [this]
  | succ k ih =>
    by_cases hk : m = k + 1
    · rw [hk]
    · have h1 := ih (by omega)
      by_cases h0 : k = 0
      · subst h0
        have : m = 0 := by omega
        subst this
        simp [days_before_month]
      · rw [days_before_month_succ y k (by omega)]
        omega

theorem day_of_year_le (y m d : Nat) (h1 : 1 ≤ m) (h12 : m ≤ 12)
    (hd : d ≤ gregorian_month_length y m) :
    days_before_month y m + d ≤ gregorian_year_length y := by
  have h := days_before_month_mono y (m + 1) 13 (by omega)
  rw [days_before_month_succ y m h1, days_before_month_13] at h
  omega

theorem days_before_year_succ (k : Nat) :
    days_before_year (k + 1) = days_before_year k + gregorian_year_length (2023 + k) := by
  rw [days_before_year]

theorem days_before_year_mono (k k' : Nat) (h : k ≤ k') :
    days_before_year k ≤ days_before_year k' := by
  induction k' with
  | zero =>
    have : k = 0 := by omega
    rw [this]
  | succ j ih =>
    by_cases hk : k = j + 1
    · rw [hk]
    · have := ih (by omega)
      rw [days_before_year_succ]
      omega

theorem gregorian_day_number_lt (y m d y' m' d' : Nat) (hy : 2023 ≤ y) (hlt : y < y')
    (h1 : 1 ≤ m) (h12 : m ≤ 12) (hd : d ≤ gregorian_month_length y m) (hd' : 1 ≤ d') :
    gregorian_day_number y m d < gregorian_day_number y' m' d' := by
  unfold gregorian_day_number
  have h := day_of_year_le y m d h1 h12 hd
  have hs := days_before_year_succ (y - 2023)
  have e : 2023 + (y - 2023) = y := by omega
  rw [e] at hs
  have hm := days_before_year_mono (y - 2023 + 1) (y' - 2023) (by omega)
  omega

theorem gregorian_day_number_injective (y m d y' m' d' : Nat) (hy : 2023 ≤ y) (hy' : 2023 ≤ y')
    (h1 : 1 ≤ m) (h12 : m ≤ 12) (hd1 : 1 ≤ d) (hd : d ≤ gregorian_month_length y m)
    (h1' : 1 ≤ m') (h12' : m' ≤ 12) (hd1' : 1 ≤ d') (hd' : d' ≤ gregorian_month_length y' m')
    (h : gregorian_day_number y m d = gregorian_day_number y' m' d') :
    y = y' ∧ m = m' ∧ d = d' := by
  have hyy : y = y' := by
    rcases Nat.lt_trichotomy y y' with hlt | heq | hgt
    · have := gregorian_day_number_lt y m d y' m' d' hy hlt h1 h12 hd hd1'
      omega
    · exact heq
    · have := gregorian_day_number_lt y' m' d' y m d hy' hgt h1' h12' hd' hd1
      omega
  subst hyy
  unfold gregorian_day_number at h
  have hmm : m = m' := by
    rcases Nat.lt_trichotomy m m' with hlt | heq | hgt
    · have := days_before_month_mono y (m + 1) m' (by omega)
      rw [days_before_month_succ y m h1] at this
      omega
    · exact heq
    · have := days_before_month_mono y (m' + 1) m (by omega)
      rw [days_before_month_succ y m' h1'] at this
      omega
  subst hmm
  exact ⟨rfl, rfl, by omega⟩

theorem gregorian_seconds_injective (y m d h mi s y' m' d' h' mi' s' : Nat)
    (hy : 2023 ≤ y) (hy' : 2023 ≤ y') (hv : is_gregorian_date_time y m d h mi s)
    (hv' : is_gregorian_date_time y' m' d' h' mi' s')
    (he : gregorian_seconds y m d h mi s = gregorian_seconds y' m' d' h' mi' s') :
    y = y' ∧ m = m' ∧ d = d' ∧ h = h' ∧ mi = mi' ∧ s = s' := by
  obtain ⟨a1, a2, a3, a4, a5, a6, a7⟩ := hv
  obtain ⟨b1, b2, b3, b4, b5, b6, b7⟩ := hv'
  unfold gregorian_seconds at he
  have hN : gregorian_day_number y m d = gregorian_day_number y' m' d' := by omega
  obtain ⟨e1, e2, e3⟩ :=
    gregorian_day_number_injective y m d y' m' d' hy hy' a1 a2 a3 a4 b1 b2 b3 b4 hN
  exact ⟨e1, e2, e3, by omega, by omega, by omega⟩

/-! ## Lemmas on the notification frame -/

theorem wr_of_lt (buf : List Nat) (i v : Nat) (h : i < buf.length) :
    wr buf i v = some (buf.set i v) := by
  unfold wr
  rw [if_pos h]

theorem send_ble_notification_wraps (buf : List Nat) (msg_type : Nat)
    (payload : Option (List Nat)) (payload_len : Nat) (r : Int) (hbuf : buf.length = 244)
    (h1 : 65530 ≤ payload_len) (h2 : payload_len < 65536) :
    send_ble_notification buf msg_type payload payload_len r = none := by
  unfold send_ble_notification
  have ht : ¬ (6 + payload_len) % 2 ^ 16 > 244 := by norm_num; omega
  simp only [ht, if_false]
  rw [wr_of_lt buf 0 _ (by omega), Option.some_bind,
    wr_of_lt _ 1 _ (by rw [List.length_set]; omega), Option.some_bind,
    wr_of_lt _ 2 _ (by rw [List.length_set, List.length_set]; omega), Option.some_bind,
    wr_of_lt _ 3 _ (by rw [List.length_set, List.length_set, List.length_set]; omega),
    Option.some_bind]
  generalize hb4 : (((buf.set 0 BLE_COMMAND_BYTE_START).set 1 ((payload_len + 1) % 256)).set 2
    BLE_COMMAND_MSG_COLON).set 3 msg_type = b4
  have hl4 : b4.length = 244 := by
    rw [← hb4, List.length_set, List.length_set, List.length_set, List.length_set, hbuf]
  have hw : wr b4 (4 + payload_len) BLE_COMMAND_MSG_SEMICOLON = none := by
    unfold wr
    rw [if_neg (by omega)]
  cases payload with
  | none =>
    simp only [Option.some_bind, hw, Option.none_bind]
  | some p =>
    have hm : memcpy (b4.drop 4) p payload_len = none := by
      unfold memcpy
      cases rd_n p payload_len with
      | none => rfl
      | some bytes =>
        rw [Option.some_bind, if_neg (by rw [List.length_drop]; omega)]
    simp only [show payload_len > 0 by omega, if_true, hm, Option.none_bind]

/-! ## Lemmas on the projection of the time base -/

theorem find_highest_priority_loop_spec (q : List notification_item) :
    ∀ (i hp : Nat) (hi : Option Nat),
      (find_highest_priority_loop q i hp hi = hi ∧
        ∀ s ∈ q, s.in_use = true → s.priority ≤ hp) ∨
      (∃ j s, q[j]? = some s ∧ find_highest_priority_loop q i hp hi = some (i + j) ∧
        s.in_use = true ∧ hp < s.priority ∧
        ∀ (k : Nat) (t : notification_item), q[k]? = some t → t.in_use = true →
          t.priority ≤ s.priority ∧ (t.priority = s.priority → j ≤ k)) := by
  induction q with
  | nil =>
    intro i hp hi
    exact Or.inl ⟨rfl, fun s hs => absurd hs (List.not_mem_nil s)⟩
  | cons a rest ih =>
    intro i hp hi
    by_cases hc : a.in_use = true ∧ a.priority > hp
    · have e : find_highest_priority_loop (a :: rest) i hp hi
          = find_highest_priority_loop rest (i + 1) a.priority (some i) := by
        rw [find_highest_priority_loop, if_pos hc]
      rw [e]
      rcases ih (i + 1) a.priority (some i) with ⟨hr, hall⟩ | ⟨j, s, hj, hr, hs, hlt, hmax⟩
      · refine Or.inr ⟨0, a, by simp, by rw [hr]; rfl, hc.1, hc.2, ?_⟩
        intro k t hk ht
        cases k with
        | zero =>
          have : a = t := by simpa using hk
          subst this
          exact ⟨le_refl _, fun _ => le_refl _⟩
        | succ k =>
          have hmem : t ∈ rest := List.mem_iff_getElem?.mpr ⟨k, by simpa using hk⟩
          exact ⟨hall t hmem ht, fun _ => Nat.zero_le _⟩
      · refine Or.inr ⟨j + 1, s, by simpa using hj, ?_, hs, by omega, ?_⟩
        · rw [hr]
          have : i + 1 + j = i + (j + 1) := by omega
          rw [this]
        · intro k t hk ht
          cases k with
          | zero =>
            have : a = t := by simpa using hk
            subst this
            exact ⟨by omega, fun h => by omega⟩
          | succ k =>
            have := hmax k t (by simpa using hk) ht
            exact ⟨this.1, fun h => by have := this.2 h; omega⟩
    · have hna : a.in_use = true → a.priority ≤ hp := by
        intro ha
        by_contra hlt
        exact hc ⟨ha, by omega⟩
      have e : find_highest_priority_loop (a :: rest) i hp hi
          = find_highest_priority_loop rest (i + 1) hp hi := by
        rw [find_highest_priority_loop, if_neg hc]
      rw [e]
      rcases ih (i + 1) hp hi with ⟨hr, hall⟩ | ⟨j, s, hj, hr, hs, hlt, hmax⟩
      · refine Or.inl ⟨hr, ?_⟩
        intro s hs huse
        rcases List.mem_cons.mp hs with rfl | hs
        · exact hna huse
        · exact hall s hs huse
      · refine Or.inr ⟨j + 1, s, by simpa using hj, ?_, hs, hlt, ?_⟩
        · rw [hr]
          have : i + 1 + j = i + (j + 1) := by omega
          rw [this]
        · intro k t hk ht
          cases k with
          | zero =>
            have : a = t := by simpa using hk
            subst this
            have := hna ht
            exact ⟨by omega, fun h => by omega⟩
          | succ k =>
            have := hmax k t (by simpa using hk) ht
            exact ⟨this.1, fun h => by have := this.2 h; omega⟩

theorem find_highest_priority_some (nm : NotificationManager) (idx : Nat)
    (h : find_highest_priority nm = some idx) :
    ∃ s, nm.queue[idx]? = some s ∧ s.in_use = true ∧ 0 < s.priority ∧
      ∀ (k : Nat) (t : notification_item), nm.queue[k]? = some t → t.in_use = true →
        t.priority ≤ s.priority ∧ (t.priority = s.priority → idx ≤ k) := by
  unfold find_highest_priority at h
  rcases find_highest_priority_loop_spec nm.queue 0 0 none with
    ⟨hr, _⟩ | ⟨j, s, hj, hr, hs, hlt, hmax⟩
  · rw [hr] at h
    exact absurd h (by simp)
  · rw [hr, Nat.zero_add] at h
    have : j = idx := Option.some.inj h
    subst this
    exact ⟨s, hj, hs, hlt, hmax⟩

theorem find_highest_priority_none (nm : NotificationManager)
    (h : find_highest_priority nm = none) :
    ∀ s ∈ nm.queue, s.in_use = true → s.priority = 0 := by
  unfold find_highest_priority at h
  rcases find_highest_priority_loop_spec nm.queue 0 0 none with
    ⟨_, hall⟩ | ⟨j, s, _, hr, _, _, _⟩
  · intro s hs hu
    have := hall s hs hu
    omega
  · rw [hr] at h
    exact absurd h (by simp)

theorem find_highest_priority_loop_congr (q1 : List notification_item) :
    ∀ (q2 : List notification_item) (i hp : Nat) (hi : Option Nat),
      q1.map (fun s => (s.in_use, s.priority)) = q2.map (fun s => (s.in_use, s.priority)) →
      find_highest_priority_loop q1 i hp hi = find_highest_priority_loop q2 i hp hi := by
  induction q1 with
  | nil =>
    intro q2 i hp hi h
    cases q2 with
    | nil => rfl
    | cons b r => simp at h
  | cons a rest ih =>
    intro q2 i hp hi h
    cases q2 with
    | nil => simp at h
    | cons b r =>
      simp only [List.map_cons, List.cons.injEq, Prod.mk.injEq] at h
      obtain ⟨⟨h1, h2⟩, h3⟩ := h
      simp only [find_highest_priority_loop, h1, h2]
      split_ifs
      · exact ih r _ _ _ h3
      · exact ih r _ _ _ h3

theorem countP_set_in_use (l : List notification_item) :
    ∀ (i : Nat) (old new : notification_item), l[i]? = some old →
      (l.set i new).countP (fun s => s.in_use) + (if old.in_use then 1 else 0)
        = l.countP (fun s => s.in_use) + (if new.in_use then 1 else 0) := by
  induction l with
  | nil => intro i old new h; simp at h
  | cons a rest ih =>
    intro i old new h
    cases i with
    | zero =>
      have : a = old := by simpa using h
      subst this
      simp only [List.set_cons_zero, List.countP_cons]
      omega
    | succ i =>
      have h' : rest[i]? = some old := by simpa using h
      have := ih i old new h'
      simp only [List.set_cons_succ, List.countP_cons]
      omega

theorem countP_pos_of_in_use (l : List notification_item) (i : Nat) (s : notification_item)
    (h : l[i]? = some s) (hs : s.in_use = true) : 0 < l.countP (fun s => s.in_use) := by
  rw [List.countP_pos_iff]
  exact ⟨s, List.mem_iff_getElem?.mpr ⟨i, h⟩, hs⟩

theorem all_in_use_of_countP (l : List notification_item)
    (h : l.countP (fun s => s.in_use) = l.length) : ∀ s ∈ l, s.in_use = true := by
  have := List.countP_eq_length.mp h
  intro s hs
  simpa using this s hs

theorem countP_zero_items (l : List notification_item) :
    (l.map fun _ => zero_item).countP (fun s => s.in_use) = 0 := by
  rw [List.countP_eq_zero]
  intro s hs
  obtain ⟨_, _, rfl⟩ := List.mem_map.mp hs
  have e : zero_item.in_use = false := rfl
  rw [e]
  exact Bool.false_ne_true

theorem find_free_slot_spec (q : List notification_item) :
    ∀ (i k : Nat), find_free_slot q i = some k →
      ∃ j s, k = i + j ∧ q[j]? = some s ∧ s.in_use = false := by
  induction q with
  | nil => intro i k h; simp [find_free_slot] at h
  | cons a rest ih =>
    intro i k h
    unfold find_free_slot at h
    by_cases ha : a.in_use = true
    · rw [if_neg (by simp [ha])] at h
      obtain ⟨j, s, hk, hj, hs⟩ := ih (i + 1) k h
      exact ⟨j + 1, s, by omega, by simpa using hj, hs⟩
    · rw [if_pos (by simpa using ha)] at h
      exact ⟨0, a, by have := Option.some.inj h; omega, by simp, by simpa using ha⟩

theorem send_notification_fst (nm : NotificationManager) (err : Int) (now : Nat) :
    (send_notification nm err now).1 = err := by
  unfold send_notification
  split_ifs <;> rfl

theorem send_notification_queue (nm : NotificationManager) (err : Int) (now : Nat) :
    (send_notification nm err now).2.queue = nm.queue ∧
    (send_notification nm err now).2.queue_count = nm.queue_count := by
  unfold send_notification record_memory_error
  split_ifs <;> exact ⟨rfl, rfl⟩

theorem process_next_notification_cases (M P : Nat) (nm : NotificationManager) (err : Int)
    (now rand : Nat) (hc : table_consistent nm) :
    (find_highest_priority nm = none ∧
      process_next_notification M P nm err now rand = some (0, nm, none)) ∨
    (∃ idx slot, find_highest_priority nm = some idx ∧ nm.queue[idx]? = some slot ∧
      slot.in_use = true ∧ 0 < nm.queue_count ∧
      ((err = -ENOMEM ∧ (slot.priority ≥ P ∨ slot.critical = true) ∧ slot.retry_count < M) →
        process_next_notification M P nm err now rand =
          some (err,
            { (send_notification nm err now).2 with
              queue := nm.queue.set idx
                { slot with retry_count := (slot.retry_count + 1) % 256 } },
            some (calculate_backoff (send_notification nm err now).2.memory_error_count
              slot.retry_count rand))) ∧
      (¬ (err = -ENOMEM ∧ (slot.priority ≥ P ∨ slot.critical = true) ∧ slot.retry_count < M) →
        process_next_notification M P nm err now rand =
          some (err,
            { (send_notification nm err now).2 with
              queue := nm.queue.set idx { slot with in_use := false }
              queue_count := nm.queue_count - 1 },
            none))) := by
  cases hsel : find_highest_priority nm with
  | none =>
    left
    refine ⟨rfl, ?_⟩
    unfold process_next_notification
    rw [hsel]
  | some idx =>
    right
    obtain ⟨slot, hslot, huse, _, _⟩ := find_highest_priority_some nm idx hsel
    obtain ⟨hcount, hsize, hdata⟩ := hc
    have hmem : slot ∈ nm.queue := List.mem_iff_getElem?.mpr ⟨idx, hslot⟩
    have hd := hdata slot hmem
    have hpos : 0 < nm.queue_count := by
      rw [hcount]
      exact countP_pos_of_in_use nm.queue idx slot hslot huse
    have hle : nm.queue_count ≤ nm.queue.length := by
      rw [hcount]
      exact List.countP_le_length _
    have hq := (send_notification_queue nm err now).1
    have hqc := (send_notification_queue nm err now).2
    have hfst := send_notification_fst nm err now
    refine ⟨idx, slot, rfl, hslot, huse, hpos, ?_, ?_⟩
    · intro hret
      unfold process_next_notification
      rw [hsel]
      simp only [hslot, Option.some_bind, rd_n_of_le (show slot.len ≤ slot.data.length by omega),
        show ¬ slot.len > 256 by omega, if_false, hfst, hq]
      rw [if_pos hret.1, if_pos ⟨by
        rcases hret.2.1 with h | h
        · exact Or.inl h
        · exact Or.inr h, hret.2.2⟩]
    · intro hret
      have hdec : (nm.queue_count + 2 ^ 32 - 1) % 2 ^ 32 = nm.queue_count - 1 := by
        have : nm.queue_count < 2 ^ 32 := by omega
        norm_num at this ⊢
        omega
      unfold process_next_notification retire_slot
      rw [hsel]
      simp only [hslot, Option.some_bind, rd_n_of_le (show slot.len ≤ slot.data.length by omega),
        show ¬ slot.len > 256 by omega, if_false, hfst, hq, hqc, hdec]
      by_cases he : err = -ENOMEM
      · rw [if_pos he, if_neg (by
          intro hc2
          exact hret ⟨he, hc2.1, hc2.2⟩)]
      · rw [if_neg he]

theorem notification_manager_add_result (nm nm' : NotificationManager)
    (data : Option (List Nat)) (len priority : Nat) (critical : Bool) (r : Int)
    (h : notification_manager_add nm data len priority critical = some (r, nm')) :
    (r < 0 ∧ nm' = nm) ∨
    (r = 0 ∧ ∃ (idx : Nat) (old : notification_item) (d : List Nat),
      nm.queue[idx]? = some old ∧ (len ≤ old.data.length → d.length = old.data.length) ∧
      1 ≤ len ∧ len ≤ 255 ∧
      (nm.queue_count < nm.queue.length → old.in_use = false) ∧
      nm' = { nm with
        queue := nm.queue.set idx
          { data := d, len := len, priority := priority, critical := critical,
            retry_count := 0, in_use := true }
        queue_count :=
          if nm.queue_count < nm.queue.length then nm.queue_count + 1 else nm.queue_count }) := by
  unfold notification_manager_add QUEUE_SIZE at h
  cases data with
  | none =>
    simp only [Option.some.injEq, Prod.mk.injEq] at h
    exact Or.inl ⟨by rw [← h.1]; decide, h.2.symm⟩
  | some bytes =>
    simp only at h
    by_cases hv : len = 0 ∨ len > 255
    · rw [if_pos hv] at h
      simp only [Option.some.injEq, Prod.mk.injEq] at h
      exact Or.inl ⟨by rw [← h.1]; decide, h.2.symm⟩
    · rw [if_neg hv] at h
      generalize hidx :
        (if nm.queue_count < nm.queue.length then find_free_slot nm.queue 0
          else
            if (find_lowest_priority nm.queue 0 255 none).2.isSome = true ∧
                (priority > (find_lowest_priority nm.queue 0 255 none).1 ∨ critical = true)
            then (find_lowest_priority nm.queue 0 255 none).2 else none) = oidx at h
      cases oidx with
      | none =>
        simp only [Option.some.injEq, Prod.mk.injEq] at h
        exact Or.inl ⟨by rw [← h.1]; decide, h.2.symm⟩
      | some idx =>
        simp only at h
        cases hold : nm.queue[idx]? with
        | none => rw [hold] at h; simp at h
        | some old =>
          rw [hold, Option.some_bind] at h
          cases hm : memcpy old.data bytes len with
          | none => rw [hm] at h; simp at h
          | some d =>
            rw [hm, Option.some_bind] at h
            simp only [Option.some.injEq, Prod.mk.injEq] at h
            refine Or.inr ⟨h.1.symm, idx, old, d, hold, ?_, by omega, by omega, ?_, h.2.symm⟩
            · intro hl
              unfold memcpy rd_n at hm
              by_cases hb : len ≤ bytes.length
              · rw [if_pos hb, Option.some_bind, if_pos hl] at hm
                rw [← Option.some.inj hm, List.length_append, List.length_take,
                  List.length_drop]
                omega
              · rw [if_neg hb] at hm
                simp at hm
            · intro hlt
              rw [if_pos hlt] at hidx
              obtain ⟨j, s, hk, hj, hs⟩ := find_free_slot_spec nm.queue 0 idx hidx
              rw [Nat.zero_add] at hk
              subst hk
              rw [hold] at hj
              rw [Option.some.inj hj]
              exact hs

theorem notification_manager_add_consistent (nm nm' : NotificationManager)
    (data : Option (List Nat)) (len priority : Nat) (critical : Bool) (r : Int)
    (hc : table_consistent nm)
    (h : notification_manager_add nm data len priority critical = some (r, nm')) :
    table_consistent nm' ∧ nm'.queue.length = nm.queue.length := by
  rcases notification_manager_add_result nm nm' data len priority critical r h with
    ⟨_, rfl⟩ | ⟨_, idx, old, d, hold, hdl, h1, h2, hfree, rfl⟩
  · exact ⟨hc, rfl⟩
  · obtain ⟨hcount, hsize, hdata⟩ := hc
    have hmem : old ∈ nm.queue := List.mem_iff_getElem?.mpr ⟨idx, hold⟩
    have hod := hdata old hmem
    have hcp := countP_set_in_use nm.queue idx old
      { data := d, len := len, priority := priority, critical := critical,
        retry_count := 0, in_use := true } hold
    simp only [if_true] at hcp
    refine ⟨⟨?_, ?_, ?_⟩, ?_⟩
    · unfold slots_in_use at hcount ⊢
      simp only
      by_cases hlt : nm.queue_count < nm.queue.length
      · rw [if_pos hlt]
        rw [hfree hlt] at hcp
        simp only [Bool.false_eq_true, if_false] at hcp
        omega
      · rw [if_neg hlt]
        have hall : nm.queue.countP (fun s => s.in_use) = nm.queue.length := by
          have := List.countP_le_length (fun s : notification_item => s.in_use) (l := nm.queue)
          omega
        have := all_in_use_of_countP nm.queue hall old hmem
        rw [this] at hcp
        simp only [if_true] at hcp
        omega
    · simp only [List.length_set]
      exact hsize
    · intro s hs
      simp only at hs
      rcases List.mem_or_eq_of_mem_set hs with hs | rfl
      · exact hdata s hs
      · exact ⟨by rw [hdl (by omega)]; exact hod.1, h2⟩
    · simp only [List.length_set]

theorem notification_manager_add_total (nm : NotificationManager) (data : Option (List Nat))
    (len priority : Nat) (critical : Bool) (hc : table_consistent nm)
    (hread : call_readable (NotificationCall.add data len priority critical)) :
    ∃ r nm', notification_manager_add nm data len priority critical = some (r, nm') := by
  unfold notification_manager_add QUEUE_SIZE
  cases data with
  | none => exact ⟨_, _, rfl⟩
  | some bytes =>
    have hb : len ≤ bytes.length := hread
    simp only
    by_cases hv : len = 0 ∨ len > 255
    · rw [if_pos hv]
      exact ⟨_, _, rfl⟩
    · rw [if_neg hv]
      have hslot : ∀ idx,
          (if nm.queue_count < nm.queue.length then find_free_slot nm.queue 0
            else
              if (find_lowest_priority nm.queue 0 255 none).2.isSome = true ∧
                  (priority > (find_lowest_priority nm.queue 0 255 none).1 ∨ critical = true)
              then (find_lowest_priority nm.queue 0 255 none).2 else none) = some idx →
          ∃ old, nm.queue[idx]? = some old := by
        intro idx hidx
        by_cases hlt : nm.queue_count < nm.queue.length
        · rw [if_pos hlt] at hidx
          obtain ⟨j, s, hk, hj, _⟩ := find_free_slot_spec nm.queue 0 idx hidx
          rw [Nat.zero_add] at hk
          subst hk
          exact ⟨s, hj⟩
        · rw [if_neg hlt] at hidx
          split_ifs at hidx
          rcases find_lowest_priority_spec nm.queue 0 255 none with
            ⟨hr, _⟩ | ⟨j, s, hj, hr, _, _, _⟩
          · rw [hr] at hidx
            exact absurd hidx (by simp)
          · rw [hr, Nat.zero_add] at hidx
            have : j = idx := Option.some.inj hidx
            subst this
            exact ⟨s, hj⟩
      generalize hidx :
        (if nm.queue_count < nm.queue.length then find_free_slot nm.queue 0
          else
            if (find_lowest_priority nm.queue 0 255 none).2.isSome = true ∧
                (priority > (find_lowest_priority nm.queue 0 255 none).1 ∨ critical = true)
            then (find_lowest_priority nm.queue 0 255 none).2 else none) = oidx at hslot
      cases oidx with
      | none => exact ⟨_, _, rfl⟩
      | some idx =>
        obtain ⟨old, hold⟩ := hslot idx rfl
        have hod := hc.2.2 old (List.mem_iff_getElem?.mpr ⟨idx, hold⟩)
        have hm : memcpy old.data bytes len = some (bytes.take len ++ old.data.drop len) := by
          unfold memcpy
          rw [rd_n_of_le hb, Option.some_bind, if_pos (by omega)]
        simp only [hold, Option.some_bind, hm]
        exact ⟨_, _, rfl⟩

theorem process_next_notification_consistent (M P : Nat) (nm nm' : NotificationManager)
    (err : Int) (now rand : Nat) (r : Int) (b : Option Nat) (hc : table_consistent nm)
    (h : process_next_notification M P nm err now rand = some (r, nm', b)) :
    table_consistent nm' ∧ nm'.queue.length = nm.queue.length := by
  obtain ⟨hcount, hsize, hdata⟩ := hc
  rcases process_next_notification_cases M P nm err now rand ⟨hcount, hsize, hdata⟩ with
    ⟨_, he⟩ | ⟨idx, slot, _, hslot, huse, hpos, hretry, hretire⟩
  · rw [he] at h
    have : nm' = nm := ((Prod.mk.inj (Prod.mk.inj (Option.some.inj h)).2).1).symm
    subst this
    exact ⟨⟨hcount, hsize, hdata⟩, rfl⟩
  · have hmem : slot ∈ nm.queue := List.mem_iff_getElem?.mpr ⟨idx, hslot⟩
    have hqc := (send_notification_queue nm err now).2
    by_cases hret : err = -ENOMEM ∧ (slot.priority ≥ P ∨ slot.critical = true) ∧
        slot.retry_count < M
    · rw [hretry hret] at h
      have : nm' = _ := ((Prod.mk.inj (Prod.mk.inj (Option.some.inj h)).2).1).symm
      subst this
      have hcp := countP_set_in_use nm.queue idx slot
        { slot with retry_count := (slot.retry_count + 1) % 256 } hslot
      refine ⟨⟨?_, ?_, ?_⟩, ?_⟩
      · unfold slots_in_use at hcount ⊢
        simp only [hqc]
        simp only at hcp
        omega
      · simp only [List.length_set]
        exact hsize
      · intro s hs
        simp only at hs
        rcases List.mem_or_eq_of_mem_set hs with hs | rfl
        · exact hdata s hs
        · exact hdata slot hmem
      · simp only [List.length_set]
    · rw [hretire hret] at h
      have : nm' = _ := ((Prod.mk.inj (Prod.mk.inj (Option.some.inj h)).2).1).symm
      subst this
      have hcp := countP_set_in_use nm.queue idx slot { slot with in_use := false } hslot
      refine ⟨⟨?_, ?_, ?_⟩, ?_⟩
      · unfold slots_in_use at hcount ⊢
        simp only
        rw [huse] at hcp
        simp only [if_true, Bool.false_eq_true, if_false] at hcp
        omega
      · simp only [List.length_set]
        exact hsize
      · intro s hs
        simp only at hs
        rcases List.mem_or_eq_of_mem_set hs with hs | rfl
        · exact hdata s hs
        · exact hdata slot hmem
      · simp only [List.length_set]

theorem process_next_notification_total (M P : Nat) (nm : NotificationManager) (err : Int)
    (now rand : Nat) (hc : table_consistent nm) :
    ∃ r nm' b, process_next_notification M P nm err now rand = some (r, nm', b) := by
  rcases process_next_notification_cases M P nm err now rand hc with
    ⟨_, he⟩ | ⟨idx, slot, _, _, _, _, hretry, hretire⟩
  · exact ⟨_, _, _, he⟩
  · by_cases hret : err = -ENOMEM ∧ (slot.priority ≥ P ∨ slot.critical = true) ∧
        slot.retry_count < M
    · exact ⟨_, _, _, hretry hret⟩
    · exact ⟨_, _, _, hretire hret⟩

theorem zero_table_consistent (nm : NotificationManager) (hsize : nm.queue.length < 2 ^ 32) :
    table_consistent (notification_manager_clear nm) := by
  refine ⟨?_, ?_, ?_⟩
  · unfold slots_in_use notification_manager_clear
    simp only
    rw [countP_zero_items]
  · unfold notification_manager_clear
    simp only [List.length_map]
    exact hsize
  · intro s hs
    unfold notification_manager_clear at hs
    obtain ⟨_, _, rfl⟩ := List.mem_map.mp hs
    exact ⟨List.length_replicate 256 0, by decide⟩

theorem notification_manager_init_eq_clear (nm : NotificationManager) :
    (notification_manager_init nm true).2 = notification_manager_clear nm := rfl

theorem run_notification_calls_consistent (M P : Nat) (calls : List NotificationCall) :
    ∀ nm nm', table_consistent nm → run_notification_calls M P nm calls = some nm' →
      table_consistent nm' ∧ nm'.queue.length = nm.queue.length := by
  induction calls with
  | nil =>
    intro nm nm' hc h
    have : nm' = nm := (Option.some.inj h).symm
    subst this
    exact ⟨hc, rfl⟩
  | cons c rest ih =>
    intro nm nm' hc h
    cases c with
    | add data len priority critical =>
      unfold run_notification_calls at h
      cases ha : notification_manager_add nm data len priority critical with
      | none => rw [ha] at h; simp at h
      | some r =>
        rw [ha, Option.some_bind] at h
        obtain ⟨h1, h2⟩ := notification_manager_add_consistent nm r.2 data len priority
          critical r.1 hc ha
        obtain ⟨h3, h4⟩ := ih r.2 nm' h1 h
        exact ⟨h3, by rw [h4, h2]⟩
    | process err now rand =>
      unfold run_notification_calls at h
      cases hp : process_next_notification M P nm err now rand with
      | none => rw [hp] at h; simp at h
      | some r =>
        rw [hp, Option.some_bind] at h
        obtain ⟨h1, h2⟩ := process_next_notification_consistent M P nm r.2.1 err now rand
          r.1 r.2.2 hc hp
        obtain ⟨h3, h4⟩ := ih r.2.1 nm' h1 h
        exact ⟨h3, by rw [h4, h2]⟩
    | clear =>
      unfold run_notification_calls at h
      obtain ⟨h3, h4⟩ := ih _ nm' (zero_table_consistent nm hc.2.1) h
      refine ⟨h3, ?_⟩
      rw [h4]
      unfold notification_manager_clear
      simp only [List.length_map]

theorem run_notification_calls_total (M P : Nat) (calls : List NotificationCall) :
    ∀ nm, table_consistent nm → (∀ c ∈ calls, call_readable c) →
      ∃ nm', run_notification_calls M P nm calls = some nm' := by
  induction calls with
  | nil => intro nm _ _; exact ⟨nm, rfl⟩
  | cons c rest ih =>
    intro nm hc hread
    have hrest : ∀ c ∈ rest, call_readable c := fun c hc' => hread c (List.mem_cons_of_mem _ hc')
    cases c with
    | add data len priority critical =>
      obtain ⟨r, nm1, ha⟩ := notification_manager_add_total nm data len priority critical hc
        (hread _ (List.mem_cons_self _ _))
      have h1 := (notification_manager_add_consistent nm nm1 data len priority critical r hc ha).1
      obtain ⟨nm', h⟩ := ih nm1 h1 hrest
      exact ⟨nm', by unfold run_notification_calls; rw [ha, Option.some_bind]; exact h⟩
    | process err now rand =>
      obtain ⟨r, nm1, b, hp⟩ := process_next_notification_total M P nm err now rand hc
      have h1 := (process_next_notification_consistent M P nm nm1 err now rand r b hc hp).1
      obtain ⟨nm', h⟩ := ih nm1 h1 hrest
      exact ⟨nm', by unfold run_notification_calls; rw [hp, Option.some_bind]; exact h⟩
    | clear =>
      obtain ⟨nm', h⟩ := ih _ (zero_table_consistent nm hc.2.1) hrest
      exact ⟨nm', by unfold run_notification_calls; exact h⟩

theorem map_set_same_key (l : List notification_item) (i : Nat) (s s' : notification_item)
    (h : l[i]? = some s) (hk : (s'.in_use, s'.priority) = (s.in_use, s.priority)) :
    (l.set i s').map (fun s => (s.in_use, s.priority))
      = l.map (fun s => (s.in_use, s.priority)) := by
  apply List.ext_getElem?
  intro k
  rw [List.getElem?_map, List.getElem?_map]
  by_cases hki : i = k
  · subst hki
    have hlt : i < l.length := by
      by_contra hge
      rw [List.getElem?_eq_none (by omega)] at h
      exact absurd h (by simp)
    rw [List.getElem?_set_self hlt, h]
    simp only [Option.map_some', hk]
  · rw [List.getElem?_set_ne hki]

theorem retries_stay_bounded (M P : Nat) (calls : List NotificationCall) :
    ∀ nm nm', table_consistent nm → (∀ s ∈ nm.queue, s.retry_count ≤ M) →
      run_notification_calls M P nm calls = some nm' →
      table_consistent nm' ∧ ∀ s ∈ nm'.queue, s.retry_count ≤ M := by
  induction calls with
  | nil =>
    intro nm nm' hc hb h
    have : nm' = nm := (Option.some.inj h).symm
    subst this
    exact ⟨hc, hb⟩
  | cons c rest ih =>
    intro nm nm' hc hb h
    cases c with
    | add data len priority critical =>
      unfold run_notification_calls at h
      cases ha : notification_manager_add nm data len priority critical with
      | none => rw [ha] at h; simp at h
      | some r =>
        rw [ha, Option.some_bind] at h
        have h1 := (notification_manager_add_consistent nm r.2 data len priority critical r.1
          hc ha).1
        refine ih r.2 nm' h1 ?_ h
        rcases notification_manager_add_result nm r.2 data len priority critical r.1 ha with
          ⟨_, e⟩ | ⟨_, idx, old, d, _, _, _, _, _, e⟩
        · rw [e]; exact hb
        · rw [e]
          intro s hs
          simp only at hs
          rcases List.mem_or_eq_of_mem_set hs with hs | rfl
          · exact hb s hs
          · exact Nat.zero_le _
    | process err now rand =>
      unfold run_notification_calls at h
      cases hp : process_next_notification M P nm err now rand with
      | none => rw [hp] at h; simp at h
      | some r =>
        rw [hp, Option.some_bind] at h
        have h1 := (process_next_notification_consistent M P nm r.2.1 err now rand r.1 r.2.2
          hc hp).1
        refine ih r.2.1 nm' h1 ?_ h
        rcases process_next_notification_cases M P nm err now rand hc with
          ⟨_, he⟩ | ⟨idx, slot, _, hslot, _, _, hretry, hretire⟩
        · rw [he] at hp
          have : r.2.1 = nm := ((Prod.mk.inj (Prod.mk.inj (Option.some.inj hp)).2).1).symm
          rw [this]
          exact hb
        · have hmem : slot ∈ nm.queue := List.mem_iff_getElem?.mpr ⟨idx, hslot⟩
          by_cases hret : err = -ENOMEM ∧ (slot.priority ≥ P ∨ slot.critical = true) ∧
              slot.retry_count < M
          · rw [hretry hret] at hp
            have : r.2.1 = _ := ((Prod.mk.inj (Prod.mk.inj (Option.some.inj hp)).2).1).symm
            rw [this]
            intro s hs
            simp only at hs
            rcases List.mem_or_eq_of_mem_set hs with hs | rfl
            · exact hb s hs
            · simp only
              have := Nat.mod_le (slot.retry_count + 1) 256
              omega
          · rw [hretire hret] at hp
            have : r.2.1 = _ := ((Prod.mk.inj (Prod.mk.inj (Option.some.inj hp)).2).1).symm
            rw [this]
            intro s hs
            simp only at hs
            rcases List.mem_or_eq_of_mem_set hs with hs | rfl
            · exact hb s hs
            · exact hb slot hmem
    | clear =>
      unfold run_notification_calls at h
      refine ih _ nm' (zero_table_consistent nm hc.2.1) ?_ h
      intro s hs
      unfold notification_manager_clear at hs
      obtain ⟨_, _, rfl⟩ := List.mem_map.mp hs
      exact Nat.zero_le _

theorem enomem_attempts_retire (M P idx : Nat) (hM : M ≤ 255) (readings : List (Nat × Nat)) :
    ∀ nm, table_consistent nm → idx < nm.queue.length →
      ((∀ s, nm.queue[idx]? = some s → s.in_use = false) ∨
        (∃ slot, find_highest_priority nm = some idx ∧ nm.queue[idx]? = some slot ∧
          slot.retry_count ≤ M ∧ M + 1 ≤ slot.retry_count + readings.length)) →
      ∃ nm', enomem_attempts M P nm readings = some nm' ∧
        ∃ s', nm'.queue[idx]? = some s' ∧ s'.in_use = false := by
  induction readings with
  | nil =>
    intro nm _ hlt h
    rcases h with h | ⟨slot, _, _, h1, h2⟩
    · refine ⟨nm, rfl, nm.queue[idx], List.getElem?_eq_getElem hlt, ?_⟩
      exact h _ (List.getElem?_eq_getElem hlt)
    · simp only [List.length_nil] at h2
      omega
  | cons reading rest ih =>
    intro nm hc hlt h
    unfold enomem_attempts
    rcases process_next_notification_cases M P nm (-ENOMEM) reading.1 reading.2 hc with
      ⟨hn, he⟩ | ⟨idx', slot', hsel', hslot', huse', _, hretry, hretire⟩
    · rw [he, Option.some_bind]
      rcases h with h | ⟨slot, hsel, _⟩
      · exact ih nm hc hlt (Or.inl h)
      · rw [hn] at hsel
        exact absurd hsel (by simp)
    · by_cases hret : (-ENOMEM : Int) = -ENOMEM ∧ (slot'.priority ≥ P ∨ slot'.critical = true) ∧
          slot'.retry_count < M
      · have hp := hretry hret
        have hc' := (process_next_notification_consistent M P nm _ _ _ _ _ _ hc hp).1
        rw [hp, Option.some_bind]
        refine ih _ hc' (by simp only [List.length_set]; exact hlt) ?_
        rcases h with h | ⟨slot, hsel, hslot, hb, hlen⟩
        · left
          intro s hs
          have hne : idx' ≠ idx := by
            rintro rfl
            have := h slot' hslot'
            rw [huse'] at this
            exact absurd this (by simp)
          simp only at hs
          rw [List.getElem?_set_ne hne] at hs
          exact h s hs
        · right
          rw [hsel] at hsel'
          have : idx = idx' := Option.some.inj hsel'
          subst this
          rw [hslot] at hslot'
          have : slot = slot' := Option.some.inj hslot'
          subst this
          have hmod : (slot.retry_count + 1) % 256 = slot.retry_count + 1 := by omega
          refine ⟨{ slot with retry_count := (slot.retry_count + 1) % 256 }, ?_, ?_, ?_, ?_⟩
          · unfold find_highest_priority at hsel ⊢
            exact (find_highest_priority_loop_congr _ nm.queue 0 0 none
              (map_set_same_key nm.queue idx slot
                { slot with retry_count := (slot.retry_count + 1) % 256 } hslot rfl)).trans hsel
          · simp only [List.getElem?_set_self, hlt]
          · simp only [hmod]
            omega
          · simp only [hmod, List.length_cons] at hlen ⊢
            omega
      · have hp := hretire hret
        have hc' := (process_next_notification_consistent M P nm _ _ _ _ _ _ hc hp).1
        rw [hp, Option.some_bind]
        refine ih _ hc' (by simp only [List.length_set]; exact hlt) (Or.inl ?_)
        intro s hs
        simp only at hs
        by_cases hne : idx' = idx
        · subst hne
          rw [List.getElem?_set_self hlt] at hs
          rw [← Option.some.inj hs]
        · rw [List.getElem?_set_ne hne] at hs
          rcases h with h | ⟨slot, hsel, _⟩
          · exact h s hs
          · rw [hsel] at hsel'
            exact absurd (Option.some.inj hsel').symm hne

theorem calculate_backoff_no_wrap (c r j : Nat) (h : 100 * 2 ^ r + 100 * c + 49 < 2 ^ 32) :
    calculate_backoff c r j
      = min 5000 (100 * 2 ^ r + (if c > 3 then c * 100 else 0) + j % 2 ^ 32 % 50) := by
  have hj : j % 2 ^ 32 % 50 < 50 := Nat.mod_lt _ (by decide)
  unfold calculate_backoff
  generalize j % 2 ^ 32 % 50 = a at hj
  generalize 2 ^ r = x at h
  have e1 : (100 * x) % 2 ^ 32 = 100 * x := Nat.mod_eq_of_lt (by omega)
  have e2 : (c * 100) % 2 ^ 32 = c * 100 := Nat.mod_eq_of_lt (by omega)
  have e3 : (100 * x + c * 100) % 2 ^ 32 = 100 * x + c * 100 := Nat.mod_eq_of_lt (by omega)
  have e4 : (100 * x + c * 100 + a) % 2 ^ 32 = 100 * x + c * 100 + a :=
    Nat.mod_eq_of_lt (by omega)
  have e5 : (100 * x + a) % 2 ^ 32 = 100 * x + a := Nat.mod_eq_of_lt (by omega)
  simp only [e1, e2, e3]
  by_cases hc : c > 3
  · simp only [hc, if_true, e4]
    split_ifs <;> omega
  · simp only [hc, if_false, e5]
    split_ifs <;> omega

/-! ## The claims -/

/-! ### C1 -/

/-- C1. Round trip: for every command byte `cmd` and payload `p` with
`6 + |p| ≤ 37`, the frame that `format_ble_command` writes (the first `6 + |p|`
bytes of the destination, the value it returns) passes the structural checks of
`process_command` with length byte `|p| + 1`, the byte at offset 3 is `cmd`, the
`LEN - 1` bytes after it are `p`, and `process_command` goes on to the dispatch
of that frame, which decodes exactly `(cmd, p)`: the outcome of
`process_command` on the written frame is the one selected by `cmd` (0x00 LED
off, 0x01 LED on, 0x02 LED on and `start_cpr_session`, 0x03 LED off and
`stop_cpr_session`, 0x04 `process_cpr_data`, 0x05 `process_time_data`, any other
byte `-EINVAL` with the state unchanged), and the two handlers that take data
work on `cmd` followed by `p`, respectively on `p`, and on nothing else of the
frame. -/
theorem format_process_round_trip (st : State) (env : Env) (buffer : List Nat) (cmd : Nat)
    (p : List Nat) (hfit : 6 + p.length ≤ 37) (hcap : 6 + p.length ≤ buffer.length) :
    ∃ out, format_ble_command buffer buffer.length cmd (some p) p.length
        = some (((6 + p.length : Nat) : Int), out) ∧
      frame_checks (out.take (6 + p.length)) (6 + p.length) = some (Sum.inr (p.length + 1)) ∧
      rd (out.take (6 + p.length)) 3 = some cmd ∧
      rd_n ((out.take (6 + p.length)).drop 4) (p.length + 1 - 1) = some p ∧
      process_command st env (out.take (6 + p.length)) (6 + p.length)
        = dispatch_command st env (out.take (6 + p.length)) (6 + p.length) (p.length + 1) ∧
      process_command st env (out.take (6 + p.length)) (6 + p.length)
        = (if cmd = 0x00 then some (0, request_led_state st false)
           else if cmd = 0x01 then some (0, request_led_state st true)
           else if cmd = 0x02 then
             some (0, { request_led_state st true with
                        sess := start_cpr_session (request_led_state st true).sess env })
           else if cmd = 0x03 then
             some (0, { request_led_state st false with
                        sess := stop_cpr_session (request_led_state st false).sess })
           else if cmd = 0x04 then
             (process_cpr_data st (cmd :: p) (p.length + 1)).bind fun st1 => some (0, st1)
           else if cmd = 0x05 then
             (process_time_data st env p p.length).bind fun st1 => some (0, st1)
           else some (-EINVAL, st)) := by
  refine ⟨_, format_ok_frame buffer cmd p hcap, ?_⟩
  have hl := frame_bytes_length (p.length + 1) cmd p
  rw [Nat.mod_eq_of_lt (by omega), List.take_left' hl]
  refine ⟨?_, ?_, ?_, ?_, ?_⟩
  · rw [← hl, frame_checks_eq, frame_verdict_frame, if_pos (by omega)]
  · simp [frame_bytes_cons, rd]
  · simp [frame_bytes_cons, rd_n]
  · rw [process_command_frame, if_pos (by omega)]
  · rw [process_command_frame, if_pos (by omega)]
    by_cases h0 : cmd = 0x00
    · subst h0; rw [if_pos rfl]; exact dispatch_led_off st env p
    by_cases h1 : cmd = 0x01
    · subst h1; rw [if_neg h0, if_pos rfl]; exact dispatch_led_on st env p
    by_cases h2 : cmd = 0x02
    · subst h2; rw [if_neg h0, if_neg h1, if_pos rfl]; exact dispatch_start st env p
    by_cases h3 : cmd = 0x03
    · subst h3; rw [if_neg h0, if_neg h1, if_neg h2, if_pos rfl]; exact dispatch_stop st env p
    by_cases h4 : cmd = 0x04
    · subst h4
      rw [if_neg h0, if_neg h1, if_neg h2, if_neg h3, if_pos rfl, dispatch_data,
        ← List.cons_append,
        process_cpr_data_append_src st (0x04 :: p) [0x3B, 0x17] (p.length + 1)
          (by rw [List.length_cons])]
    by_cases h5 : cmd = 0x05
    · subst h5
      rw [if_neg h0, if_neg h1, if_neg h2, if_neg h3, if_neg h4, if_pos rfl]
      exact dispatch_timedata st env p
    · rw [if_neg h0, if_neg h1, if_neg h2, if_neg h3, if_neg h4, if_neg h5]
      exact dispatch_unknown st env cmd p (by omega)

/-- Witness for C1: command 0x04 with the payload "in:A" in a 37-byte
destination, on the freshly initialised system: the written frame is accepted
and stores "A" as the instructor id. -/
theorem format_process_round_trip_witness :
    ∃ out, format_ble_command (List.replicate 37 0) 37 0x04 (some [0x69, 0x6E, 0x3A, 0x41]) 4
        = some (10, out) ∧
      frame_checks (out.take 10) 10 = some (Sum.inr 5) ∧
      rd (out.take 10) 3 = some 0x04 ∧
      rd_n ((out.take 10).drop 4) 4 = some [0x69, 0x6E, 0x3A, 0x41] ∧
      process_command message_processor_init ⟨5000, 5000, 0, 70, true⟩ (out.take 10) 10
        = dispatch_command message_processor_init ⟨5000, 5000, 0, 70, true⟩ (out.take 10) 10 5 ∧
      process_command message_processor_init ⟨5000, 5000, 0, 70, true⟩ (out.take 10) 10
        = some (0, { message_processor_init with
            instructor_id := [0x41] ++ List.replicate 19 0
            current_user_role := 1
            sess := { message_processor_init.sess with led_requested_state := true
                                                       led_request_pending := true } }) := by
  obtain ⟨out, h1, h2, h3, h4, h5, h6⟩ :=
    format_process_round_trip message_processor_init ⟨5000, 5000, 0, 70, true⟩
      (List.replicate 37 0) 0x04 [0x69, 0x6E, 0x3A, 0x41] (by decide) (by decide)
  exact ⟨out, h1, h2, h3, h4, h5, h6.trans (by decide)⟩

/-! ### C2 -/

/-- C2. For every input that does not begin with "in:" or "tr:",
`process_command` returns the error `-EINVAL` and leaves the whole state
(identity, role, time, LED request, session) unchanged whenever the input is
shorter than 5 bytes, or its first byte is not 0x01, or its third byte is not
0x3A, or 5 + LEN (LEN its second byte) exceeds the input length. -/
theorem process_command_rejects_malformed (st : State) (env : Env) (d : List Nat)
    (hin : d.take 3 ≠ USER_ROLE_INSTRUCTOR_PREFIX) (htr : d.take 3 ≠ USER_ROLE_TRAINEE_PREFIX)
    (hbad : d.length < 5 ∨ d[0]? ≠ some 0x01 ∨ d[2]? ≠ some 0x3A ∨
      ∃ len_byte, d[1]? = some len_byte ∧ d.length < 5 + len_byte) :
    process_command st env d d.length = some (-EINVAL, st) ∧ -EINVAL < 0 := by
  refine ⟨process_command_reject st env d hin htr ?_, by decide⟩
  unfold frame_verdict
  by_cases h5 : d.length < 5
  · rw [if_pos h5]
  · rw [if_neg h5]
    have g0 : d[0]? = some (d[0]?.getD 0) := by
      rw [List.getElem?_eq_getElem (show 0 < d.length by omega)]; rfl
    have g1 : d[1]? = some (d[1]?.getD 0) := by
      rw [List.getElem?_eq_getElem (show 1 < d.length by omega)]; rfl
    have g2 : d[2]? = some (d[2]?.getD 0) := by
      rw [List.getElem?_eq_getElem (show 2 < d.length by omega)]; rfl
    rcases hbad with h | h | h | ⟨L, hL, h⟩
    · exact absurd h h5
    · rw [g0] at h
      rw [if_pos (fun e => h (by rw [e]))]
    · rw [g2] at h
      have : d[2]?.getD 0 ≠ 0x3A := fun e => h (by rw [e])
      simp only [this, ne_eq, not_false_eq_true, if_true, ite_self]
    · rw [g1] at hL
      have hL2 : d[1]?.getD 0 = L := Option.some.inj hL
      have : 5 + d[1]?.getD 0 > d.length := by omega
      simp only [this, if_true, ite_self]

/-- Witness for C2: the four-byte input 01 02 3A 02 on the freshly initialised
system. -/
theorem process_command_rejects_malformed_witness :
    process_command message_processor_init ⟨5000, 5000, 0, 70, true⟩ [0x01, 0x02, 0x3A, 0x02] 4
      = some (-EINVAL, message_processor_init) ∧ -EINVAL < 0 :=
  process_command_rejects_malformed message_processor_init ⟨5000, 5000, 0, 70, true⟩
    [0x01, 0x02, 0x3A, 0x02] (by decide) (by decide) (Or.inl (by decide))

/-! ### C3 -/

/-- C3. Decoding never reads or writes out of bounds.  Every read and write of
the model is bounds-checked and answers `none` outside the buffer; here no
access fails: for every input of length 1 to 37 with arbitrary content, and
every state whose identity buffers hold 20 bytes and whose time buffer holds 18,
`process_command` runs to a return value and leaves the buffers at their sizes,
and so do the helpers `process_id_string`, `process_cpr_data` and
`process_time_data` on any slice they are handed `n` bytes of. -/
theorem process_command_memory_safe (st : State) (env : Env) (d : List Nat) (hwf : st.wf)
    (_h1 : 1 ≤ d.length) (_h37 : d.length ≤ 37) :
    (∃ r st1, process_command st env d d.length = some (r, st1) ∧ st1.wf) ∧
    (∀ data n b, n ≤ data.length →
      ∃ st1, process_id_string st data n b = some st1 ∧ st1.wf) ∧
    (∀ data n, n ≤ data.length → ∃ st1, process_cpr_data st data n = some st1 ∧ st1.wf) ∧
    (∀ data n, n ≤ data.length →
      ∃ st1, process_time_data st env data n = some st1 ∧ st1.wf) :=
  ⟨process_command_ok st env d hwf,
   fun data n b h => process_id_string_ok st data n b hwf h,
   fun data n h => process_cpr_data_ok st data n hwf h,
   fun data n h => process_time_data_ok st env data n hwf h⟩

/-- Witness for C3: the 8-byte input "in:ALICE" on the freshly initialised
system. -/
theorem process_command_memory_safe_witness :
    ∃ r st1, process_command message_processor_init ⟨5000, 5000, 0, 70, true⟩
        [0x69, 0x6E, 0x3A, 0x41, 0x4C, 0x49, 0x43, 0x45] 8 = some (r, st1) ∧ st1.wf :=
  (process_command_memory_safe message_processor_init ⟨5000, 5000, 0, 70, true⟩
    [0x69, 0x6E, 0x3A, 0x41, 0x4C, 0x49, 0x43, 0x45] (by decide) (by decide) (by decide)).1

/-! ### C4 -/

/-- C4, counterexample. On the freshly initialised system, at uptime 5000 ms
with `fs_open` and `fs_write` succeeding, the frame 01 02 3A 02 3B 17 is
rejected: its length byte 2 announces 5 + 2 = 7 bytes and only 6 are there, so
`process_command` returns `-EINVAL` and the session stays inactive. -/
theorem framed_cpr_start_len2_rejected :
    process_command message_processor_init ⟨5000, 5000, 0, 70, true⟩
        [0x01, 0x02, 0x3A, 0x02, 0x3B, 0x17] 6
      = some (-EINVAL, message_processor_init) ∧
    message_processor_init.sess.cpr_session_active = false :=
  ⟨process_command_reject message_processor_init ⟨5000, 5000, 0, 70, true⟩
      [0x01, 0x02, 0x3A, 0x02, 0x3B, 0x17] (by decide) (by decide) (by decide), rfl⟩

/-- C4, amended. With the session inactive, an uptime of at least 1000 ms and
the session log available (`fs_open` and `fs_write` succeed), `process_command`
on the 6-byte frame 01 01 3A 02 3B 17 (length byte 1, as `format_ble_command`
writes it) succeeds and leaves the session active; `process_command` on
01 01 3A 03 3B 17 then succeeds and leaves it inactive. -/
theorem framed_cpr_start_then_stop (st : State) (env env2 : Env)
    (_hinactive : st.sess.cpr_session_active = false)
    (hup : 1000 ≤ k_uptime_get_32 env.uptime_guard)
    (hopen : 0 ≤ env.fs_open_ret) (hwrite : 0 ≤ env.fs_write_ret) :
    ∃ st1, process_command st env [0x01, 0x01, 0x3A, 0x02, 0x3B, 0x17] 6 = some (0, st1) ∧
      st1.sess.cpr_session_active = true ∧
      ∃ st2, process_command st1 env2 [0x01, 0x01, 0x3A, 0x03, 0x3B, 0x17] 6 = some (0, st2) ∧
        st2.sess.cpr_session_active = false := by
  have e1 : process_command st env [0x01, 0x01, 0x3A, 0x02, 0x3B, 0x17] 6
      = some (0, { request_led_state st true with
                   sess := start_cpr_session (request_led_state st true).sess env }) := by
    have e := process_command_frame st env 0x02 []
    rw [if_pos (by decide), dispatch_start] at e
    exact e
  have e2 : ∀ s1 : State, process_command s1 env2 [0x01, 0x01, 0x3A, 0x03, 0x3B, 0x17] 6
      = some (0, { request_led_state s1 false with
                   sess := stop_cpr_session (request_led_state s1 false).sess }) := by
    intro s1
    have e := process_command_frame s1 env2 0x03 []
    rw [if_pos (by decide), dispatch_stop] at e
    exact e
  exact ⟨_, e1, start_cpr_session_active _ env hup hopen hwrite, _, e2 _,
    stop_cpr_session_inactive _⟩

/-- Witness for the amended C4: the freshly initialised system at uptime
5000 ms with the log available. -/
theorem framed_cpr_start_then_stop_witness :
    ∃ st1, process_command message_processor_init ⟨5000, 5000, 0, 70, true⟩
        [0x01, 0x01, 0x3A, 0x02, 0x3B, 0x17] 6 = some (0, st1) ∧
      st1.sess.cpr_session_active = true ∧
      ∃ st2, process_command st1 ⟨9000, 9000, 0, 70, true⟩
          [0x01, 0x01, 0x3A, 0x03, 0x3B, 0x17] 6 = some (0, st2) ∧
        st2.sess.cpr_session_active = false :=
  framed_cpr_start_then_stop message_processor_init ⟨5000, 5000, 0, 70, true⟩
    ⟨9000, 9000, 0, 70, true⟩ rfl (by decide) (by decide) (by decide)

/-! ### C5 -/

/-- C5. For every command byte `cmd`, payload `p` of length `n ≤ 65535` and
destination `buffer` of capacity `c = buffer.length`: when `c ≥ 6 + n`,
`format_ble_command` returns `6 + n` and the destination holds, in order, 0x01,
the LEN byte (`(n + 1) mod 256`), 0x3A, `cmd`, the payload, 0x3B, 0x17 (the
bytes past the frame are untouched); when `c < 6 + n` it returns a negative
error code and the destination is unchanged. -/
theorem format_ble_command_contract (buffer : List Nat) (cmd : Nat) (p : List Nat)
    (_hn : p.length ≤ 65535) :
    (6 + p.length ≤ buffer.length →
      format_ble_command buffer buffer.length cmd (some p) p.length
        = some (((6 + p.length : Nat) : Int),
            frame_bytes ((p.length + 1) % 256) cmd p ++ buffer.drop (6 + p.length))) ∧
    (buffer.length < 6 + p.length →
      ∃ e : Int, e < 0 ∧
        format_ble_command buffer buffer.length cmd (some p) p.length = some (e, buffer)) := by
  constructor
  · exact format_ok_frame buffer cmd p
  · intro h
    unfold format_ble_command
    by_cases h6 : buffer.length < 6
    · exact ⟨-EINVAL, by decide, by rw [if_pos h6]⟩
    · exact ⟨-ENOMEM, by decide, by rw [if_neg h6, if_pos h]⟩

/-- Witness for C5: the 8-byte frame of command 0x04 with payload "AB", and a
7-byte destination that is too small for it. -/
theorem format_ble_command_contract_witness :
    format_ble_command (List.replicate 8 0) 8 0x04 (some [0x41, 0x42]) 2
        = some (8, [0x01, 0x03, 0x3A, 0x04, 0x41, 0x42, 0x3B, 0x17]) ∧
    ∃ e : Int, e < 0 ∧
      format_ble_command (List.replicate 7 0) 7 0x04 (some [0x41, 0x42]) 2
        = some (e, List.replicate 7 0) :=
  ⟨(format_ble_command_contract (List.replicate 8 0) 0x04 [0x41, 0x42] (by decide)).1
      (by decide),
   (format_ble_command_contract (List.replicate 7 0) 0x04 [0x41, 0x42] (by decide)).2
      (by decide)⟩

/-! ### C6 -/

/-- C6, counterexample. A payload of 255 bytes fits a 261-byte destination and
`format_ble_command` returns 261, but the LEN byte it writes at offset 1 is 0,
not 255 + 1, and 261 is not LEN + 5. -/
theorem format_ble_command_len_byte_wraps :
    (format_ble_command (List.replicate 261 0) 261 0x04 (some (List.replicate 255 0x41)) 255).map
        (fun r => (r.1, rd r.2 1)) = some (261, some 0) ∧
      (0 : Nat) ≠ 255 + 1 ∧ (261 : Int) ≠ 0 + 5 := by
  refine ⟨?_, by decide, by decide⟩
  have h := format_ok_frame (List.replicate 261 0) 0x04 (List.replicate 255 0x41)
    (by rw [List.length_replicate, List.length_replicate])
  rw [List.length_replicate, List.length_replicate] at h
  rw [h, Option.map_some', rd_frame_one]
  rfl

/-- C6, amended. For every payload of length `n ≤ 254` that fits the
destination, the LEN byte (offset 1) written by `format_ble_command` equals
`n + 1`, and the total frame length returned equals LEN + 5. -/
theorem format_ble_command_len_byte (buffer : List Nat) (cmd : Nat) (p : List Nat)
    (hn : p.length ≤ 254) (hfit : 6 + p.length ≤ buffer.length) :
    ∃ out, format_ble_command buffer buffer.length cmd (some p) p.length
        = some (((p.length + 1 + 5 : Nat) : Int), out) ∧
      rd out 1 = some (p.length + 1) := by
  refine ⟨frame_bytes (p.length + 1) cmd p ++ buffer.drop (6 + p.length), ?_, ?_⟩
  · rw [format_ok_frame buffer cmd p hfit, Nat.mod_eq_of_lt (by omega),
      show p.length + 1 + 5 = 6 + p.length by omega]
  · exact rd_frame_one _ _ _ _

/-- Witness for the amended C6: the payload "ABC" in a 9-byte destination. -/
theorem format_ble_command_len_byte_witness :
    ∃ out, format_ble_command (List.replicate 9 0) 9 0x04 (some [0x41, 0x42, 0x43]) 3
        = some (9, out) ∧ rd out 1 = some 4 :=
  format_ble_command_len_byte (List.replicate 9 0) 0x04 [0x41, 0x42, 0x43]
    (by decide) (by decide)

/-! ### C7 -/

/-- C7. For every unframed input "in:" ++ s with s non-empty and free of NUL
bytes, `process_command` returns 0, the instructor id buffer holds the first
min(|s|, 19) bytes of s followed by NULs, so that `get_instructor_id` (buffer of
at least 20 bytes) returns that string, the role is Instructor, LED-on is
requested and nothing else changes (the trainee id included); "tr:" ++ s does
the same to the trainee id only, with role Trainee. -/
theorem unframed_identity_assignment (st : State) (env : Env) (s : List Nat) (hwf : st.wf)
    (hs : s ≠ []) (hnul : ∀ b ∈ s, b ≠ 0) :
    (∃ st1, process_command st env (USER_ROLE_INSTRUCTOR_PREFIX ++ s) (3 + s.length)
          = some (0, st1) ∧
        st1 = { st with
                instructor_id := s.take 19 ++ List.replicate (20 - min s.length 19) 0
                current_user_role := USER_ROLE_INSTRUCTOR
                sess := { st.sess with led_requested_state := true
                                       led_request_pending := true } } ∧
        ∀ size, 20 ≤ size → get_instructor_id st1 size = (s.take 19, min s.length 19)) ∧
    (∃ st1, process_command st env (USER_ROLE_TRAINEE_PREFIX ++ s) (3 + s.length)
          = some (0, st1) ∧
        st1 = { st with
                trainee_id := s.take 19 ++ List.replicate (20 - min s.length 19) 0
                current_user_role := USER_ROLE_TRAINEE
                sess := { st.sess with led_requested_state := true
                                       led_request_pending := true } } ∧
        ∀ size, 20 ≤ size → get_trainee_id st1 size = (s.take 19, min s.length 19)) := by
  have hpos : 0 < s.length := List.length_pos.mpr hs
  have hlen : (s.take 19).length = min s.length 19 := by
    rw [List.length_take, Nat.min_comm]
  have hg : ∀ size, 20 ≤ size → _ = (s.take 19, (s.take 19).length) := fun size h20 =>
    get_id_padded (s.take 19) (20 - min s.length 19) size
      (fun b hb => hnul b (List.mem_of_mem_take hb)) (by omega)
      (by intro h; rw [h] at hlen; simp at hlen; omega) (by omega)
  rw [hlen] at hg
  constructor
  · exact ⟨_, process_command_unframed st env s true hwf hs, rfl, hg⟩
  · exact ⟨_, process_command_unframed st env s false hwf hs, rfl, hg⟩

/-- Witness for C7: "in:ALICE" and "tr:ALICE" on the freshly initialised system. -/
theorem unframed_identity_assignment_witness :
    (∃ st1, process_command message_processor_init ⟨5000, 5000, 0, 70, true⟩
          [0x69, 0x6E, 0x3A, 0x41, 0x4C, 0x49, 0x43, 0x45] 8 = some (0, st1) ∧
        st1 = { message_processor_init with
                instructor_id := [0x41, 0x4C, 0x49, 0x43, 0x45] ++ List.replicate 15 0
                current_user_role := 1
                sess := { message_processor_init.sess with led_requested_state := true
                                                           led_request_pending := true } } ∧
        ∀ size, 20 ≤ size →
          get_instructor_id st1 size = ([0x41, 0x4C, 0x49, 0x43, 0x45], 5)) ∧
    (∃ st1, process_command message_processor_init ⟨5000, 5000, 0, 70, true⟩
          [0x74, 0x72, 0x3A, 0x41, 0x4C, 0x49, 0x43, 0x45] 8 = some (0, st1) ∧
        st1 = { message_processor_init with
                trainee_id := [0x41, 0x4C, 0x49, 0x43, 0x45] ++ List.replicate 15 0
                current_user_role := 2
                sess := { message_processor_init.sess with led_requested_state := true
                                                           led_request_pending := true } } ∧
        ∀ size, 20 ≤ size →
          get_trainee_id st1 size = ([0x41, 0x4C, 0x49, 0x43, 0x45], 5)) :=
  unframed_identity_assignment message_processor_init ⟨5000, 5000, 0, 70, true⟩
    [0x41, 0x4C, 0x49, 0x43, 0x45] (by decide) (by decide) (by decide)

/-! ### C8 -/

/-- C8, counterexample. Two well-formed frames that `process_command` does not
accept: the 46-byte LED-on frame with length byte 41 (40 payload bytes), which
the `data_len > MSG_BUFFER_SIZE` guard rejects, and the 6-byte frame with
command byte 0x06.  Both return `-EINVAL` and change nothing. -/
theorem process_command_rejects_wellformed :
    process_command message_processor_init ⟨5000, 5000, 0, 70, true⟩
        (frame_bytes 41 0x01 (List.replicate 40 0)) 46
      = some (-EINVAL, message_processor_init) ∧
    process_command message_processor_init ⟨5000, 5000, 0, 70, true⟩
        [0x01, 0x01, 0x3A, 0x06, 0x3B, 0x17] 6
      = some (-EINVAL, message_processor_init) := by
  constructor
  · have e := process_command_frame message_processor_init ⟨5000, 5000, 0, 70, true⟩ 0x01
      (List.replicate 40 0)
    rw [List.length_replicate, if_neg (by decide)] at e
    exact e
  · have e := process_command_frame message_processor_init ⟨5000, 5000, 0, 70, true⟩ 0x06 []
    rw [if_pos (by decide)] at e
    rw [show (6 : Nat) = 6 + ([] : List Nat).length from rfl]
    exact e.trans (by decide)

/-- C8, amended. For every well-formed frame (0x01, LEN, 0x3A, cmd, LEN-1
payload bytes, 0x3B, 0x17) with 1 ≤ LEN ≤ 40 and cmd in 0x00..0x05,
`process_command` returns success and dispatches on cmd: 0x00 requests LED off
and 0x01 LED on; 0x02 requests LED on and calls `start_cpr_session`; 0x03
requests LED off and calls `stop_cpr_session`; 0x04 with payload "in:"/"tr:" ++
id (id non-empty) stores id, truncated to 19 bytes and NUL-padded, as the
instructor/trainee id; 0x05 does what `process_time_data` does on exactly the
LEN-1 payload bytes. -/
theorem process_command_dispatches (st : State) (env : Env) (cmd : Nat) (p : List Nat)
    (hwf : st.wf) (hlen : p.length + 1 ≤ 40) (hcmd : cmd ≤ 5) :
    (∃ st1, process_command st env (frame_bytes (p.length + 1) cmd p) (6 + p.length)
        = some (0, st1)) ∧
    (cmd = 0x00 → process_command st env (frame_bytes (p.length + 1) cmd p) (6 + p.length)
        = some (0, request_led_state st false)) ∧
    (cmd = 0x01 → process_command st env (frame_bytes (p.length + 1) cmd p) (6 + p.length)
        = some (0, request_led_state st true)) ∧
    (cmd = 0x02 → process_command st env (frame_bytes (p.length + 1) cmd p) (6 + p.length)
        = some (0, { request_led_state st true with
                     sess := start_cpr_session (request_led_state st true).sess env })) ∧
    (cmd = 0x03 → process_command st env (frame_bytes (p.length + 1) cmd p) (6 + p.length)
        = some (0, { request_led_state st false with
                     sess := stop_cpr_session (request_led_state st false).sess })) ∧
    (cmd = 0x04 → ∀ id_bytes, id_bytes ≠ [] →
      (p = USER_ROLE_INSTRUCTOR_PREFIX ++ id_bytes →
        process_command st env (frame_bytes (p.length + 1) cmd p) (6 + p.length)
          = some (0, { st with
              instructor_id :=
                id_bytes.take 19 ++ List.replicate (20 - min id_bytes.length 19) 0
              current_user_role := USER_ROLE_INSTRUCTOR
              sess := { st.sess with led_requested_state := true
                                     led_request_pending := true } })) ∧
      (p = USER_ROLE_TRAINEE_PREFIX ++ id_bytes →
        process_command st env (frame_bytes (p.length + 1) cmd p) (6 + p.length)
          = some (0, { st with
              trainee_id :=
                id_bytes.take 19 ++ List.replicate (20 - min id_bytes.length 19) 0
              current_user_role := USER_ROLE_TRAINEE
              sess := { st.sess with led_requested_state := true
                                     led_request_pending := true } }))) ∧
    (cmd = 0x05 → process_command st env (frame_bytes (p.length + 1) cmd p) (6 + p.length)
        = (process_time_data st env p p.length).bind fun st1 => some (0, st1)) := by
  have hpc := process_command_frame st env cmd p
  rw [if_pos hlen] at hpc
  rw [hpc]
  refine ⟨?_, ?_, ?_, ?_, ?_, ?_, ?_⟩
  · have h6 : cmd = 0 ∨ cmd = 1 ∨ cmd = 2 ∨ cmd = 3 ∨ cmd = 4 ∨ cmd = 5 := by omega
    rcases h6 with h | h | h | h | h | h <;> subst h
    · exact ⟨_, dispatch_led_off st env p⟩
    · exact ⟨_, dispatch_led_on st env p⟩
    · exact ⟨_, dispatch_start st env p⟩
    · exact ⟨_, dispatch_stop st env p⟩
    · rw [dispatch_data]
      obtain ⟨st1, h1, _⟩ := process_cpr_data_ok st (0x04 :: (p ++ [0x3B, 0x17])) (p.length + 1)
        hwf (by simp only [List.length_cons, List.length_append]; omega)
      exact ⟨st1, by rw [h1, Option.some_bind]⟩
    · rw [dispatch_timedata]
      obtain ⟨st1, h1, _⟩ := process_time_data_ok st env p p.length hwf le_rfl
      exact ⟨st1, by rw [h1, Option.some_bind]⟩
  · intro h; subst h; exact dispatch_led_off st env p
  · intro h; subst h; exact dispatch_led_on st env p
  · intro h; subst h; exact dispatch_start st env p
  · intro h; subst h; exact dispatch_stop st env p
  · intro h id_bytes hid
    subst h
    constructor
    · intro hp
      subst hp
      have h := process_cpr_data_identity st id_bytes [0x3B, 0x17] true hwf hid
      simp only [↓reduceIte] at h
      rw [dispatch_data, h, Option.some_bind]
      rfl
    · intro hp
      subst hp
      have h := process_cpr_data_identity st id_bytes [0x3B, 0x17] false hwf hid
      simp only [Bool.false_eq_true, ↓reduceIte] at h
      rw [dispatch_data, h, Option.some_bind]
      rfl
  · intro h; subst h; exact dispatch_timedata st env p

/-- Witness for the amended C8: the data frame carrying "in:A" on the freshly
initialised system. -/
theorem process_command_dispatches_witness :
    process_command message_processor_init ⟨5000, 5000, 0, 70, true⟩
        [0x01, 0x05, 0x3A, 0x04, 0x69, 0x6E, 0x3A, 0x41, 0x3B, 0x17] 10
      = some (0, { message_processor_init with
          instructor_id := [0x41] ++ List.replicate 19 0
          current_user_role := 1
          sess := { message_processor_init.sess with led_requested_state := true
                                                     led_request_pending := true } }) :=
  ((process_command_dispatches message_processor_init ⟨5000, 5000, 0, 70, true⟩ 0x04
      [0x69, 0x6E, 0x3A, 0x41] (by decide) (by decide) (by decide)).2.2.2.2.2.1 rfl
      [0x41] (by decide)).1 rfl

/-! ### C9 -/

/-- C9. Unknown commands are rejected without effect: `process_direct_command`
returns an error exactly when the command byte is not one of 0x00, 0x01, 0x02,
0x03, and then leaves the whole state unchanged; and `process_command` on a
well-formed frame whose command byte is greater than 0x05 returns `-EINVAL` and
leaves the whole state (identity, role, time, LED request, session) unchanged. -/
theorem unknown_commands_rejected (st : State) (env : Env) :
    (∀ cmd, (process_direct_command st env cmd).1 < 0
        ↔ ¬ (cmd = 0x00 ∨ cmd = 0x01 ∨ cmd = 0x02 ∨ cmd = 0x03)) ∧
    (∀ cmd, ¬ (cmd = 0x00 ∨ cmd = 0x01 ∨ cmd = 0x02 ∨ cmd = 0x03) →
        process_direct_command st env cmd = (-EINVAL, st)) ∧
    (∀ cmd p, 0x05 < cmd →
        process_command st env (frame_bytes (p.length + 1) cmd p) (6 + p.length)
          = some (-EINVAL, st)) := by
  refine ⟨?_, ?_, ?_⟩
  · intro cmd
    unfold process_direct_command
    simp only [CMD_CONTROL_LED_OFF, CMD_CONTROL_LED_ON, CPR_CONTROL_START, CMD_CONTROL_START,
      CPR_COMMAND_STOP, CMD_COMMAND_STOP]
    by_cases h0 : cmd = 0
    · simp [h0]
    · by_cases h1 : cmd = 1
      · simp [h1]
      · by_cases h2 : cmd = 2
        · simp [h2]
        · by_cases h3 : cmd = 3
          · simp [h3]
          · simp [h0, h1, h2, h3, EINVAL]
  · intro cmd h
    unfold process_direct_command
    simp only [CMD_CONTROL_LED_OFF, CMD_CONTROL_LED_ON, CPR_CONTROL_START, CMD_CONTROL_START,
      CPR_COMMAND_STOP, CMD_COMMAND_STOP]
    rw [if_neg (fun e => h (Or.inl e)), if_neg (fun e => h (Or.inr (Or.inl e))),
      if_neg (fun e => h (Or.inr (Or.inr (Or.inl e)))),
      if_neg (fun e => h (Or.inr (Or.inr (Or.inr e))))]
  · intro cmd p hcmd
    rw [process_command_frame]
    split_ifs
    · exact dispatch_unknown st env cmd p hcmd
    · rfl

/-! ### C10 -/

/-- C10, counterexample. With ten messages already queued, submitting the
one-byte command 01 (a length in 1..37) is not accepted: `submit_command`
returns `-ENOMSG` and the queue is unchanged. -/
theorem submit_command_full_queue :
    submit_command (List.replicate 40 0) ⟨List.replicate 10 (List.replicate 40 0)⟩
        (some [0x01]) 1
      = some (-ENOMSG, [1, 0, 1, 0x01] ++ List.replicate 36 0,
          ⟨List.replicate 10 (List.replicate 40 0)⟩) ∧ -ENOMSG < 0 := by
  decide

/-- C10, amended. `submit_command` rejects data with `-EINVAL`, enqueueing
nothing, exactly when the data is empty or longer than 37 bytes
(MSG_BUFFER_SIZE - 3).  For 1 ≤ len ≤ 37 it builds the 40-byte envelope
[1, len >> 8, len & 0xFF, data..., rest of the static buffer] and hands it to the
queue: with fewer than MSG_QUEUE_SIZE messages queued it returns 0 and the
envelope is appended, with a full queue it returns `-ENOMSG` and enqueues
nothing.  The length the worker decodes from the envelope, (b1 << 8) | b2, is
len, at most 37, the len bytes from offset 3 are the submitted data, and the
worker calls `process_command` on them. -/
theorem submit_command_contract (buf : List Nat) (q : MsgQ) (data : List Nat)
    (hbuf : buf.length = MSG_BUFFER_SIZE) :
    (data.length = 0 ∨ MSG_BUFFER_SIZE - 3 < data.length →
      submit_command buf q (some data) data.length = some (-EINVAL, buf, q)) ∧
    (1 ≤ data.length ∧ data.length ≤ MSG_BUFFER_SIZE - 3 →
      (q.msgs.length < MSG_QUEUE_SIZE →
        submit_command buf q (some data) data.length
          = some (0, envelope_of buf data, ⟨q.msgs ++ [envelope_of buf data]⟩)) ∧
      (MSG_QUEUE_SIZE ≤ q.msgs.length →
        submit_command buf q (some data) data.length
          = some (-ENOMSG, envelope_of buf data, q)) ∧
      (envelope_of buf data).length = MSG_BUFFER_SIZE ∧
      (∃ b1 b2, rd (envelope_of buf data) 0 = some 1 ∧ rd (envelope_of buf data) 1 = some b1 ∧
        rd (envelope_of buf data) 2 = some b2 ∧
        ((b1 <<< 8) ||| b2) % 65536 = data.length) ∧
      rd_n ((envelope_of buf data).drop 3) data.length = some data ∧
      ∀ st env, st.wf → processor_thread_func st env (envelope_of buf data)
        = (process_command st env data data.length).bind fun r => some r.2) := by
  simp only [MSG_BUFFER_SIZE, MSG_QUEUE_SIZE] at *
  constructor
  · intro h
    unfold submit_command
    simp only [MSG_BUFFER_SIZE]
    rw [if_pos h]
  · rintro ⟨h1, h37⟩
    have hs := submit_command_builds buf q data hbuf h1 h37
    have hel := envelope_of_length buf data hbuf h37
    have hput : k_msgq_put q (envelope_of buf data)
        = if q.msgs.length < 10 then some (0, ⟨q.msgs ++ [envelope_of buf data]⟩)
          else some (-ENOMSG, q) := by
      unfold k_msgq_put
      simp only [MSG_BUFFER_SIZE, MSG_QUEUE_SIZE]
      rw [rd_n_of_le (by omega), Option.some_bind, ← hel, List.take_length]
    obtain ⟨_, _, e3⟩ := len_bytes_small data.length h37
    refine ⟨?_, ?_, hel, ?_, ?_, ?_⟩
    · intro hq
      rw [hs, hput, if_pos hq]
      rfl
    · intro hq
      rw [hs, hput, if_neg (by omega)]
      rfl
    · refine ⟨0, data.length, ?_, ?_, ?_, e3⟩ <;>
        rw [envelope_of_small buf data h37] <;> simp [rd]
    · rw [envelope_of_small buf data h37]
      simp [rd_n]
    · intro st env hwf
      rw [processor_thread_func_envelope st env buf data hbuf h37,
        envelope_of_small buf data h37]
      simp only [List.drop_succ_cons, List.drop_zero]
      rw [process_command_append st env data _ hwf]

/-- Witness for the amended C10: the CPR-start frame submitted to an empty queue,
and an empty submission. -/
theorem submit_command_contract_witness :
    submit_command (List.replicate 40 0) ⟨[]⟩ (some []) 0
        = some (-EINVAL, List.replicate 40 0, ⟨[]⟩) ∧
    submit_command (List.replicate 40 0) ⟨[]⟩ (some [0x01, 0x01, 0x3A, 0x02, 0x3B, 0x17]) 6
        = some (0, [1, 0, 6, 0x01, 0x01, 0x3A, 0x02, 0x3B, 0x17] ++ List.replicate 31 0,
            ⟨[[1, 0, 6, 0x01, 0x01, 0x3A, 0x02, 0x3B, 0x17] ++ List.replicate 31 0]⟩) :=
  ⟨(submit_command_contract (List.replicate 40 0) ⟨[]⟩ [] (by decide)).1 (Or.inl rfl),
   ((submit_command_contract (List.replicate 40 0) ⟨[]⟩ [0x01, 0x01, 0x3A, 0x02, 0x3B, 0x17]
      (by decide)).2 (by decide)).1 (by decide)⟩

/-! ### C11 -/

/-- C11: from an inactive session, `start_cpr_session` changes nothing (so the
session stays inactive) when the uptime reading is below 1000 ms; with an uptime
of at least 1000 ms, a log that opens and a header that is written, the session
becomes active and its start time is the uptime read at that moment; and when
the log does not open or the header is not written the session stays inactive. -/
theorem start_cpr_session_from_inactive (s : SessionState) (env : Env)
    (hinactive : s.cpr_session_active = false) :
    (k_uptime_get_32 env.uptime_guard < 1000 →
      start_cpr_session s env = s ∧
      (start_cpr_session s env).cpr_session_active = false) ∧
    (1000 ≤ k_uptime_get_32 env.uptime_guard → 0 ≤ env.fs_open_ret → 0 ≤ env.fs_write_ret →
      (start_cpr_session s env).cpr_session_active = true ∧
      (start_cpr_session s env).cpr_session_start_time = k_uptime_get_32 env.uptime_start) ∧
    (env.fs_open_ret < 0 ∨ env.fs_write_ret < 0 →
      (start_cpr_session s env).cpr_session_active = false) := by
  refine ⟨?_, ?_, ?_⟩
  · intro h
    have e : start_cpr_session s env = s := by simp [start_cpr_session, h]
    exact ⟨e, by rw [e]; exact hinactive⟩
  · intro h ho hw
    simp [start_cpr_session, Nat.not_lt.mpr h, Int.not_lt.mpr ho, Int.not_lt.mpr hw]
  · intro h
    by_cases hg : k_uptime_get_32 env.uptime_guard < 1000
    · simp [start_cpr_session, hg, hinactive]
    · by_cases ho : env.fs_open_ret < 0
      · simp [start_cpr_session, hg, ho, hinactive]
      · have hw : env.fs_write_ret < 0 := h.resolve_left ho
        simp [start_cpr_session, hg, ho, hw, hinactive]

/-- Witness for C11: the boot session started at 500 ms, at 5000 ms with the log
available, and at 5000 ms with a log that does not open. -/
theorem start_cpr_session_from_inactive_witness :
    start_cpr_session session_boot ⟨500, 500, 0, 70, true⟩ = session_boot ∧
    (start_cpr_session session_boot ⟨5000, 5007, 0, 70, true⟩).cpr_session_active = true ∧
    (start_cpr_session session_boot ⟨5000, 5007, 0, 70, true⟩).cpr_session_start_time = 5007 ∧
    (start_cpr_session session_boot ⟨5000, 5007, -1, 70, true⟩).cpr_session_active = false :=
  ⟨((start_cpr_session_from_inactive session_boot ⟨500, 500, 0, 70, true⟩ rfl).1
      (by decide)).1,
   ((start_cpr_session_from_inactive session_boot ⟨5000, 5007, 0, 70, true⟩ rfl).2.1
      (by decide) (by decide) (by decide)).1,
   ((start_cpr_session_from_inactive session_boot ⟨5000, 5007, 0, 70, true⟩ rfl).2.1
      (by decide) (by decide) (by decide)).2,
   (start_cpr_session_from_inactive session_boot ⟨5000, 5007, -1, 70, true⟩ rfl).2.2
      (Or.inl (by decide))⟩

/-! ### C12 -/

/-- C12 as stated fails: the session started from boot at 5000 ms is active with
start time 5000; a second start at 9000 ms moves the start time to 9000, and the
elapsed time read at 9000 ms drops from 4 s to 0 s. -/
theorem second_start_resets_start_time :
    (start_cpr_session session_boot ⟨5000, 5000, 0, 70, true⟩).cpr_session_active = true ∧
    (start_cpr_session session_boot ⟨5000, 5000, 0, 70, true⟩).cpr_session_start_time = 5000 ∧
    (start_cpr_session (start_cpr_session session_boot ⟨5000, 5000, 0, 70, true⟩)
      ⟨9000, 9000, 0, 70, true⟩).cpr_session_start_time = 9000 ∧
    get_cpr_session_time (start_cpr_session session_boot ⟨5000, 5000, 0, 70, true⟩) 9000 = 4 ∧
    get_cpr_session_time
      (start_cpr_session (start_cpr_session session_boot ⟨5000, 5000, 0, 70, true⟩)
        ⟨9000, 9000, 0, 70, true⟩) 9000 = 0 := by
  decide

/-- C12, amended: on an active session a start at an uptime of at least 1000 ms
keeps the session active and moves the start time to the uptime read at that
moment, so the elapsed time read at that same moment is 0; a start below 1000 ms
changes nothing; a stop on an inactive session changes nothing, and a second stop
changes nothing more. -/
theorem start_restarts_stop_idempotent (s : SessionState) (env : Env)
    (hactive : s.cpr_session_active = true) :
    (1000 ≤ k_uptime_get_32 env.uptime_guard →
      (start_cpr_session s env).cpr_session_active = true ∧
      (start_cpr_session s env).cpr_session_start_time = k_uptime_get_32 env.uptime_start ∧
      get_cpr_session_time (start_cpr_session s env) env.uptime_start = 0) ∧
    (k_uptime_get_32 env.uptime_guard < 1000 → start_cpr_session s env = s) ∧
    (∀ t : SessionState, t.cpr_session_active = false → stop_cpr_session t = t) ∧
    stop_cpr_session (stop_cpr_session s) = stop_cpr_session s := by
  refine ⟨?_, ?_, ?_, ?_⟩
  · intro h
    have hg : ¬ k_uptime_get_32 env.uptime_guard < 1000 := Nat.not_lt.mpr h
    have hact : (start_cpr_session s env).cpr_session_active = true := by
      simp only [start_cpr_session, if_neg hg]
      split_ifs <;> first | exact hactive | rfl
    have hst : (start_cpr_session s env).cpr_session_start_time
        = k_uptime_get_32 env.uptime_start := by
      simp only [start_cpr_session, if_neg hg]
      split_ifs <;> rfl
    refine ⟨hact, hst, ?_⟩
    simp only [get_cpr_session_time, hact, hst, sub_u32, k_uptime_get_32]
    simp
  · intro h
    simp [start_cpr_session, h]
  · intro t ht
    simp [stop_cpr_session, ht]
  · simp [stop_cpr_session, hactive]

/-- Witness for the amended C12: the session started from boot, started again at
9000 ms, and the boot session stopped. -/
theorem start_restarts_stop_idempotent_witness :
    (start_cpr_session (start_cpr_session session_boot ⟨5000, 5000, 0, 70, true⟩)
      ⟨9000, 9000, 0, 70, true⟩).cpr_session_start_time = 9000 ∧
    stop_cpr_session session_boot = session_boot :=
  ⟨((start_restarts_stop_idempotent
      (start_cpr_session session_boot ⟨5000, 5000, 0, 70, true⟩) ⟨9000, 9000, 0, 70, true⟩
      (by decide)).1 (by decide)).2.1,
   (start_restarts_stop_idempotent
      (start_cpr_session session_boot ⟨5000, 5000, 0, 70, true⟩) ⟨9000, 9000, 0, 70, true⟩
      (by decide)).2.2.1 session_boot rfl⟩

/-! ### C13 -/

/-- C13 fails on a start whose log does not open: from boot, one start at
5000 ms with `fs_open` answering -1 leaves the session inactive with the start
time 5000 recorded; a later stop does not clear it. -/
theorem failed_start_records_start_time :
    run_session_calls session_boot [SessionCall.start ⟨5000, 5000, -1, 0, true⟩]
      = { session_boot with cpr_session_start_time := 5000 } ∧
    (run_session_calls session_boot
      [SessionCall.start ⟨5000, 5000, -1, 0, true⟩]).cpr_session_active = false ∧
    (run_session_calls session_boot
      [SessionCall.start ⟨5000, 5000, -1, 0, true⟩]).cpr_session_start_time ≠ 0 ∧
    (run_session_calls session_boot
      [SessionCall.start ⟨5000, 5000, -1, 0, true⟩, SessionCall.stop]).cpr_session_start_time
        = 5000 := by
  decide

/-! ### C14 -/

/-- C14: `get_cpr_session_time` answers 0 on an inactive session, in particular
after a stop, and on an active session the whole seconds of the difference
`now - start_time` taken modulo 2^32. -/
theorem get_cpr_session_time_elapsed (s : SessionState) (now : Nat) :
    (s.cpr_session_active = false → get_cpr_session_time s now = 0) ∧
    get_cpr_session_time (stop_cpr_session s) now = 0 ∧
    (s.cpr_session_active = true →
      ((get_cpr_session_time s now : Nat) : Int)
        = (((now : Int) - (s.cpr_session_start_time : Int)) % 2 ^ 32) / 1000) ∧
    (s.cpr_session_active = true → s.cpr_session_start_time ≤ now → now < 2 ^ 32 →
      get_cpr_session_time s now = (now - s.cpr_session_start_time) / 1000) := by
  refine ⟨?_, ?_, ?_, ?_⟩
  · intro h
    simp [get_cpr_session_time, h]
  · by_cases h : s.cpr_session_active = true
    · simp [get_cpr_session_time, stop_cpr_session, h]
    · simp [get_cpr_session_time, stop_cpr_session, h]
  · intro h
    simp only [get_cpr_session_time, h, sub_u32, k_uptime_get_32]
    norm_num
    omega
  · intro h hle hlt
    simp only [get_cpr_session_time, h, sub_u32, k_uptime_get_32]
    norm_num at hlt ⊢
    omega

/-- Witness for C14: a session started at 5000 ms read at 12345 ms, and a
session started 1000 ms before the tick counter wraps read at tick 2000. -/
theorem get_cpr_session_time_elapsed_witness :
    get_cpr_session_time ⟨false, false, 5000, true, true⟩ 12345 = 7 ∧
    ((get_cpr_session_time ⟨false, false, 4294966296, true, true⟩ 2000 : Nat) : Int)
      = (((2000 : Int) - 4294966296) % 2 ^ 32) / 1000 :=
  ⟨(get_cpr_session_time_elapsed ⟨false, false, 5000, true, true⟩ 12345).2.2.2 rfl
      (by decide) (by decide),
   (get_cpr_session_time_elapsed ⟨false, false, 4294966296, true, true⟩ 2000).2.2.1 rfl⟩

/-! ### C15 -/

/-- C15: for a payload of which `process_time_data` of
message_processor_simple.c receives at least 14 bytes and whose first 14 bytes
are ASCII digits, the call returns and stores the time base made of the decimal
values of the fields YYYY, MM, DD, HH, MM, SS with the current tick as anchor
when these values are in range, and leaves the time base as it was when they are
not; a payload shorter than 14 bytes leaves the whole state as it was. -/
theorem simple_time_base_stored_iff_in_range (st : Simple.State) (now : Nat) (p : List Nat)
    (n : Nat) (hwf : st.wf) (h14 : 14 ≤ n) (hlen : n ≤ p.length)
    (hdig : ∀ i, i < 14 → isdigit (p[i]?.getD 0) = true) :
    (∀ (q : List Nat) (m : Nat), m < 14 → Simple.process_time_data st now q m = some st) ∧
    ∃ st', Simple.process_time_data st now p n = some st' ∧
      (time_fields_in_range (decimal_value (time_field p 0 4)) (decimal_value (time_field p 4 2))
          (decimal_value (time_field p 6 2)) (decimal_value (time_field p 8 2))
          (decimal_value (time_field p 10 2)) (decimal_value (time_field p 12 2)) →
        st'.rtc_base =
          { year := decimal_value (time_field p 0 4), month := decimal_value (time_field p 4 2),
            day := decimal_value (time_field p 6 2), hour := decimal_value (time_field p 8 2),
            min := decimal_value (time_field p 10 2), sec := decimal_value (time_field p 12 2),
            base_ticks := k_uptime_get_32 now }) ∧
      (¬ time_fields_in_range (decimal_value (time_field p 0 4))
          (decimal_value (time_field p 4 2)) (decimal_value (time_field p 6 2))
          (decimal_value (time_field p 8 2)) (decimal_value (time_field p 10 2))
          (decimal_value (time_field p 12 2)) →
        st'.rtc_base = st.rtc_base) := by
  refine ⟨fun q m hm => simple_process_time_data_short st now q m hm, ?_⟩
  rw [simple_process_time_data_eq st now p n hwf.2.2 h14 hlen,
    atoi_of_digits _ (time_field_digits p 0 4 (by omega) hdig),
    atoi_of_digits _ (time_field_digits p 4 2 (by omega) hdig),
    atoi_of_digits _ (time_field_digits p 6 2 (by omega) hdig),
    atoi_of_digits _ (time_field_digits p 8 2 (by omega) hdig),
    atoi_of_digits _ (time_field_digits p 10 2 (by omega) hdig),
    atoi_of_digits _ (time_field_digits p 12 2 (by omega) hdig)]
  refine ⟨_, rfl, ?_, ?_⟩
  · intro h
    rw [if_pos h]
    rfl
  · intro h
    rw [if_neg h]
    rfl

/-- Witness for C15: the payload "20250615120000" received at tick 7000 on the
boot state. -/
theorem simple_time_base_stored_iff_in_range_witness :
    ∃ st', Simple.process_time_data Simple.message_processor_init 7000
        [0x32, 0x30, 0x32, 0x35, 0x30, 0x36, 0x31, 0x35, 0x31, 0x32, 0x30, 0x30, 0x30, 0x30] 14
          = some st' ∧
      st'.rtc_base = ⟨2025, 6, 15, 12, 0, 0, 7000⟩ := by
  obtain ⟨st', h1, h2, _⟩ := (simple_time_base_stored_iff_in_range Simple.message_processor_init
    7000 [0x32, 0x30, 0x32, 0x35, 0x30, 0x36, 0x31, 0x35, 0x31, 0x32, 0x30, 0x30, 0x30, 0x30] 14
    (by decide) (by decide) (by decide) (by decide)).2
  exact ⟨st', h1, h2 (by decide)⟩

/-! ### C16 -/

/-- C16 as stated fails: on the boot state the 14-digit payload "20251301120000"
(month 13) is rejected, the time base stays unset, yet the has-received flag
turns true and `get_time_data` now returns the payload instead of nothing. -/
theorem out_of_range_time_overwrites_string :
    Simple.has_received_time_data Simple.message_processor_init = false ∧
    Simple.get_time_data Simple.message_processor_init 18 = ([], 0) ∧
    (Simple.process_time_data Simple.message_processor_init 7000
        [0x32, 0x30, 0x32, 0x35, 0x31, 0x33, 0x30, 0x31, 0x31, 0x32, 0x30, 0x30, 0x30, 0x30]
        14).map (fun s => (s.rtc_base, Simple.has_received_time_data s,
          Simple.get_time_data s 18))
      = some (Simple.message_processor_init.rtc_base, true,
          ([0x32, 0x30, 0x32, 0x35, 0x31, 0x33, 0x30, 0x31, 0x31, 0x32, 0x30, 0x30, 0x30, 0x30],
            14)) := by
  decide

/-- C16, amended: a payload shorter than 14 bytes leaves the whole state as it
was; a payload of at least 14 bytes with a parsed field out of range leaves the
time base as it was, but the raw time string is overwritten with the first
`min n 17` payload bytes and a NUL, the has-received flag is set, and (when those
bytes hold no NUL) `get_time_data` returns them. -/
theorem simple_time_rejection_effects (st : Simple.State) (now : Nat) (p : List Nat) (n : Nat)
    (hwf : st.wf) :
    (n < 14 → Simple.process_time_data st now p n = some st) ∧
    (14 ≤ n → n ≤ p.length →
      ¬ time_fields_in_range (atoi (time_field p 0 4)) (atoi (time_field p 4 2))
          (atoi (time_field p 6 2)) (atoi (time_field p 8 2)) (atoi (time_field p 10 2))
          (atoi (time_field p 12 2)) →
      ∃ st', Simple.process_time_data st now p n = some st' ∧
        st'.rtc_base = st.rtc_base ∧
        st'.time_data = stored_time_string st.time_data p n ∧
        Simple.has_received_time_data st' = true ∧
        ((∀ c ∈ p.take (min n 17), c ≠ 0) →
          Simple.get_time_data st' 18 = (p.take (min n 17), min n 17))) := by
  refine ⟨fun h => simple_process_time_data_short st now p n h, ?_⟩
  intro h14 hlen hr
  rw [simple_process_time_data_eq st now p n hwf.2.2 h14 hlen, if_neg hr]
  refine ⟨_, rfl, rfl, rfl, rfl, ?_⟩
  intro hnul
  exact simple_get_time_data_stored _ st.time_data p n 18 h14 hlen (by omega) hnul rfl rfl

/-- Witness for the amended C16: the payload "20251301120000" on the boot state. -/
theorem simple_time_rejection_effects_witness :
    ∃ st', Simple.process_time_data Simple.message_processor_init 7000
        [0x32, 0x30, 0x32, 0x35, 0x31, 0x33, 0x30, 0x31, 0x31, 0x32, 0x30, 0x30, 0x30, 0x30] 14
          = some st' ∧
      st'.rtc_base = Simple.message_processor_init.rtc_base ∧
      Simple.has_received_time_data st' = true := by
  obtain ⟨st', h1, h2, _, h4, _⟩ := (simple_time_rejection_effects Simple.message_processor_init
    7000 [0x32, 0x30, 0x32, 0x35, 0x31, 0x33, 0x30, 0x31, 0x31, 0x32, 0x30, 0x30, 0x30, 0x30] 14
    (by decide)).2 (by decide) (by decide) (by decide)
  exact ⟨st', h1, h2, h4⟩

/-! ### C17 -/

/-- C17: for a base that is a real Gregorian date-time with year in [2023,2100]
and fewer than 100,000,000 elapsed seconds, `add_seconds_to_time` leaves its
loop (43 rounds are always enough) and yields a real Gregorian date-time whose
distance in seconds from the base is exactly the elapsed seconds, months having
their Gregorian lengths with February at 29 days in leap years; it is the only
such date-time; and base 2025-01-31 23:59:58 plus 3 seconds gives
2025-02-01 00:00:01. -/
theorem add_seconds_to_time_gregorian (fuel y m d h mi s seconds : Nat)
    (hvalid : is_gregorian_date_time y m d h mi s) (hy1 : 2023 ≤ y) (_hy2 : y ≤ 2100)
    (hsec : seconds < 100000000) (hfuel : 43 ≤ fuel) :
    (∃ y' m' d' h' mi' s' : Nat,
      Simple.add_seconds_to_time fuel y m d h mi s seconds
        = some ((y' : Int), (m' : Int), (d' : Int), (h' : Int), (mi' : Int), (s' : Int)) ∧
      is_gregorian_date_time y' m' d' h' mi' s' ∧
      gregorian_seconds y' m' d' h' mi' s' = gregorian_seconds y m d h mi s + seconds ∧
      ∀ y2 m2 d2 h2 mi2 s2 : Nat, 2023 ≤ y2 → is_gregorian_date_time y2 m2 d2 h2 mi2 s2 →
        gregorian_seconds y2 m2 d2 h2 mi2 s2 = gregorian_seconds y m d h mi s + seconds →
        y2 = y' ∧ m2 = m' ∧ d2 = d' ∧ h2 = h' ∧ mi2 = mi' ∧ s2 = s') ∧
    Simple.add_seconds_to_time fuel 2025 1 31 23 59 58 3 = some (2025, 2, 1, 0, 0, 1) := by
  constructor
  · obtain ⟨hm1, hm12, hd1, hd, hh, hmi, hs⟩ := hvalid
    have hd31 : d ≤ 31 := by
      have : gregorian_month_length y m ≤ 31 := by
        unfold gregorian_month_length
        split_ifs <;> omega
      omega
    rw [add_seconds_to_time_carry fuel y m d h mi s seconds (by norm_num; omega)]
    obtain ⟨y', m', d', e, hy', h1', h12', hd1', hd', hidx⟩ :=
      month_loop_spec fuel y m (d + (h + (mi + (s + seconds) / 60) / 60) / 24) hy1 hm1 hm12
        (by omega) (by omega)
    have hv' : is_gregorian_date_time y' m' d' ((h + (mi + (s + seconds) / 60) / 60) % 24)
        ((mi + (s + seconds) / 60) % 60) ((s + seconds) % 60) :=
      ⟨h1', h12', hd1', hd', by omega, by omega, by omega⟩
    have hsec' : gregorian_seconds y' m' d' ((h + (mi + (s + seconds) / 60) / 60) % 24)
        ((mi + (s + seconds) / 60) % 60) ((s + seconds) % 60)
          = gregorian_seconds y m d h mi s + seconds := by
      unfold gregorian_seconds
      rw [hidx]
      unfold gregorian_day_number
      omega
    refine ⟨y', m', d', (h + (mi + (s + seconds) / 60) / 60) % 24,
      (mi + (s + seconds) / 60) % 60, (s + seconds) % 60, ?_, hv', hsec', ?_⟩
    · rw [e]
      rfl
    · intro y2 m2 d2 h2 mi2 s2 hy2 hv2 he2
      exact gregorian_seconds_injective y2 m2 d2 h2 mi2 s2 y' m' d' _ _ _ hy2 hy' hv2 hv'
        (by rw [he2, hsec'])
  · obtain ⟨k, rfl⟩ : ∃ k, fuel = k + 2 := ⟨fuel - 2, by omega⟩
    rfl

/-- Witness for C17: base 2024-02-28 23:59:59 plus 86,401 seconds (one day and
one second across the leap day), with 43 rounds. -/
theorem add_seconds_to_time_gregorian_witness :
    (∃ y' m' d' h' mi' s' : Nat,
      Simple.add_seconds_to_time 43 2024 2 28 23 59 59 86401
        = some ((y' : Int), (m' : Int), (d' : Int), (h' : Int), (mi' : Int), (s' : Int)) ∧
      is_gregorian_date_time y' m' d' h' mi' s' ∧
      gregorian_seconds y' m' d' h' mi' s' = gregorian_seconds 2024 2 28 23 59 59 + 86401) ∧
    Simple.add_seconds_to_time 43 2025 1 31 23 59 58 3 = some (2025, 2, 1, 0, 0, 1) := by
  obtain ⟨⟨y', m', d', h', mi', s', e, hv, hs, _⟩, hex⟩ :=
    add_seconds_to_time_gregorian 43 2024 2 28 23 59 59 86401 (by decide) (by decide)
      (by decide) (by decide) (by decide)
  exact ⟨⟨y', m', d', h', mi', s', e, hv, hs⟩, hex⟩

/-! ### C18 -/

/-- C18: on a full table, a non-critical item whose priority is at most that of
every non-critical occupant is refused: whatever the payload, the call returns an
error and leaves every slot and `queue_count` as they were, and for a payload
of 1..255 bytes the error is the queue-full error `-ENOMEM`. -/
theorem add_refused_when_not_higher (nm : NotificationManager) (data : Option (List Nat))
    (len priority : Nat) (hfull : table_full nm)
    (hprio : ∀ s ∈ nm.queue, s.critical = false → priority ≤ s.priority) :
    (∃ e : Int, e < 0 ∧ notification_manager_add nm data len priority false = some (e, nm)) ∧
    (data ≠ none → 1 ≤ len → len ≤ 255 →
      notification_manager_add nm data len priority false = some (-ENOMEM, nm)) := by
  have hnf : ¬ nm.queue_count < nm.queue.length := by rw [hfull.1]; omega
  have key : ∀ bytes, 1 ≤ len → len ≤ 255 →
      notification_manager_add nm (some bytes) len priority false = some (-ENOMEM, nm) := by
    intro bytes h1 h2
    rcases notification_manager_add_full nm bytes len priority false hnf h1 h2 with
      ⟨h, _⟩ | ⟨j, s, hj, hs, _, _, hadm, _⟩
    · exact h
    · have := hprio s (List.mem_iff_getElem?.mpr ⟨j, hj⟩) hs
      rcases hadm with hadm | hadm
      · omega
      · exact absurd hadm (by simp)
  constructor
  · cases data with
    | none => exact ⟨-EINVAL, by decide, rfl⟩
    | some bytes =>
      by_cases hv : len = 0 ∨ len > 255
      · exact ⟨-EINVAL, by decide, by simp [notification_manager_add, hv]⟩
      · exact ⟨-ENOMEM, by decide, key bytes (by omega) (by omega)⟩
  · intro hd h1 h2
    cases data with
    | none => exact absurd rfl hd
    | some bytes => exact key bytes h1 h2

/-- Witness for C18: a full table of four, a non-critical item of priority 3
against non-critical occupants of priorities 9, 3 and 3. -/
theorem add_refused_when_not_higher_witness :
    notification_manager_add
        ⟨[occupant 5 true, occupant 9 false, occupant 3 false, occupant 3 false], 4, 0, 0⟩
        (some [7]) 1 3 false
      = some (-ENOMEM,
          ⟨[occupant 5 true, occupant 9 false, occupant 3 false, occupant 3 false], 4, 0, 0⟩) :=
  (add_refused_when_not_higher
    ⟨[occupant 5 true, occupant 9 false, occupant 3 false, occupant 3 false], 4, 0, 0⟩
    (some [7]) 1 3 (by simp [table_full, occupant_in_use])
    (by simp [occupant_critical, occupant_priority])).2 (by simp) (by decide) (by decide)

/-! ### C19 -/

/-- C19 as stated fails: on a full table whose two occupants are both critical,
a critical item with a one-byte payload is refused with `-ENOMEM` and the table
is left as it was. -/
theorem critical_add_refused_on_all_critical_table :
    table_full ⟨[occupant 5 true, occupant 9 true], 2, 0, 0⟩ ∧
    notification_manager_add ⟨[occupant 5 true, occupant 9 true], 2, 0, 0⟩ (some [7]) 1 50 true
      = some (-ENOMEM, ⟨[occupant 5 true, occupant 9 true], 2, 0, 0⟩) :=
  ⟨by simp [table_full, occupant_in_use], rfl⟩

/-- C19, amended: on a full table that holds a non-critical occupant of priority
below 255, a critical item with a payload of 1..255 bytes is admitted: the call
returns 0 and overwrites one non-critical occupant, every other slot and
`queue_count` staying as they were; on a full table whose occupants are all
critical the call returns `-ENOMEM` and changes nothing. -/
theorem critical_add_evicts_non_critical (nm : NotificationManager) (bytes : List Nat)
    (len priority : Nat) (hfull : table_full nm) (hwf : nm.wf) (h1 : 1 ≤ len) (h2 : len ≤ 255)
    (hbytes : len ≤ bytes.length) :
    ((∃ s ∈ nm.queue, s.critical = false ∧ s.priority < 255) →
      ∃ idx old, nm.queue[idx]? = some old ∧ old.critical = false ∧
        notification_manager_add nm (some bytes) len priority true =
          some (0, { nm with
            queue := nm.queue.set idx
              { data := bytes.take len ++ old.data.drop len, len := len, priority := priority,
                critical := true, retry_count := 0, in_use := true } })) ∧
    ((∀ s ∈ nm.queue, s.critical = true) →
      notification_manager_add nm (some bytes) len priority true = some (-ENOMEM, nm)) := by
  have hnf : ¬ nm.queue_count < nm.queue.length := by rw [hfull.1]; omega
  constructor
  · rintro ⟨s0, hs0, hc0, hp0⟩
    rcases notification_manager_add_full nm bytes len priority true hnf h1 h2 with
      ⟨_, hall | ⟨s, _, _, _, hcr⟩⟩ | ⟨j, s, hj, hs, _, _, _, hadd⟩
    · have := hall s0 hs0 hc0
      omega
    · exact absurd hcr (by simp)
    · have hdl : s.data.length = 256 := hwf s (List.mem_iff_getElem?.mpr ⟨j, hj⟩)
      have hm : memcpy s.data bytes len = some (bytes.take len ++ s.data.drop len) := by
        unfold memcpy
        rw [rd_n_of_le hbytes, Option.some_bind, if_pos (by omega)]
      rw [hm, Option.some_bind] at hadd
      exact ⟨j, s, hj, hs, hadd⟩
  · intro hall
    rcases notification_manager_add_full nm bytes len priority true hnf h1 h2 with
      ⟨h, _⟩ | ⟨j, s, hj, hs, _, _, _, _⟩
    · exact h
    · have := hall s (List.mem_iff_getElem?.mpr ⟨j, hj⟩)
      rw [hs] at this
      exact absurd this (by simp)

/-- Witness for the amended C19: a critical item of priority 0 on a full table
of four evicts the first of the two occupants of priority 3. -/
theorem critical_add_evicts_non_critical_witness :
    ∃ idx old,
      ([occupant 5 true, occupant 9 false, occupant 3 false, occupant 3 false])[idx]? = some old ∧
      old.critical = false ∧
      notification_manager_add
          ⟨[occupant 5 true, occupant 9 false, occupant 3 false, occupant 3 false], 4, 0, 0⟩
          (some [7]) 1 0 true =
        some (0, ⟨([occupant 5 true, occupant 9 false, occupant 3 false, occupant 3 false]).set idx
          { data := [7] ++ old.data.drop 1, len := 1, priority := 0, critical := true,
            retry_count := 0, in_use := true }, 4, 0, 0⟩) :=
  (critical_add_evicts_non_critical
    ⟨[occupant 5 true, occupant 9 false, occupant 3 false, occupant 3 false], 4, 0, 0⟩
    [7] 1 0 (by simp [table_full, occupant_in_use])
    (by simp [NotificationManager.wf, occupant_data_length])
    (by decide) (by decide) (by decide)).1
    ⟨occupant 9 false, by simp, rfl, by decide⟩

/-! ### C20 -/

/-- C20: when `notification_manager_add` returns 0 on a full table, the slot it
overwrites held a non-critical occupant whose priority is the lowest among the
non-critical occupants, at the lowest index among those of that priority; the
new priority is strictly greater than that occupant's or the new item is
critical; the new slot carries the new item with `retry_count` 0; every other
slot, in particular every slot holding a critical item, and `queue_count` are
unchanged. -/
theorem add_on_full_table_overwrites_lowest (nm nm' : NotificationManager)
    (data : Option (List Nat)) (len priority : Nat) (critical : Bool) (hfull : table_full nm)
    (hadd : notification_manager_add nm data len priority critical = some (0, nm')) :
    ∃ (idx : Nat) (old new : notification_item),
      nm.queue[idx]? = some old ∧ old.critical = false ∧
      (∀ (k : Nat) (t : notification_item), nm.queue[k]? = some t → t.critical = false →
        old.priority ≤ t.priority ∧ (t.priority = old.priority → idx ≤ k)) ∧
      (old.priority < priority ∨ critical = true) ∧
      nm'.queue = nm.queue.set idx new ∧ nm'.queue[idx]? = some new ∧
      new.retry_count = 0 ∧ new.priority = priority ∧ new.critical = critical ∧
      new.in_use = true ∧ new.len = len ∧
      (∀ k : Nat, k ≠ idx → nm'.queue[k]? = nm.queue[k]?) ∧
      (∀ (k : Nat) (t : notification_item),
        nm.queue[k]? = some t → t.critical = true → nm'.queue[k]? = some t) ∧
      nm'.queue_count = nm.queue_count := by
  have hnf : ¬ nm.queue_count < nm.queue.length := by rw [hfull.1]; omega
  cases data with
  | none =>
    have h := congrArg (Option.map Prod.fst) hadd
    simp [notification_manager_add, EINVAL] at h
  | some bytes =>
    by_cases hv : len = 0 ∨ len > 255
    · have e : notification_manager_add nm (some bytes) len priority critical
          = some (-EINVAL, nm) := by simp [notification_manager_add, hv]
      rw [e] at hadd
      have h := congrArg (Option.map Prod.fst) hadd
      simp [EINVAL] at h
    · rcases notification_manager_add_full nm bytes len priority critical hnf (by omega)
        (by omega) with ⟨h, _⟩ | ⟨j, s, hj, hs, _, hmin, hadm, hadd'⟩
      · rw [h] at hadd
        have h := congrArg (Option.map Prod.fst) hadd
        simp [ENOMEM] at h
      · rw [hadd'] at hadd
        cases hm : memcpy s.data bytes len with
        | none => rw [hm] at hadd; exact absurd hadd (by simp)
        | some d =>
          rw [hm, Option.some_bind] at hadd
          have hnm : nm' = { nm with
              queue := nm.queue.set j
                { data := d, len := len, priority := priority, critical := critical,
                  retry_count := 0, in_use := true } } :=
            ((Prod.mk.inj (Option.some.inj hadd)).2).symm
          have hjlt : j < nm.queue.length := by
            by_contra hge
            rw [List.getElem?_eq_none (by omega)] at hj
            exact absurd hj (by simp)
          subst hnm
          refine ⟨j, s, _, hj, hs, hmin, hadm, rfl, ?_, rfl, rfl, rfl, rfl, rfl, ?_, ?_, rfl⟩
          · simp only [List.getElem?_set_self, hjlt]
          · intro k hk
            exact List.getElem?_set_ne (Ne.symm hk)
          · intro k t hk ht
            have hkj : k ≠ j := by
              rintro rfl
              rw [hj] at hk
              have := Option.some.inj hk
              rw [this] at hs
              rw [hs] at ht
              exact absurd ht (by simp)
            show (nm.queue.set j _)[k]? = some t
            rw [List.getElem?_set_ne (Ne.symm hkj)]
            exact hk

/-- Witness for C20: a non-critical item of priority 4 on a full table of four
overwrites slot 2, the first of the two occupants of priority 3. -/
theorem add_on_full_table_overwrites_lowest_witness :
    ∃ (idx : Nat) (old new : notification_item),
      ([occupant 5 true, occupant 9 false, occupant 3 false, occupant 3 false])[idx]? = some old ∧
      old.critical = false ∧ (old.priority < 4 ∨ false = true) ∧ new.retry_count = 0 := by
  obtain ⟨idx, old, new, h1, h2, _, h4, _, _, h7, _⟩ := add_on_full_table_overwrites_lowest
    ⟨[occupant 5 true, occupant 9 false, occupant 3 false, occupant 3 false], 4, 0, 0⟩
    ⟨([occupant 5 true, occupant 9 false, occupant 3 false, occupant 3 false]).set 2
      { data := [7] ++ (occupant 3 false).data.drop 1, len := 1, priority := 4,
        critical := false, retry_count := 0, in_use := true }, 4, 0, 0⟩
    (some [7]) 1 4 false (by simp [table_full, occupant_in_use])
    (by simp [notification_manager_add, QUEUE_SIZE, find_lowest_priority, occupant_critical,
      occupant_priority, memcpy, rd_n, occupant_data_length])
  exact ⟨idx, old, new, h1, h2, h4, h7⟩

/-! ### C21 -/

/-- C21 fails for priority 0: on a table whose only occupied slot has priority
0, `find_highest_priority` answers -1 although a slot is occupied, and
`process_next_notification` returns 0 without attempting or freeing it. -/
theorem find_highest_priority_skips_priority_zero :
    (occupant 0 false).in_use = true ∧ (occupant 0 false).priority = 0 ∧
    find_highest_priority ⟨[occupant 0 false, zero_item], 1, 0, 0⟩ = none ∧
    process_next_notification 3 50 ⟨[occupant 0 false, zero_item], 1, 0, 0⟩ 0 1000 7
      = some (0, ⟨[occupant 0 false, zero_item], 1, 0, 0⟩, none) :=
  ⟨rfl, rfl, rfl, rfl⟩

/-! ### C22 -/

/-- C22: on a consistent table whose selected slot is `idx`, with `MAX_RETRIES`
fitting the 8-bit retry counter, `process_next_notification` returns what the
transport answered; when the answer is `-ENOMEM`, the item is high priority or
critical and `retry_count < MAX_RETRIES`, the slot is kept with `retry_count`
one higher, `queue_count` is unchanged and a backoff is scheduled; in every other
case (success, another error, low priority, retries used up) the slot is freed
and `queue_count` is one lower; every other slot is unchanged. -/
theorem process_next_notification_outcome (M P : Nat) (nm : NotificationManager) (err : Int)
    (now rand idx : Nat) (slot : notification_item) (hc : table_consistent nm) (hM : M ≤ 255)
    (hsel : find_highest_priority nm = some idx) (hslot : nm.queue[idx]? = some slot) :
    ∃ nm' b, process_next_notification M P nm err now rand = some (err, nm', b) ∧
      (∀ k : Nat, k ≠ idx → nm'.queue[k]? = nm.queue[k]?) ∧
      ((err = -ENOMEM ∧ (slot.priority ≥ P ∨ slot.critical = true) ∧ slot.retry_count < M) →
        nm'.queue[idx]? = some { slot with retry_count := slot.retry_count + 1 } ∧
        slot.in_use = true ∧ nm'.queue_count = nm.queue_count ∧ b.isSome = true) ∧
      (¬ (err = -ENOMEM ∧ (slot.priority ≥ P ∨ slot.critical = true) ∧ slot.retry_count < M) →
        nm'.queue[idx]? = some { slot with in_use := false } ∧
        nm'.queue_count + 1 = nm.queue_count ∧ b = none) := by
  rcases process_next_notification_cases M P nm err now rand hc with
    ⟨hn, _⟩ | ⟨idx', slot', hsel', hslot', huse, hpos, hretry, hretire⟩
  · rw [hn] at hsel
    exact absurd hsel (by simp)
  · rw [hsel] at hsel'
    have : idx = idx' := Option.some.inj hsel'
    subst this
    rw [hslot] at hslot'
    have : slot = slot' := Option.some.inj hslot'
    subst this
    have hlt : idx < nm.queue.length := by
      by_contra hge
      rw [List.getElem?_eq_none (by omega)] at hslot
      exact absurd hslot (by simp)
    by_cases hret : err = -ENOMEM ∧ (slot.priority ≥ P ∨ slot.critical = true) ∧
        slot.retry_count < M
    · refine ⟨_, _, hretry hret, ?_, ?_, ?_⟩
      · intro k hk
        exact List.getElem?_set_ne (Ne.symm hk)
      · intro _
        have hmod : (slot.retry_count + 1) % 256 = slot.retry_count + 1 := by omega
        refine ⟨?_, huse, (send_notification_queue nm err now).2, rfl⟩
        simp only [List.getElem?_set_self, hlt, hmod]
      · intro hn
        exact absurd hret hn
    · refine ⟨_, _, hretire hret, ?_, ?_, ?_⟩
      · intro k hk
        exact List.getElem?_set_ne (Ne.symm hk)
      · intro hy
        exact absurd hy hret
      · intro _
        refine ⟨?_, ?_, rfl⟩
        · simp only [List.getElem?_set_self, hlt]
        · simp only
          omega

/-- Witness for C22: on a table of three, the selected slot 1 (priority 70,
fresh) meets `-ENOMEM` with `MAX_RETRIES` 3 and `PRIORITY_HIGH` 50. -/
theorem process_next_notification_outcome_witness :
    ∃ nm' b, process_next_notification 3 50
        ⟨[occupant 3 false, occupant 70 false, zero_item], 2, 0, 0⟩ (-ENOMEM) 1000 7
          = some (-ENOMEM, nm', b) ∧
      nm'.queue[1]? = some { occupant 70 false with retry_count := 1 } ∧
      nm'.queue_count = 2 := by
  obtain ⟨nm', b, h1, _, h3, _⟩ := process_next_notification_outcome 3 50
    ⟨[occupant 3 false, occupant 70 false, zero_item], 2, 0, 0⟩ (-ENOMEM) 1000 7 1
    (occupant 70 false)
    ⟨rfl, by decide, by
      intro s hs
      simp only [List.mem_cons, List.mem_singleton, List.not_mem_nil, or_false] at hs
      rcases hs with rfl | rfl | rfl
      · exact ⟨occupant_data_length _ _, by decide⟩
      · exact ⟨occupant_data_length _ _, by decide⟩
      · exact ⟨List.length_replicate 256 0, by decide⟩⟩
    (by decide) rfl rfl
  have h := h3 ⟨rfl, Or.inl (by decide), by decide⟩
  exact ⟨nm', b, h1, h.1, h.2.2.1⟩

/-! ### C23 -/

/-- C23: in every state reached from `notification_manager_init` by adds,
delivery attempts and clears no slot has a `retry_count` above `MAX_RETRIES`; a
delivery attempt that meets `-ENOMEM` on a selected slot with
`retry_count = MAX_RETRIES` frees the slot; and, `MAX_RETRIES` being a value the
8-bit counter `retry_count` can reach (at most 255), after
`MAX_RETRIES + 1 - retry_count` attempts in a row that all meet `-ENOMEM` the
slot selected at the start has been freed, so a fresh notification is attempted
at most `MAX_RETRIES + 1` times. -/
theorem retries_are_bounded (M P : Nat) (nm0 : NotificationManager)
    (calls : List NotificationCall) (nm : NotificationManager)
    (hsize : nm0.queue.length < 2 ^ 32)
    (hrun : run_notification_calls M P (notification_manager_init nm0 true).2 calls = some nm) :
    (∀ s ∈ nm.queue, s.retry_count ≤ M) ∧
    (∀ (idx : Nat) (slot : notification_item) (now rand : Nat),
      find_highest_priority nm = some idx → nm.queue[idx]? = some slot →
      slot.retry_count = M →
      ∃ nm', process_next_notification M P nm (-ENOMEM) now rand = some (-ENOMEM, nm', none) ∧
        nm'.queue[idx]? = some { slot with in_use := false }) ∧
    (M ≤ 255 → ∀ (idx : Nat) (slot : notification_item) (readings : List (Nat × Nat)),
      find_highest_priority nm = some idx → nm.queue[idx]? = some slot →
      M + 1 ≤ slot.retry_count + readings.length →
      ∃ nm', enomem_attempts M P nm readings = some nm' ∧
        ∃ s', nm'.queue[idx]? = some s' ∧ s'.in_use = false) := by
  have h0 : table_consistent (notification_manager_init nm0 true).2 := by
    rw [notification_manager_init_eq_clear]
    exact zero_table_consistent nm0 hsize
  have hb0 : ∀ s ∈ (notification_manager_init nm0 true).2.queue, s.retry_count ≤ M := by
    intro s hs
    rw [notification_manager_init_eq_clear] at hs
    unfold notification_manager_clear at hs
    obtain ⟨_, _, rfl⟩ := List.mem_map.mp hs
    exact Nat.zero_le _
  obtain ⟨hc, hb⟩ := retries_stay_bounded M P calls _ nm h0 hb0 hrun
  refine ⟨hb, ?_, ?_⟩
  · intro idx slot now rand hsel hslot hr
    rcases process_next_notification_cases M P nm (-ENOMEM) now rand hc with
      ⟨hn, _⟩ | ⟨idx', slot', hsel', hslot', _, _, _, hretire⟩
    · rw [hn] at hsel
      exact absurd hsel (by simp)
    · rw [hsel] at hsel'
      have : idx = idx' := Option.some.inj hsel'
      subst this
      rw [hslot] at hslot'
      have : slot = slot' := Option.some.inj hslot'
      subst this
      have hlt : idx < nm.queue.length := by
        by_contra hge
        rw [List.getElem?_eq_none (by omega)] at hslot
        exact absurd hslot (by simp)
      refine ⟨_, hretire (by omega), ?_⟩
      simp only [List.getElem?_set_self, hlt]
  · intro hM idx slot readings hsel hslot hlen
    have hlt : idx < nm.queue.length := by
      by_contra hge
      rw [List.getElem?_eq_none (by omega)] at hslot
      exact absurd hslot (by simp)
    exact enomem_attempts_retire M P idx hM readings nm hc hlt
      (Or.inr ⟨slot, hsel, hslot, hb slot (List.mem_iff_getElem?.mpr ⟨idx, hslot⟩), hlen⟩)

set_option maxRecDepth 100000 in
/-- Witness for C23, with `MAX_RETRIES` 3 and `PRIORITY_HIGH` 50 on a table of
two slots.  After initialisation, the add of a notification of priority 70 and
three delivery attempts that meet `-ENOMEM`, slot 0 is still in use and selected
with `retry_count = 3`, no slot is above 3, and the fourth attempt frees the
slot.  Counted from the add, four attempts in a row that meet `-ENOMEM` leave
the slot free. -/
theorem retries_are_bounded_witness :
    (∃ nm slot,
      run_notification_calls 3 50
          (notification_manager_init ⟨[occupant 1 false, occupant 2 false], 5, 0, 0⟩ true).2
          [NotificationCall.add (some [7]) 1 70 false,
           NotificationCall.process (-ENOMEM) 100 0,
           NotificationCall.process (-ENOMEM) 300 0,
           NotificationCall.process (-ENOMEM) 700 0] = some nm ∧
      find_highest_priority nm = some 0 ∧ nm.queue[0]? = some slot ∧
      slot.in_use = true ∧ slot.retry_count = 3 ∧
      (∀ s ∈ nm.queue, s.retry_count ≤ 3) ∧
      ∃ nm', process_next_notification 3 50 nm (-ENOMEM) 1500 0 = some (-ENOMEM, nm', none) ∧
        nm'.queue[0]? = some { slot with in_use := false }) ∧
    (∃ nm slot,
      run_notification_calls 3 50
          (notification_manager_init ⟨[occupant 1 false, occupant 2 false], 5, 0, 0⟩ true).2
          [NotificationCall.add (some [7]) 1 70 false] = some nm ∧
      find_highest_priority nm = some 0 ∧ nm.queue[0]? = some slot ∧
      slot.in_use = true ∧ slot.retry_count = 0 ∧
      ∃ nm', enomem_attempts 3 50 nm [(100, 0), (300, 0), (700, 0), (1500, 0)] = some nm' ∧
        ∃ s', nm'.queue[0]? = some s' ∧ s'.in_use = false) := by
  have hrun1 : run_notification_calls 3 50
      (notification_manager_init ⟨[occupant 1 false, occupant 2 false], 5, 0, 0⟩ true).2
      [NotificationCall.add (some [7]) 1 70 false,
       NotificationCall.process (-ENOMEM) 100 0,
       NotificationCall.process (-ENOMEM) 300 0,
       NotificationCall.process (-ENOMEM) 700 0]
      = some ⟨[{ data := 7 :: List.replicate 255 0, len := 1, priority := 70, critical := false,
                 retry_count := 3, in_use := true }, zero_item], 1, 3, 700⟩ := rfl
  have hrun2 : run_notification_calls 3 50
      (notification_manager_init ⟨[occupant 1 false, occupant 2 false], 5, 0, 0⟩ true).2
      [NotificationCall.add (some [7]) 1 70 false]
      = some ⟨[{ data := 7 :: List.replicate 255 0, len := 1, priority := 70, critical := false,
                 retry_count := 0, in_use := true }, zero_item], 1, 0, 0⟩ := rfl
  have h1 := retries_are_bounded 3 50 ⟨[occupant 1 false, occupant 2 false], 5, 0, 0⟩ _ _
    (by decide) hrun1
  have h2 := retries_are_bounded 3 50 ⟨[occupant 1 false, occupant 2 false], 5, 0, 0⟩ _ _
    (by decide) hrun2
  exact ⟨⟨_, _, hrun1, rfl, rfl, rfl, rfl, h1.1, h1.2.1 0 _ 1500 0 rfl rfl rfl⟩,
    ⟨_, _, hrun2, rfl, rfl, rfl, rfl,
      h2.2.2 (by decide) 0 _ [(100, 0), (300, 0), (700, 0), (1500, 0)] rfl rfl (by decide)⟩⟩

/-! ### C24 -/

/-- C24 as stated fails when the 32-bit sum wraps: with the error counter at
42,949,671 the delay for retry count 0 is the cap 5000, and one error later,
with the counter at 42,949,672, the delay for retry count 1 is 153 (jitter 49). -/
theorem backoff_drops_when_sum_wraps :
    calculate_backoff 42949671 0 0 = 5000 ∧ calculate_backoff 42949672 1 49 = 153 := by
  decide

/-- C24, amended: every delay `calculate_backoff` computes is at most the cap
5000; and for successive retry counts `r`, `r + 1` (up to 25), a non-decreasing
error counter and any jitter, the delay does not decrease as long as the 32-bit
sum `100 * 2^(r+1) + 100 * counter + 49` does not wrap, which is the case for
every error counter up to 9,395,240. -/
theorem backoff_monotone_without_wrap (c1 c2 r j1 j2 : Nat) (hc : c1 ≤ c2)
    (_hr : r + 1 ≤ 25) (hnowrap : 100 * 2 ^ (r + 1) + 100 * c2 + 49 < 2 ^ 32) :
    calculate_backoff c1 r j1 ≤ calculate_backoff c2 (r + 1) j2 ∧
    (∀ c k j : Nat, calculate_backoff c k j ≤ 5000) ∧
    (∀ c k : Nat, k ≤ 25 → c ≤ 9395240 → 100 * 2 ^ k + 100 * c + 49 < 2 ^ 32) := by
  refine ⟨?_, ?_, ?_⟩
  · have hx : 1 ≤ 2 ^ r := Nat.one_le_two_pow
    have h2 : 2 ^ (r + 1) = 2 * 2 ^ r := by rw [pow_succ]; omega
    rw [calculate_backoff_no_wrap c2 (r + 1) j2 hnowrap,
      calculate_backoff_no_wrap c1 r j1 (by rw [h2] at hnowrap; omega), h2]
    have hj1 : j1 % 2 ^ 32 % 50 < 50 := Nat.mod_lt _ (by decide)
    generalize j1 % 2 ^ 32 % 50 = a at hj1
    generalize j2 % 2 ^ 32 % 50 = b
    generalize 2 ^ r = x at hx
    split_ifs <;> omega
  · intro c k j
    unfold calculate_backoff
    simp only
    split_ifs <;> omega
  · intro c k hk hc9
    have : 2 ^ k ≤ 2 ^ 25 := Nat.pow_le_pow_right (by decide) hk
    norm_num at this ⊢
    omega

/-- Witness for the amended C24: retry counts 3 and 4 with the error counter
going from 4 to 5. -/
theorem backoff_monotone_without_wrap_witness :
    calculate_backoff 4 3 49 ≤ calculate_backoff 5 4 0 :=
  (backoff_monotone_without_wrap 4 5 3 49 0 (by decide) (by decide) (by decide)).1

/-! ### C25 -/

/-- C25 fails: on the 64-byte buffer of `test_ble_protocol`,
`format_cpr_start_command` writes the frame 01 01 3A 01 3B 17, whose command
byte is 0x01, and `format_cpr_stop_command` writes 01 01 3A 02 3B 17, whose
command byte is 0x02; the dispatcher answers the first with an LED-on request
and no session start, and the second by starting the session. -/
theorem format_cpr_start_command_is_led_on :
    format_cpr_start_command (List.replicate 64 0) 64
      = some (6, [0x01, 0x01, 0x3A, 0x01, 0x3B, 0x17] ++ List.replicate 58 0) ∧
    format_cpr_stop_command (List.replicate 64 0) 64
      = some (6, [0x01, 0x01, 0x3A, 0x02, 0x3B, 0x17] ++ List.replicate 58 0) ∧
    process_command message_processor_init ⟨5000, 5000, 0, 70, true⟩
        [0x01, 0x01, 0x3A, 0x01, 0x3B, 0x17] 6
      = some (0, request_led_state message_processor_init true) ∧
    (process_command message_processor_init ⟨5000, 5000, 0, 70, true⟩
        [0x01, 0x01, 0x3A, 0x02, 0x3B, 0x17] 6).map
          (fun r => (r.1, is_cpr_session_active r.2.sess)) = some (0, true) := by
  decide

/-! ### C26 -/

/-- C26 fails for the six largest payload lengths: with `payload_len` 65535 the
16-bit `total_len` is 5, the size check passes, and after the four header bytes
the write of the SEMICOLON at offset 65539 falls outside the 244-byte buffer;
with `payload_len` 65530 and a payload the copy of 65530 bytes to offset 4
falls outside it.  The call does not return `-EINVAL`, while 65529 still does. -/
theorem send_ble_notification_length_wraps :
    send_ble_notification (List.replicate 244 0) 0x10 none 65535 0 = none ∧
    send_ble_notification (List.replicate 244 0) 0x10 (some (List.replicate 65530 7)) 65530 0
      = none ∧
    send_ble_notification (List.replicate 244 0) 0x10 none 65529 0
      = some (-EINVAL, List.replicate 244 0, none) := by
  refine ⟨?_, ?_, ?_⟩
  · exact send_ble_notification_wraps _ _ _ _ _ (List.length_replicate 244 0) (by decide)
      (by decide)
  · exact send_ble_notification_wraps _ _ _ _ _ (List.length_replicate 244 0) (by decide)
      (by decide)
  · unfold send_ble_notification
    rw [if_pos (by decide)]

/-! ### C27 -/

/-- C27: in every state reached from `notification_manager_init` by a sequence
of `notification_manager_add`, `process_next_notification` (with any transport
answer) and `notification_manager_clear` calls, `queue_count` is the number of
slots marked in use and is at most `QUEUE_SIZE`; and every such sequence whose
add calls hand over readable data does run through.  The table size is taken
to fit the 32-bit count. -/
theorem queue_count_counts_slots_in_use (M P : Nat) (nm0 : NotificationManager)
    (calls : List NotificationCall) (hsize : nm0.queue.length < 2 ^ 32) :
    (∀ nm, run_notification_calls M P (notification_manager_init nm0 true).2 calls = some nm →
      nm.queue_count = slots_in_use nm ∧ nm.queue_count ≤ QUEUE_SIZE nm ∧
      QUEUE_SIZE nm = QUEUE_SIZE nm0) ∧
    ((∀ c ∈ calls, call_readable c) →
      ∃ nm, run_notification_calls M P (notification_manager_init nm0 true).2 calls = some nm) := by
  have h0 : table_consistent (notification_manager_init nm0 true).2 := by
    rw [notification_manager_init_eq_clear]
    exact zero_table_consistent nm0 hsize
  constructor
  · intro nm h
    obtain ⟨hc, hl⟩ := run_notification_calls_consistent M P calls _ nm h0 h
    refine ⟨hc.1, ?_, ?_⟩
    · rw [hc.1]
      exact List.countP_le_length _
    · unfold QUEUE_SIZE
      rw [hl, notification_manager_init_eq_clear]
      unfold notification_manager_clear
      simp only [List.length_map]
  · intro hread
    exact run_notification_calls_total M P calls _ h0 hread

/-- Witness for C27: a table of two slots is initialised, takes three adds (the
third on a full table), one failed and one successful delivery, and a clear. -/
theorem queue_count_counts_slots_in_use_witness :
    ∃ nm, run_notification_calls 3 50
        (notification_manager_init ⟨[occupant 1 false, occupant 2 false], 5, 0, 0⟩ true).2
        [NotificationCall.add (some [7]) 1 10 false, NotificationCall.add (some [8]) 1 60 false,
          NotificationCall.add (some [9]) 1 70 true, NotificationCall.process (-ENOMEM) 1000 7,
          NotificationCall.process 0 2000 7, NotificationCall.clear] = some nm ∧
      nm.queue_count = slots_in_use nm ∧ nm.queue_count ≤ QUEUE_SIZE nm := by
  have h := queue_count_counts_slots_in_use 3 50
    ⟨[occupant 1 false, occupant 2 false], 5, 0, 0⟩
    [NotificationCall.add (some [7]) 1 10 false, NotificationCall.add (some [8]) 1 60 false,
      NotificationCall.add (some [9]) 1 70 true, NotificationCall.process (-ENOMEM) 1000 7,
      NotificationCall.process 0 2000 7, NotificationCall.clear] (by decide)
  obtain ⟨nm, hnm⟩ := h.2 (by simp [call_readable])
  obtain ⟨h1, h2, _⟩ := h.1 nm hnm
  exact ⟨nm, hnm, h1, h2⟩

/-! ### C28 -/

/-- C28: for every input that reaches the structural checks of `process_command`
(it is not one of the two unframed identity forms) and passes the length check
`5 + LEN ≤ len`, the offsets `3 + LEN` and `4 + LEN` lie inside the input, and if
the byte at `3 + LEN` is not 0x3B or the byte at `4 + LEN` is not 0x17 the
structural checks answer `-EINVAL` and `process_command` returns it with the
state untouched, so nothing is dispatched. -/
theorem wrong_terminator_rejected (st : State) (env : Env) (d : List Nat)
    (hin : d.take 3 ≠ USER_ROLE_INSTRUCTOR_PREFIX) (htr : d.take 3 ≠ USER_ROLE_TRAINEE_PREFIX)
    (hlen : 5 + d[1]?.getD 0 ≤ d.length) :
    3 + d[1]?.getD 0 < d.length ∧ 4 + d[1]?.getD 0 < d.length ∧
    (d[3 + d[1]?.getD 0]? ≠ some 0x3B ∨ d[4 + d[1]?.getD 0]? ≠ some 0x17 →
      frame_checks d d.length = some (Sum.inl (-EINVAL)) ∧
      process_command st env d d.length = some (-EINVAL, st) ∧ -EINVAL < 0) := by
  refine ⟨by omega, by omega, ?_⟩
  intro hbad
  have hv : frame_verdict d = Sum.inl (-EINVAL) := by
    unfold frame_verdict
    have g3 : d[3 + d[1]?.getD 0]? = some (d[3 + d[1]?.getD 0]?.getD 0) := by
      rw [List.getElem?_eq_getElem (show 3 + d[1]?.getD 0 < d.length by omega)]; rfl
    have g4 : d[4 + d[1]?.getD 0]? = some (d[4 + d[1]?.getD 0]?.getD 0) := by
      rw [List.getElem?_eq_getElem (show 4 + d[1]?.getD 0 < d.length by omega)]; rfl
    split_ifs with h1 h2 h3 h4 h5 h6 h7 <;> try rfl
    exfalso
    rcases hbad with hb | hb
    · rw [g3] at hb
      exact hb (by rw [not_not.mp h6])
    · rw [g4] at hb
      exact hb (by rw [not_not.mp h7])
  exact ⟨by rw [frame_checks_eq, hv], process_command_reject st env d hin htr hv, by decide⟩

/-- Witness for C28: the LED-on frame with its END byte replaced by 0x18. -/
theorem wrong_terminator_rejected_witness :
    frame_checks [0x01, 0x01, 0x3A, 0x01, 0x3B, 0x18] 6 = some (Sum.inl (-EINVAL)) ∧
    process_command message_processor_init ⟨5000, 5000, 0, 70, true⟩
        [0x01, 0x01, 0x3A, 0x01, 0x3B, 0x18] 6
      = some (-EINVAL, message_processor_init) ∧ -EINVAL < 0 :=
  (wrong_terminator_rejected message_processor_init ⟨5000, 5000, 0, 70, true⟩
    [0x01, 0x01, 0x3A, 0x01, 0x3B, 0x18] (by decide) (by decide) (by decide)).2.2
    (Or.inr (by decide))

/-! ### C29 -/

/-- C30 fails on identity and time frames.  For the frame that
`format_ble_command` builds from command 0x04 and payload "in:abc" (12 bytes),
`process_command` of message_processor.c stores the instructor id "abc" while
`process_command` of message_processor_simple.c stores "abc" followed by the
terminators 0x3B 0x17; for command 0x05 with the 12-byte payload "202506151200"
the first leaves the LED request flags untouched and the second requests the LED
on. -/
theorem dispatchers_disagree_on_payload_frames :
    format_ble_command (List.replicate 40 0) 40 0x04 (some [0x69, 0x6E, 0x3A, 0x61, 0x62, 0x63]) 6
      = some (12, [0x01, 0x07, 0x3A, 0x04, 0x69, 0x6E, 0x3A, 0x61, 0x62, 0x63, 0x3B, 0x17]
          ++ List.replicate 28 0) ∧
    (process_command message_processor_init ⟨5000, 5000, 0, 70, true⟩
        [0x01, 0x07, 0x3A, 0x04, 0x69, 0x6E, 0x3A, 0x61, 0x62, 0x63, 0x3B, 0x17] 12).map
          (fun r => (r.1, get_instructor_id r.2 20)) = some (0, ([0x61, 0x62, 0x63], 3)) ∧
    (Simple.process_command Simple.message_processor_init ⟨5000, 5000, 0, 70, true⟩ 7000
        [0x01, 0x07, 0x3A, 0x04, 0x69, 0x6E, 0x3A, 0x61, 0x62, 0x63, 0x3B, 0x17] 12).map
          (fun r => (r.1, Simple.get_instructor_id r.2 20))
      = some (0, ([0x61, 0x62, 0x63, 0x3B, 0x17], 5)) ∧
    (process_command message_processor_init ⟨5000, 5000, 0, 70, true⟩
        (frame_bytes 13 0x05 [0x32, 0x30, 0x32, 0x35, 0x30, 0x36, 0x31, 0x35, 0x31, 0x32, 0x30,
          0x30]) 18).map
          (fun r => (r.1, r.2.sess.led_request_pending)) = some (0, false) ∧
    (Simple.process_command Simple.message_processor_init ⟨5000, 5000, 0, 70, true⟩ 7000
        (frame_bytes 13 0x05 [0x32, 0x30, 0x32, 0x35, 0x30, 0x36, 0x31, 0x35, 0x31, 0x32, 0x30,
          0x30]) 18).map
          (fun r => (r.1, r.2.sess.led_request_pending)) = some (0, true) := by
  decide

end MainHub
